import Mathlib

/-!
Verification of the `rust_fin_parser` bank-statement codec library.

The development shallowly embeds the Rust sources of the `parser` crate:
Rust `&str`/`String` values are modelled as `List Char` (`RStr`), with
byte-level operations (lengths, slicing) made explicit via the UTF-8 byte
width of each character; byte slices that would land inside a multi-byte
character — which panic in Rust — are modelled by a dedicated `panic`
outcome.  Fallible Rust functions returning `Result<_, ParseError>` become
Lean functions into `Except ParseError _` (or `MRes _` when a panic is also
possible).  Machine integers are modelled as `Nat`/`Int`; where the Rust
code can wrap (u64 arithmetic in release builds) or truncate (`as u64`
casts) the reduction modulo `2^64` is written out explicitly.

Dates (`chrono::NaiveDate`) are modelled as year/month/day triples with the
proleptic-Gregorian validity check and chrono's year range; the behaviour
of the few chrono formatting/parsing directives the crate uses (`%y%m%d`,
`%m%d`, `%d.%m.%Y`, `%Y-%m-%d`, `%Y-%m-%dT%H:%M:%S`) is modelled directly.
-/

namespace FinParser

instance {ε α} [DecidableEq ε] [DecidableEq α] : DecidableEq (Except ε α) := fun x y =>
  match x, y with
  | .ok a, .ok b => if h : a = b then .isTrue (by rw [h]) else .isFalse (by simp [h])
  | .error a, .error b => if h : a = b then .isTrue (by rw [h]) else .isFalse (by simp [h])
  | .ok _, .error _ => .isFalse (by simp)
  | .error _, .ok _ => .isFalse (by simp)

/-- Rust string slices are modelled as lists of Unicode scalar values. -/
abbrev RStr := List Char

/-- Embeds a Lean string literal into the model. -/
def S (s : String) : RStr := s.data

/-- UTF-8 byte width of a character (`char::len_utf8` in Rust). -/
def utf8Len (c : Char) : Nat :=
  if c.toNat < 0x80 then 1
  else if c.toNat < 0x800 then 2
  else if c.toNat < 0x10000 then 3
  else 4

/-- UTF-8 byte length of a string (`str::len` in Rust). -/
def byteLen (s : RStr) : Nat := (s.map utf8Len).sum

/-- Unicode `White_Space` property, as used by Rust's `char::is_whitespace`. -/
def isRustWS (c : Char) : Bool :=
  (0x9 ≤ c.toNat && c.toNat ≤ 0xD) || c.toNat = 0x20 || c.toNat = 0x85 || c.toNat = 0xA0 ||
  c.toNat = 0x1680 || (0x2000 ≤ c.toNat && c.toNat ≤ 0x200A) ||
  c.toNat = 0x2028 || c.toNat = 0x2029 || c.toNat = 0x202F || c.toNat = 0x205F ||
  c.toNat = 0x3000

def isAsciiDigit (c : Char) : Bool := 48 ≤ c.toNat && c.toNat ≤ 57

def isAsciiAlpha (c : Char) : Bool :=
  (97 ≤ c.toNat && c.toNat ≤ 122) || (65 ≤ c.toNat && c.toNat ≤ 90)

def isAsciiAlnum (c : Char) : Bool := isAsciiDigit c || isAsciiAlpha c

/-- Rust `str::trim_start`. -/
def trimStart (s : RStr) : RStr := s.dropWhile (fun c => isRustWS c)

/-- Rust `str::trim_end`. -/
def trimEnd (s : RStr) : RStr := (s.reverse.dropWhile (fun c => isRustWS c)).reverse

/-- Rust `str::trim`. -/
def trim (s : RStr) : RStr := trimEnd (trimStart s)

/-- Rust `str::trim_end_matches(c)` for a single-char pattern. -/
def trimEndMatchesChar (s : RStr) (c : Char) : RStr :=
  (s.reverse.dropWhile (fun x => x = c)).reverse

/-- Rust `str::trim_end_matches(pred)` for a closure pattern. -/
def trimEndMatchesP (s : RStr) (p : Char → Bool) : RStr :=
  (s.reverse.dropWhile p).reverse

/-- Rust `str::trim_matches(pred)` for a closure pattern. -/
def trimMatchesP (s : RStr) (p : Char → Bool) : RStr :=
  ((s.dropWhile p).reverse.dropWhile p).reverse

/-- Rust `str::contains(c)` for a char pattern. -/
def containsChar (s : RStr) (c : Char) : Bool := s.any (fun x => x = c)

/-- Rust `str::starts_with(&str)`. -/
def startsWithStr (s pre : RStr) : Bool := pre.isPrefixOf s

/-- Rust `str::split(c)`: splits on every occurrence of `c`, keeping empty
pieces, always producing at least one piece. -/
def splitChar (s : RStr) (c : Char) : List RStr :=
  match s with
  | [] => [[]]
  | x :: xs =>
    let rest := splitChar xs c
    if x = c then [] :: rest
    else match rest with
         | [] => [[x]]
         | r :: rs => (x :: r) :: rs

theorem dropWhile_len_le (p : Char → Bool) (l : RStr) : (l.dropWhile p).length ≤ l.length := by
  induction l with
  | nil => simp
  | cons x xs ih =>
    by_cases h : p x
    · simp [List.dropWhile_cons, h]
      omega
    · simp [List.dropWhile_cons, h]

/-- Accumulator loop for `splitWS`; `cur` holds the current token in
reverse. -/
def splitWSAux : RStr → RStr → List RStr
  | [], cur => if cur.isEmpty then [] else [cur.reverse]
  | c :: t, cur =>
    if isRustWS c then
      if cur.isEmpty then splitWSAux t [] else cur.reverse :: splitWSAux t []
    else splitWSAux t (c :: cur)

/-- Rust `str::split_whitespace`: pieces between maximal whitespace runs,
with no empty pieces. -/
def splitWS (s : RStr) : List RStr := splitWSAux s []

/-- Value of a decimal digit character, `char::to_digit(10)` in Rust. -/
def digitVal10 (c : Char) : Option Nat :=
  if isAsciiDigit c then some (c.toNat - '0'.toNat) else none

/-- Numeric value of a list of decimal digit characters. -/
def digitsVal (ds : RStr) : Nat :=
  ds.foldl (fun acc c => acc * 10 + (c.toNat - '0'.toNat)) 0

def u64Max : Nat := 2 ^ 64 - 1

def u32Max : Nat := 2 ^ 32 - 1

/-- Rust `u64::from_str`: an optional `+` sign followed by at least one
ASCII digit, in range; anything else is a `ParseIntError`. -/
def u64FromStr (s : RStr) : Option Nat :=
  let body := if s.head? = some '+' then s.tail else s
  if body ≠ [] && body.all isAsciiDigit && digitsVal body ≤ u64Max then
    some (digitsVal body)
  else none

/-- Rust `u32::from_str`. -/
def u32FromStr (s : RStr) : Option Nat :=
  let body := if s.head? = some '+' then s.tail else s
  if body ≠ [] && body.all isAsciiDigit && digitsVal body ≤ u32Max then
    some (digitsVal body)
  else none

/-- Rust `i32::from_str`: an optional sign followed by at least one ASCII
digit, in `i32` range. -/
def i32FromStr (s : RStr) : Option Int :=
  let neg := s.head? = some '-'
  let body := if s.head? = some '-' || s.head? = some '+' then s.tail else s
  if body ≠ [] && body.all isAsciiDigit then
    let v : Int := if neg then -(digitsVal body : Int) else (digitsVal body : Int)
    if -(2 ^ 31 : Int) ≤ v && v ≤ 2 ^ 31 - 1 then some v else none
  else none

/-- Kind of a Rust `ParseIntError`; the exact kind never matters to the
library, only that an integer parse failed. -/
inductive IntErrKind
  | invalid
  deriving Repr, DecidableEq

/-- Model of the crate's `ParseError` (src/parser/src/error.rs).  Wrapped
third-party errors that the embedded fragment can actually produce keep a
payload; the rest are represented by their constructor alone. -/
inductive ParseError
  | date
  | int (k : IntErrKind)
  | invalidCurrency (msg : RStr)
  | invalidAmount (msg : RStr)
  | invalidDirection (msg : RStr)
  | missingField (name : RStr)
  | amountSideConflict
  | header (msg : RStr)
  | badInput (msg : RStr)
  | mt940Tag (msg : RStr)
  deriving Repr, DecidableEq

/-- Model of `Currency` (src/parser/src/model.rs). -/
inductive Currency
  | RUB
  | EUR
  | USD
  | CNY
  | Other (raw : RStr)
  deriving Repr, DecidableEq

/-- Model of `Direction` (src/parser/src/model.rs). -/
inductive Direction
  | Debit
  | Credit
  deriving Repr, DecidableEq

/-- Unicode lowercasing restricted to the scripts the crate's string
constants use (ASCII and Cyrillic); all other characters are fixed points
of this model (`str::to_lowercase` in Rust). -/
def toLowerRust (s : RStr) : RStr :=
  s.map (fun c =>
    if 65 ≤ c.toNat && c.toNat ≤ 90 then Char.ofNat (c.toNat + 32)
    else if 0x410 ≤ c.toNat && c.toNat ≤ 0x42F then Char.ofNat (c.toNat + 32)
    else if c.toNat = 0x401 then Char.ofNat 0x451
    else c)

/-- Uppercasing with the same script restriction (`str::to_uppercase`). -/
def toUpperRust (s : RStr) : RStr :=
  s.map (fun c =>
    if 97 ≤ c.toNat && c.toNat ≤ 122 then Char.ofNat (c.toNat - 32)
    else if 0x430 ≤ c.toNat && c.toNat ≤ 0x44F then Char.ofNat (c.toNat - 32)
    else if c.toNat = 0x451 then Char.ofNat 0x401
    else c)

/-- Model of `parse_currency` (src/parser/src/utils.rs): case-insensitive
synonym table, with unmatched input kept verbatim (trimmed). -/
def parse_currency (raw : RStr) : Currency :=
  let s := trim raw
  let lower := toLowerRust s
  if lower = S "российский рубль" || lower = S "рубль" || lower = S "руб." ||
     lower = S "rub" || lower = S "rur" then Currency.RUB
  else if lower = S "американский доллар" || lower = S "доллар сша" || lower = S "usd" then
    Currency.USD
  else if lower = S "евро" || lower = S "eur" then Currency.EUR
  else if lower = S "китайский юань" || lower = S "юань" || lower = S "cny" then Currency.CNY
  else Currency.Other s

/-- Normalisation performed by `parse_amount` before numeric parsing
(src/parser/src/utils.rs lines 20-28): trim, drop every space, then either
remove the commas (when a dot is also present in the raw input) or turn
the comma into the decimal point (when only commas are present). -/
def amountCleaned (raw : RStr) : RStr :=
  let cleaned0 := (trim raw).filter (fun c => c ≠ ' ')
  if containsChar raw ',' then
    if containsChar raw '.' then cleaned0.filter (fun c => c ≠ ',')
    else cleaned0.map (fun c => if c = ',' then '.' else c)
  else cleaned0

/-- Model of `parse_amount` (src/parser/src/utils.rs).  Wrapping of the
final `u64` arithmetic (Rust release profile) is written out as a reduction
modulo `2^64`. -/
def parse_amount (raw : RStr) : Except ParseError Nat :=
  let cleaned := amountCleaned raw
  if cleaned.isEmpty then
    .error (.invalidAmount (S "empty amount"))
  else if startsWithStr cleaned (S "-") then
    .error (.invalidAmount (S "negative amount: " ++ cleaned))
  else
    let parts := splitChar cleaned '.'
    let int_part := parts.headD []
    let dec_part := (parts.drop 1).headD []
    if parts.length > 2 then
      .error (.invalidAmount (S "too many dots in amount: " ++ cleaned))
    else
      match u64FromStr int_part with
      | none => .error (.int .invalid)
      | some ip =>
        let dec? : Except ParseError Nat :=
          match byteLen dec_part with
          | 0 => .ok 0
          | 1 =>
            match dec_part.head? >>= digitVal10 with
            | some d => .ok (d * 10)
            | none => .error (.invalidAmount (S "invalid fractional part: " ++ cleaned))
          | 2 =>
            match u64FromStr dec_part with
            | some d => .ok d
            | none => .error (.int .invalid)
          | _ =>
            .error (.invalidAmount (S "too many fractional digits in amount: " ++ cleaned))
        match dec? with
        | .error e => .error e
        | .ok d => .ok ((ip * 100 + d) % 2 ^ 64)

/-- Model of `parse_signed_balance` (src/parser/src/utils.rs). -/
def parse_signed_balance (raw : RStr) (dir : Direction) : Except ParseError Int :=
  match parse_amount raw with
  | .error e => .error e
  | .ok minor =>
    match dir with
    | .Credit => .ok (minor : Int)
    | .Debit => .ok (-(minor : Int))

/-- Fractional part seen by `parse_amount`: the second `.`-separated piece
of the cleaned string (empty when there is no dot). -/
def amountFracPart (raw : RStr) : RStr :=
  ((splitChar (amountCleaned raw) '.').drop 1).headD []

/-- Integer part seen by `parse_amount`: the first `.`-separated piece of
the cleaned string. -/
def amountIntPart (raw : RStr) : RStr :=
  (splitChar (amountCleaned raw) '.').headD []

/-- Conditions on which, according to the specification, `parse_amount`
fails with `InvalidAmount`: empty input after stripping, a leading `-`,
more than one decimal point, or more than two fractional digits.  This
definition follows the specification's words, to be compared with the
behaviour of `parse_amount` as translated from the source. -/
def specInvalidAmountConds (raw : RStr) : Bool :=
  let cleaned := amountCleaned raw
  cleaned.isEmpty || cleaned.head? = some '-' || cleaned.count '.' > 1 ||
    byteLen (amountFracPart raw) > 2

/-- True when `parse_amount` returned an `InvalidAmount` error. -/
def isInvalidAmountErr (r : Except ParseError Nat) : Bool :=
  match r with
  | .error (.invalidAmount _) => true
  | _ => false

/-- True when `parse_amount` returned a wrapped integer-parse error. -/
def isIntErr (r : Except ParseError Nat) : Bool :=
  match r with
  | .error (.int _) => true
  | _ => false

/-- Amended list of `InvalidAmount` conditions: the specification's four
conditions plus the case the code also rejects with `InvalidAmount`, namely
an exactly-one-byte fractional part that is not a decimal digit, and with
"more than two fractional digits" reachable only when the integer part
parses (the code checks the integer part first).  Follows the amended
claim's words. -/
def specInvalidAmountCondsAmended (raw : RStr) : Bool :=
  let cleaned := amountCleaned raw
  cleaned.isEmpty || cleaned.head? = some '-' || cleaned.count '.' > 1 ||
    (u64FromStr (amountIntPart raw) ≠ none &&
      (byteLen (amountFracPart raw) > 2 ||
       (byteLen (amountFracPart raw) = 1 &&
        ((amountFracPart raw).head? >>= digitVal10) = none)))

/-- Conditions under which `parse_amount` fails with a wrapped
integer-parse error: the integer part fails `u64` parsing, or it parses and
an exactly-two-byte fractional part fails `u64` parsing.  Follows the
amended claim's words. -/
def specIntErrConds (raw : RStr) : Bool :=
  let cleaned := amountCleaned raw
  !cleaned.isEmpty && !(cleaned.head? = some '-') && !(cleaned.count '.' > 1) &&
    (u64FromStr (amountIntPart raw) = none ||
     (byteLen (amountFracPart raw) = 2 && u64FromStr (amountFracPart raw) = none))


/-- Helper of `parse_amount_and_direction` (src/parser/src/csv_parser/utils.rs):
a cell is empty when it is missing or blank after trimming. -/
def optIsEmpty (v : Option RStr) : Bool :=
  match v with
  | some s => (trim s).isEmpty
  | none => true

/-- Helper of `parse_amount_and_direction`: match-guard condition of an arm,
true when the cell is present and non-blank. -/
def cellFilled (v : Option RStr) : Bool :=
  match v with
  | some s => !(trim s).isEmpty
  | none => false

/-- Model of `parse_amount_and_direction`
(src/parser/src/csv_parser/utils.rs lines 82-110).  The two guarded Rust
match arms are written as an ordered conditional chain; the `none` fallback
inside each branch is unreachable because the guard requires a present
cell. -/
def parse_amount_and_direction (debit credit : Option RStr) :
    Except ParseError (Nat × Direction) :=
  if cellFilled debit && optIsEmpty credit then
    match debit with
    | some d =>
      (match parse_amount d with
       | .error e => .error e
       | .ok a => .ok (a, .Debit))
    | none => .error .amountSideConflict
  else if cellFilled credit && optIsEmpty debit then
    match credit with
    | some c =>
      (match parse_amount c with
       | .error e => .error e
       | .ok a => .ok (a, .Credit))
    | none => .error .amountSideConflict
  else .error .amountSideConflict


/-! ## Date model (`chrono::NaiveDate`) -/

/-- Model of `chrono::NaiveDate`: a proleptic-Gregorian calendar date.
Values are only built through `fromYmdOpt`, mirroring
`NaiveDate::from_ymd_opt`. -/
structure NDate where
  y : Int
  m : Nat
  d : Nat
  deriving Repr, DecidableEq

def isLeap (y : Int) : Bool := (y % 4 = 0 && y % 100 ≠ 0) || y % 400 = 0

def daysInMonth (y : Int) (m : Nat) : Nat :=
  match m with
  | 1 => 31
  | 2 => if isLeap y then 29 else 28
  | 3 => 31
  | 4 => 30
  | 5 => 31
  | 6 => 30
  | 7 => 31
  | 8 => 31
  | 9 => 30
  | 10 => 31
  | 11 => 30
  | 12 => 31
  | _ => 0

/-- Model of `NaiveDate::from_ymd_opt`, including chrono's year range. -/
def fromYmdOpt (y : Int) (m d : Nat) : Option NDate :=
  if 1 ≤ m && m ≤ 12 && 1 ≤ d && d ≤ daysInMonth y m &&
     -262144 ≤ y && y ≤ 262142 then
    some ⟨y, m, d⟩
  else none

/-- Chronological order on dates (the `Ord` instance of `NaiveDate`). -/
def dateLe (a b : NDate) : Bool :=
  a.y < b.y || (a.y = b.y && (a.m < b.m || (a.m = b.m && a.d ≤ b.d)))

/-- Rust `Ord::min`. -/
def dateMin (a b : NDate) : NDate := if dateLe a b then a else b

/-- Rust `Ord::max`. -/
def dateMax (a b : NDate) : NDate := if dateLe a b then b else a

/-- Rust `Iterator::max` over dates. -/
def listMaxDate (l : List NDate) : Option NDate :=
  l.foldl (fun acc d =>
    match acc with
    | none => some d
    | some a => some (dateMax a d)) none

/-! ## Canonical model (`src/parser/src/model.rs`) -/

/-- Model of `Transaction`: amount is the `u64` minor-unit magnitude. -/
structure Transaction where
  booking_date : NDate
  value_date : Option NDate
  amount : Nat
  direction : Direction
  description : RStr
  counterparty : Option RStr
  counterparty_name : Option RStr
  deriving Repr, DecidableEq

/-- Model of `Statement`; balances are `i128` minor units. -/
structure Statement where
  account_id : RStr
  account_name : Option RStr
  currency : Currency
  opening_balance : Option Int
  closing_balance : Option Int
  transactions : List Transaction
  period_from : NDate
  period_until : NDate
  deriving Repr, DecidableEq

/-! ## camt.053 raw model (`src/parser/src/camt053/serde_models.rs`)

The XML deserialisation layer (quick-xml/serde) is outside the embedding;
the structures below model the already-deserialised document tree on which
all the crate's own camt.053 logic operates. -/

structure CamtAmtXml where
  currency : RStr
  value : RStr
  deriving Repr, DecidableEq

structure CamtDateXml where
  date : RStr
  deriving Repr, DecidableEq

structure Camt053BalanceCodeOrProprietary where
  code : Option RStr
  deriving Repr, DecidableEq

structure Camt053BalanceType where
  code_or_proprietary : Camt053BalanceCodeOrProprietary
  deriving Repr, DecidableEq

structure Camt053Balance where
  balance_type : Camt053BalanceType
  amount : CamtAmtXml
  cdt_dbt_ind : Option RStr
  date : Option CamtDateXml
  deriving Repr, DecidableEq

structure CamtRefs where
  end_to_end_id : Option RStr
  tx_id : Option RStr
  instr_id : Option RStr
  pmt_inf_id : Option RStr
  deriving Repr, DecidableEq

structure CamtMoney where
  currency : RStr
  value : RStr
  deriving Repr, DecidableEq

structure CamtCurrencyExchange where
  src_ccy : Option RStr
  trgt_ccy : Option RStr
  unit_ccy : Option RStr
  rate : Option RStr
  deriving Repr, DecidableEq

structure CamtInstructedAmount where
  amount : CamtMoney
  deriving Repr, DecidableEq

structure CamtTransactionAmount where
  amount : CamtMoney
  fx : Option CamtCurrencyExchange
  deriving Repr, DecidableEq

structure CamtAmountDetails where
  instructed : Option CamtInstructedAmount
  transaction : Option CamtTransactionAmount
  deriving Repr, DecidableEq

structure CamtPostalAddress where
  street : Option RStr
  postcode : Option RStr
  town : Option RStr
  country : Option RStr
  deriving Repr, DecidableEq

structure CamtPartyId where
  deriving Repr, DecidableEq

structure CamtParty where
  name : Option RStr
  postal_address : Option CamtPostalAddress
  id : Option CamtPartyId
  deriving Repr, DecidableEq

structure CamtAccountId where
  iban : Option RStr
  deriving Repr, DecidableEq

structure CamtAccount where
  id : CamtAccountId
  deriving Repr, DecidableEq

structure CamtRelatedParties where
  debtor : Option CamtParty
  debtor_account : Option CamtAccount
  creditor : Option CamtParty
  creditor_account : Option CamtAccount
  ultimate_debtor : Option CamtParty
  ultimate_creditor : Option CamtParty
  deriving Repr, DecidableEq

structure CamtStructuredRemittance where
  deriving Repr, DecidableEq

structure CamtRemittanceInfo where
  unstructured : List RStr
  structured : List CamtStructuredRemittance
  deriving Repr, DecidableEq

structure CamtRelatedDates where
  acceptance_datetime : Option RStr
  deriving Repr, DecidableEq

structure CamtTxDtls where
  refs : Option CamtRefs
  amount_details : Option CamtAmountDetails
  related_parties : Option CamtRelatedParties
  rmt_inf : Option CamtRemittanceInfo
  related_datetimes : Option CamtRelatedDates
  deriving Repr, DecidableEq

structure CamtEntryDetails where
  tx_details : List CamtTxDtls
  deriving Repr, DecidableEq

structure Camt053Entry where
  amount : CamtAmtXml
  cdt_dbt_ind : RStr
  booking_date : CamtDateXml
  value_date : CamtDateXml
  details : Option CamtEntryDetails
  deriving Repr, DecidableEq

structure Camt053AccountId where
  iban : Option RStr
  deriving Repr, DecidableEq

structure Camt053Account where
  id : Camt053AccountId
  name : Option RStr
  currency : Option RStr
  deriving Repr, DecidableEq

/-- Model of `Camt053Period`; the Rust fields `from`/`to` are named
`fromDt`/`toDt` here because `from` is a Lean keyword. -/
structure Camt053Period where
  fromDt : Option RStr
  toDt : Option RStr
  deriving Repr, DecidableEq

structure Camt053Statement where
  id : Option RStr
  sequence_number : Option Nat
  created_at : Option RStr
  period : Option Camt053Period
  account : Camt053Account
  balances : List Camt053Balance
  entries : List Camt053Entry
  deriving Repr, DecidableEq

/-! ## camt.053 conversion logic (`src/parser/src/camt053.rs` and
`src/parser/src/camt053/utils.rs`) -/

/-- Model of `detect_currency` (src/parser/src/camt053/utils.rs lines
7-28).  The Rust `find_map(|bal| Some(..))` over the balances returns the
first balance's currency whenever the list is non-empty. -/
def detect_currency (stmt : Camt053Statement) : Except ParseError Currency :=
  match stmt.account.currency with
  | some ccy => .ok (parse_currency ccy)
  | none =>
    match stmt.balances with
    | bal :: _ => .ok (parse_currency bal.amount.currency)
    | [] =>
      match stmt.entries with
      | e :: _ => .ok (parse_currency e.amount.currency)
      | [] => .error (.invalidCurrency (S "no currency found"))

/-- Model of `balance_from_camt` (src/parser/src/camt053/utils.rs).  The
original error message interpolates the offending indicator with `{:?}`;
the model keeps the fixed prefix. -/
def balance_from_camt (bal : Camt053Balance) : Except ParseError Int :=
  match bal.cdt_dbt_ind with
  | some s =>
    if s = S "CRDT" then parse_signed_balance bal.amount.value .Credit
    else if s = S "DBIT" then parse_signed_balance bal.amount.value .Debit
    else .error (.invalidAmount (S "unknown CdtDbtInd: "))
  | none => .error (.invalidAmount (S "unknown CdtDbtInd: "))

/-- Model of `extract_balances` (src/parser/src/camt053/utils.rs lines
45-66): a parse failure of a matched balance is discarded with `.ok()`,
leaving the corresponding side `None`. -/
def extract_balances (stmt : Camt053Statement) : Option Int × Option Int :=
  stmt.balances.foldl (fun acc bal =>
    let code := bal.balance_type.code_or_proprietary.code
    let parsed := (balance_from_camt bal).toOption
    if code = some (S "OPBD") then (parsed, acc.2)
    else if code = some (S "CLBD") then (acc.1, parsed)
    else acc) (none, none)

/-- Greedy run of ASCII digits: the digits read and the rest. -/
def spanDigits (s : RStr) : RStr × RStr :=
  (s.takeWhile isAsciiDigit, s.dropWhile isAsciiDigit)

/-- Model of chrono's parsing for the `"%Y-%m-%d"` format as used by
`parse_camt_date_to_naive`: a 4-digit year, a dash, a 1-2-digit month, a
dash, a 1-2-digit day, and nothing else; the components are then validated
by `from_ymd_opt`. -/
def parseIsoDate (s : RStr) : Option NDate :=
  let (ys, r1) := spanDigits s
  if ys.length = 4 then
    match r1 with
    | '-' :: r2 =>
      let (ms, r3) := spanDigits r2
      if 1 ≤ ms.length && ms.length ≤ 2 then
        match r3 with
        | '-' :: r4 =>
          let (ds, r5) := spanDigits r4
          if (1 ≤ ds.length && ds.length ≤ 2) && r5.isEmpty then
            fromYmdOpt (digitsVal ys) (digitsVal ms) (digitsVal ds)
          else none
        | _ => none
      else none
    | _ => none
  else none

/-- Model of chrono's parsing for `"%Y-%m-%dT%H:%M:%S"` (the date part is
returned, as in `NaiveDateTime::date`): the date as in `parseIsoDate`,
then `T`, then 1-2-digit hour, minute and second separated by `:` with the
usual bounds (chrono accepts second 60 as a leap second). -/
def parseIsoDateTimeDate (s : RStr) : Option NDate :=
  let (ys, r1) := spanDigits s
  if ys.length = 4 then
    match r1 with
    | '-' :: r2 =>
      let (ms, r3) := spanDigits r2
      if 1 ≤ ms.length && ms.length ≤ 2 then
        match r3 with
        | '-' :: r4 =>
          let (ds, r5) := spanDigits r4
          if 1 ≤ ds.length && ds.length ≤ 2 then
            match r5 with
            | 'T' :: r6 =>
              let (hs, r7) := spanDigits r6
              if (1 ≤ hs.length && hs.length ≤ 2) && digitsVal hs ≤ 23 then
                match r7 with
                | ':' :: r8 =>
                  let (mins, r9) := spanDigits r8
                  if (1 ≤ mins.length && mins.length ≤ 2) && digitsVal mins ≤ 59 then
                    match r9 with
                    | ':' :: r10 =>
                      let (ss, r11) := spanDigits r10
                      if ((1 ≤ ss.length && ss.length ≤ 2) && digitsVal ss ≤ 60) &&
                          r11.isEmpty then
                        fromYmdOpt (digitsVal ys) (digitsVal ms) (digitsVal ds)
                      else none
                    | _ => none
                  else none
                | _ => none
              else none
            | _ => none
          else none
        | _ => none
      else none
    | _ => none
  else none

/-- Model of `parse_camt_date_to_naive` (src/parser/src/camt053/utils.rs). -/
def parse_camt_date_to_naive (s : RStr) : Except ParseError NDate :=
  match parseIsoDate s with
  | some d => .ok d
  | none =>
    match parseIsoDateTimeDate s with
    | some d => .ok d
    | none => .error (.badInput (S "invalid CAMT date: " ++ s))

/-- Min/max fold over entry booking dates inside `detect_period`. -/
def periodFold : List Camt053Entry → Option NDate → Option NDate →
    Except ParseError (Option NDate × Option NDate)
  | [], mn, mx => .ok (mn, mx)
  | e :: rest, mn, mx =>
    match parse_camt_date_to_naive e.booking_date.date with
    | .error er => .error er
    | .ok d =>
      let mn2 := some (match mn with
                       | some cur => dateMin cur d
                       | none => d)
      let mx2 := some (match mx with
                       | some cur => dateMax cur d
                       | none => d)
      periodFold rest mn2 mx2

/-- Model of `detect_period` (src/parser/src/camt053/utils.rs lines
79-110). -/
def detect_period (stmt : Camt053Statement) : Except ParseError (NDate × NDate) :=
  let explicit : Option (RStr × RStr) :=
    match stmt.period with
    | some p =>
      match p.fromDt, p.toDt with
      | some rawF, some rawT => some (rawF, rawT)
      | _, _ => none
    | none => none
  match explicit with
  | some (rawF, rawT) =>
    match parse_camt_date_to_naive rawF with
    | .error er => .error er
    | .ok f =>
      match parse_camt_date_to_naive rawT with
      | .error er => .error er
      | .ok t => .ok (f, t)
  | none =>
    match periodFold stmt.entries none none with
    | .error er => .error er
    | .ok (some mn, some mx) => .ok (mn, mx)
    | .ok _ => .error (.badInput (S "missing camt statement period"))

/-- Model of `counterparty_from_tx` (src/parser/src/camt053/utils.rs). -/
def counterparty_from_tx (tx : CamtTxDtls) (direction : Direction) :
    Option RStr × Option RStr :=
  match tx.related_parties with
  | none => (none, none)
  | some parties =>
    let party_opt :=
      match direction with
      | .Debit => parties.ultimate_creditor.orElse (fun _ => parties.creditor)
      | .Credit => parties.ultimate_debtor.orElse (fun _ => parties.debtor)
    let counterparty_name := party_opt.bind (fun p => p.name)
    let account_opt :=
      match direction with
      | .Debit => parties.creditor_account
      | .Credit => parties.debtor_account
    let counterparty_id := account_opt.bind (fun acc => acc.id.iban)
    (counterparty_id, counterparty_name)

/-- Join with a separator, Rust `Vec::join`. -/
def joinSep (sep : RStr) (xs : List RStr) : RStr := List.intercalate sep xs

/-- Model of `description_from_tx` (src/parser/src/camt053/utils.rs). -/
def description_from_tx (tx : CamtTxDtls) : RStr :=
  match tx.rmt_inf with
  | some rmt => if !rmt.unstructured.isEmpty then joinSep (S "\n") rmt.unstructured else []
  | none => []

/-- Model of `TryFrom<&Camt053Entry> for Transaction`
(src/parser/src/camt053.rs lines 82-128). -/
def camtTxFromEntry (entry : Camt053Entry) : Except ParseError Transaction :=
  let dirE : Except ParseError Direction :=
    if entry.cdt_dbt_ind = S "CRDT" then .ok .Credit
    else if entry.cdt_dbt_ind = S "DBIT" then .ok .Debit
    else .error (.invalidAmount (S "unknown direction (CdtDbtInd): " ++ entry.cdt_dbt_ind))
  match dirE with
  | .error e => .error e
  | .ok direction =>
    match parse_amount entry.amount.value with
    | .error e => .error e
    | .ok amount =>
      match parse_camt_date_to_naive entry.booking_date.date with
      | .error e => .error e
      | .ok booking_date =>
        match parse_camt_date_to_naive entry.value_date.date with
        | .error e => .error e
        | .ok value_date =>
          let tx_dtls := entry.details.bind (fun d => d.tx_details.head?)
          let (counterparty, counterparty_name, description) :=
            match tx_dtls with
            | some td =>
              let (cp, cpn) := counterparty_from_tx td direction
              (cp, cpn, description_from_tx td)
            | none => (none, none, [])
          .ok ⟨booking_date, some value_date, amount, direction, description,
               counterparty, counterparty_name⟩

/-- Left-to-right conversion of all entries, failing on the first error
(the `collect::<Result<_, _>>` in `TryFrom<Camt053Statement>`). -/
def camtTxsFromEntries : List Camt053Entry → Except ParseError (List Transaction)
  | [] => .ok []
  | e :: rest =>
    match camtTxFromEntry e with
    | .error er => .error er
    | .ok t =>
      match camtTxsFromEntries rest with
      | .error er => .error er
      | .ok ts => .ok (t :: ts)

/-- Model of `TryFrom<Camt053Statement> for Statement`
(src/parser/src/camt053.rs lines 140-173). -/
def camtStatementToStatement (stmt : Camt053Statement) : Except ParseError Statement :=
  let account_id := stmt.account.id.iban.getD (S "not provided")
  let account_name := stmt.account.name
  match detect_currency stmt with
  | .error e => .error e
  | .ok currency =>
    let (opening_balance, closing_balance) := extract_balances stmt
    match detect_period stmt with
    | .error e => .error e
    | .ok (period_from, period_until) =>
      match camtTxsFromEntries stmt.entries with
      | .error e => .error e
      | .ok transactions =>
        .ok ⟨account_id, account_name, currency, opening_balance, closing_balance,
             transactions, period_from, period_until⟩


/-- True when an error is the `InvalidCurrency` kind. -/
def isInvCur (e : ParseError) : Bool :=
  match e with
  | .invalidCurrency _ => true
  | _ => false

/-- Sample camt.053 statement whose account carries a currency attribute. -/
def sampleCamtAccountCcy : Camt053Statement :=
  ⟨none, none, none, none, ⟨⟨none⟩, none, some (S "EUR")⟩, [], []⟩

/-- Sample camt.053 statement with no currency source at all. -/
def sampleCamtEmpty : Camt053Statement :=
  ⟨none, none, none, none, ⟨⟨none⟩, none, none⟩, [], []⟩


/-! ## MT940 embedding: panic-aware byte slicing

Rust indexes `&str` by bytes and panics when an index is not a character
boundary.  `MRes` adds that panic outcome next to `ParseError`. -/

/-- Outcome channel for code that can also panic (byte-slice of a `&str`
at a non-boundary, or a violated `expect`). -/
inductive RtErr
  | panic (msg : RStr)
  | err (e : ParseError)
  deriving Repr, DecidableEq

abbrev MRes (α : Type) := Except RtErr α

def liftPE {α} (r : Except ParseError α) : MRes α :=
  match r with
  | .ok a => .ok a
  | .error e => .error (.err e)

/-- Drop exactly `b` bytes; `none` when `b` overruns the string or falls
inside a multi-byte character (`&s[b..]` panics there). -/
def dropBytes : RStr → Nat → Option RStr
  | s, 0 => some s
  | [], _ + 1 => none
  | c :: t, b + 1 =>
    if utf8Len c ≤ b + 1 then dropBytes t (b + 1 - utf8Len c) else none

/-- Take exactly `b` bytes under the same boundary discipline. -/
def takeBytes : RStr → Nat → Option RStr
  | _, 0 => some []
  | [], _ + 1 => none
  | c :: t, b + 1 =>
    if utf8Len c ≤ b + 1 then (takeBytes t (b + 1 - utf8Len c)).map (c :: ·) else none

/-- Rust `&s[a..b]`. -/
def sliceBytes (s : RStr) (a b : Nat) : Option RStr :=
  if a ≤ b then (dropBytes s a).bind (fun t => takeBytes t (b - a)) else none

def pSliceFrom (s : RStr) (a : Nat) : MRes RStr :=
  match dropBytes s a with
  | some t => .ok t
  | none => .error (.panic (S "byte index is not a char boundary"))

def pSliceRange (s : RStr) (a b : Nat) : MRes RStr :=
  match sliceBytes s a b with
  | some t => .ok t
  | none => .error (.panic (S "byte index is not a char boundary"))

def pTakeBytes (s : RStr) (b : Nat) : MRes RStr :=
  match takeBytes s b with
  | some t => .ok t
  | none => .error (.panic (S "byte index is not a char boundary"))

/-- Byte index of the first occurrence of `pat` (Rust `str::find(&str)`).
All patterns used by the crate are ASCII, so a byte-level match always
starts at a character boundary. -/
def findSubPos (pat : RStr) : RStr → Option Nat
  | [] => if pat.isPrefixOf ([] : RStr) then some 0 else none
  | c :: t =>
    if pat.isPrefixOf (c :: t) then some 0
    else (findSubPos pat t).map (utf8Len c + ·)

/-- Split at the first occurrence of the character `c`: the part before and
the part starting with `c` (Rust `find(c)` + `split_at`). -/
def splitAtFirstChar : RStr → Char → Option (RStr × RStr)
  | [], _ => none
  | x :: t, c =>
    if x = c then some ([], x :: t)
    else (splitAtFirstChar t c).map (fun p => (x :: p.1, p.2))

/-- Split at the first occurrence of the substring `pat`: the part before
and the part starting with the match (Rust `find(&str)` + `split_at`). -/
def splitAtFirstSub (s pat : RStr) : Option (RStr × RStr) :=
  match s with
  | [] => if pat.isPrefixOf ([] : RStr) then some ([], []) else none
  | c :: t =>
    if pat.isPrefixOf (c :: t) then some ([], c :: t)
    else (splitAtFirstSub t pat).map (fun p => (c :: p.1, p.2))

/-! ## MT940 raw model (`src/parser/src/mt940.rs`) -/

structure Mt940Balance where
  dc_mark : Char
  date : RStr
  currency : RStr
  amount : RStr
  deriving Repr, DecidableEq

structure Mt940EntryInfo where
  lines : List RStr
  deriving Repr, DecidableEq

structure Mt940Entry where
  raw_61 : RStr
  value_date : RStr
  entry_date : Option RStr
  dc_mark : Char
  funds_code : Option Char
  amount : RStr
  transaction_type : Option RStr
  customer_reference : Option RStr
  bank_reference : Option RStr
  extra_details : Option RStr
  info : Mt940EntryInfo
  deriving Repr, DecidableEq

structure Mt940Message where
  transaction_reference : Option RStr
  account_id : RStr
  statement_number : Option RStr
  opening_balance : Mt940Balance
  entries : List Mt940Entry
  closing_balance : Option Mt940Balance
  closing_available_balance : Option Mt940Balance
  deriving Repr, DecidableEq

/-- Model of `parse_balance` (src/parser/src/mt940.rs lines 33-69).  The
`&value[1..]` and fixed-range slices can panic on multi-byte characters. -/
def parse_balance (value0 : RStr) : MRes Mt940Balance :=
  let value := trim value0
  if byteLen value < 11 then
    .error (.err (.badInput (S "balance value too short: '" ++ value ++ S "'")))
  else
    match value.head? with
    | none => .error (.err (.badInput (S "empty balance value")))
    | some dc_mark =>
      match dropBytes value 1 with
      | none => .error (.panic (S "byte index is not a char boundary"))
      | some rest =>
        if byteLen rest < 9 then
          .error (.err (.badInput
            (S "balance value too short for date+currency: '" ++ value ++ S "'")))
        else do
          let date ← pSliceRange rest 0 6
          let currency ← pSliceRange rest 6 9
          let amount ← pSliceFrom rest 9
          pure ⟨dc_mark, date, currency, trim amount⟩

/-- Model of `split_tag_line` (src/parser/src/mt940/utils.rs lines 15-30);
its slices sit right after ASCII `:` characters, so it never panics. -/
def split_tag_line (line0 : RStr) : Except ParseError (RStr × RStr) :=
  let line := trimStart line0
  if !startsWithStr line (S ":") then
    .error (.mt940Tag (S "tag line must start with ':'"))
  else
    let rest := line.tail
    match splitAtFirstChar rest ':' with
    | none => .error (.mt940Tag (S "bad tag line (unclosed tag): " ++ line))
    | some (tag_raw, value_with_colon) => .ok (trim tag_raw, value_with_colon.tail)

/-- Model of `parse_mt940_yy_mm_dd` (src/parser/src/mt940/utils.rs lines
32-55): two-digit years 00-79 map to the 2000s and 80-99 to the 1900s. -/
def parse_mt940_yy_mm_dd (s : RStr) : MRes NDate :=
  if byteLen s ≠ 6 then
    .error (.err (.badInput (S "invalid YYMMDD date: '" ++ s ++ S "'")))
  else do
    let yyS ← pSliceRange s 0 2
    let mmS ← pSliceRange s 2 4
    let ddS ← pSliceRange s 4 6
    match i32FromStr yyS with
    | none => .error (.err (.badInput (S "invalid year in YYMMDD: '" ++ s ++ S "'")))
    | some yy =>
      match u32FromStr mmS with
      | none => .error (.err (.badInput (S "invalid month in YYMMDD: '" ++ s ++ S "'")))
      | some mm =>
        match u32FromStr ddS with
        | none => .error (.err (.badInput (S "invalid day in YYMMDD: '" ++ s ++ S "'")))
        | some dd =>
          let year := if yy ≥ 80 then 1900 + yy else 2000 + yy
          match fromYmdOpt year mm dd with
          | some d => .ok d
          | none =>
            .error (.err (.badInput (S "invalid YYMMDD date components: '" ++ s ++ S "'")))

/-- Model of `derive_booking_date` (src/parser/src/mt940/utils.rs lines
57-99): no override keeps the value date; a 4-byte override is MM/DD in the
value date's year; a 2-byte override is DD in the value date's month and
year; any other length is an error. -/
def derive_booking_date (value_date : NDate) (entry_date : Option RStr) : MRes NDate :=
  match entry_date with
  | none => .ok value_date
  | some ed =>
    if byteLen ed = 4 then do
      let mmS ← pSliceRange ed 0 2
      let ddS ← pSliceRange ed 2 4
      match u32FromStr mmS with
      | none => .error (.err (.badInput (S "invalid MMDD in entry date: '" ++ ed ++ S "'")))
      | some mm =>
        match u32FromStr ddS with
        | none =>
          .error (.err (.badInput (S "invalid MMDD in entry date: '" ++ ed ++ S "'")))
        | some dd =>
          match fromYmdOpt value_date.y mm dd with
          | some d => .ok d
          | none =>
            .error (.err (.badInput (S "invalid MMDD entry date: '" ++ ed ++ S "'")))
    else if byteLen ed = 2 then
      match u32FromStr ed with
      | none => .error (.err (.badInput (S "invalid DD in entry date: '" ++ ed ++ S "'")))
      | some dd =>
        match fromYmdOpt value_date.y value_date.m dd with
        | some d => .ok d
        | none => .error (.err (.badInput (S "invalid DD entry date: '" ++ ed ++ S "'")))
    else
      .error (.err (.badInput (S "entry date must be 2 or 4 digits, got '" ++ ed ++ S "'")))

/-- Model of `parse_dc_and_amount` (src/parser/src/mt940/utils.rs lines
232-267); `take_char` and `take_while` advance by whole characters, so this
function never panics. -/
def parse_dc_and_amount (rest0 full_value : RStr) :
    Except ParseError (Char × Option Char × RStr × RStr) :=
  match rest0 with
  | [] => .error (.badInput (S "no debit/credit mark in :61: '" ++ full_value ++ S "'"))
  | dc_mark :: r1 =>
    let fcr :=
      match r1 with
      | c :: t =>
        if isAsciiAlpha c && c ≠ 'C' && c ≠ 'D' then (some c, t) else (none, r1)
      | [] => ((none : Option Char), r1)
    let amount := fcr.2.takeWhile (fun ch => isAsciiDigit ch || ch = ',' || ch = '.')
    let r3 := fcr.2.dropWhile (fun ch => isAsciiDigit ch || ch = ',' || ch = '.')
    if amount.isEmpty then
      .error (.badInput (S "no amount found in :61: '" ++ full_value ++ S "'"))
    else .ok (dc_mark, fcr.1, amount, r3)

/-- Model of `Mt940Entry::from_61_line` (src/parser/src/mt940.rs lines
398-473). -/
def from_61_line (value0 raw_61 : RStr) : MRes Mt940Entry :=
  let value := trim value0
  let len := byteLen value
  if len < 8 then
    .error (.err (.badInput (S "statement line too short: '" ++ value ++ S "'")))
  else do
    let value_date ← pSliceRange value 0 6
    let edIdx ←
      if len ≥ 6 + 4 then do
        let seg ← pSliceRange value 6 10
        if seg.all isAsciiDigit then pure (some seg, 10) else pure (none, 6)
      else pure ((none : Option RStr), 6)
    let restAll ← pSliceFrom value edIdx.2
    match parse_dc_and_amount restAll value with
    | .error e => .error (.err e)
    | .ok (dc_mark, funds_code, amount, rest1) => do
      let ttRest ←
        if byteLen rest1 ≥ 4 then do
          let seg ← pTakeBytes rest1 4
          if seg.all isAsciiAlpha then do
            let r ← pSliceFrom rest1 4
            pure (some seg, trimStart r)
          else pure (none, rest1)
        else pure ((none : Option RStr), rest1)
      let refs :=
        match splitAtFirstSub ttRest.2 (S "//") with
        | some (cust, after0) =>
          let after := after0.drop 2
          (match splitAtFirstChar after ' ' with
           | some (bank, extra0) =>
             let extra := trim extra0
             (some (trim cust), some (trim bank),
              if extra.isEmpty then none else some extra)
           | none =>
             let bank := trim after
             (some (trim cust), if bank.isEmpty then none else some bank,
              (none : Option RStr)))
        | none =>
          if ttRest.2.isEmpty then ((none : Option RStr), (none : Option RStr),
            (none : Option RStr))
          else (some (trim ttRest.2), none, none)
      pure ⟨raw_61, value_date, edIdx.1, dc_mark, funds_code, amount, ttRest.1,
            refs.1, refs.2.1, refs.2.2, ⟨[]⟩⟩


/-- Appends a trimmed text line to an entry (`Mt940Entry::push_info_line`). -/
def push_info_line (e : Mt940Entry) (line : RStr) : Mt940Entry :=
  { e with info := ⟨e.info.lines ++ [trim line]⟩ }

/-- Loop state of `Mt940Message::from_string_lines`. -/
structure MLState where
  tx_ref : Option RStr
  account_id : Option RStr
  statement_number : Option RStr
  opening_balance : Option Mt940Balance
  closing_balance : Option Mt940Balance
  closing_available_balance : Option Mt940Balance
  entries : List Mt940Entry
  current_entry : Option Mt940Entry
  deriving Repr, DecidableEq

def mlInit : MLState := ⟨none, none, none, none, none, none, [], none⟩

/-- One iteration of the `from_string_lines` loop
(src/parser/src/mt940.rs lines 84-141).  Warnings (repeated `:60:`,
unknown tags) only print in Rust and leave the state unchanged here. -/
def processLine (st : MLState) (raw_line : RStr) : MRes MLState :=
  let line := trimEndMatchesChar raw_line '\r'
  let line_trimmed := trimStart line
  if startsWithStr line_trimmed (S ":") then
    match split_tag_line line_trimmed with
    | .error e => .error (.err e)
    | .ok (tag, value) =>
      if tag = S "20" then .ok { st with tx_ref := some value }
      else if tag = S "25" then .ok { st with account_id := some value }
      else if tag = S "28C" then .ok { st with statement_number := some value }
      else if tag = S "60F" || tag = S "60M" then
        match parse_balance value with
        | .error e => .error e
        | .ok bal =>
          if st.opening_balance.isNone then .ok { st with opening_balance := some bal }
          else .ok st
      else if tag = S "62F" || tag = S "62M" then
        match parse_balance value with
        | .error e => .error e
        | .ok bal => .ok { st with closing_balance := some bal }
      else if tag = S "64" then
        match parse_balance value with
        | .error e => .error e
        | .ok bal => .ok { st with closing_available_balance := some bal }
      else if tag = S "61" then
        match from_61_line value line_trimmed with
        | .error e => .error e
        | .ok entry =>
          .ok { st with
                entries := st.entries ++ (match st.current_entry with
                                          | some prev => [prev]
                                          | none => []),
                current_entry := some entry }
      else if tag = S "86" then
        .ok { st with current_entry := st.current_entry.map (fun e => push_info_line e value) }
      else .ok st
  else
    .ok { st with
          current_entry := st.current_entry.map (fun e => push_info_line e line_trimmed) }

def processLines : MLState → List RStr → MRes MLState
  | st, [] => .ok st
  | st, l :: ls =>
    match processLine st l with
    | .error e => .error e
    | .ok st2 => processLines st2 ls

/-- Model of `Mt940Message::from_string_lines` (src/parser/src/mt940.rs
lines 72-165). -/
def from_string_lines (lines : List RStr) : MRes Mt940Message :=
  match processLines mlInit lines with
  | .error e => .error e
  | .ok st =>
    let entries := st.entries ++ (match st.current_entry with
                                  | some prev => [prev]
                                  | none => [])
    match st.account_id with
    | none => .error (.err (.badInput (S "MT940: missing :25: account id")))
    | some account_id =>
      match st.opening_balance with
      | none => .error (.err (.badInput (S "MT940: missing opening balance :60F:/:60M:")))
      | some opening =>
        .ok ⟨st.tx_ref, account_id, st.statement_number, opening, entries,
             st.closing_balance, st.closing_available_balance⟩

/-! ## MT940 framing (`Mt940Data::parse`, src/parser/src/mt940.rs lines
497-625).  The byte stream is modelled as the list of lines produced by
`BufRead::lines` (each line without its trailing newline). -/

inductive BlockKind
  | curly
  | paren
  deriving Repr, DecidableEq

def openMarker (k : BlockKind) : RStr :=
  match k with
  | .curly => S "\x7b4:"
  | .paren => S "(4:"

def closeMarkers (k : BlockKind) : List RStr :=
  match k with
  | .curly => [S "-\x7d", S "\x7d"]
  | .paren => [S "-)", S ")"]

structure FrameState where
  block_kind : Option BlockKind
  in_text : Bool
  message_lines : List RStr
  messages : List Mt940Message
  deriving Repr, DecidableEq

def frameInit : FrameState := ⟨none, false, [], []⟩

/-- Pushes the remainder of an opening line into the message body when it
is not blank. -/
def pushAfterOpen (fs : FrameState) (after : RStr) : FrameState :=
  { fs with in_text := true,
            message_lines := if (trim after).isEmpty then fs.message_lines
                             else fs.message_lines ++ [after] }

/-- One iteration of the `Mt940Data::parse` line loop. -/
def frameStep (fs : FrameState) (line : RStr) : MRes FrameState :=
  let trimmed := trim line
  if trimmed.isEmpty then .ok fs
  else if !fs.in_text then
    match fs.block_kind with
    | some kind =>
      match splitAtFirstSub line (openMarker kind) with
      | some (_, fromPos) => .ok (pushAfterOpen fs (fromPos.drop 3))
      | none => .ok fs
    | none =>
      match findSubPos (S "\x7b4:") line, findSubPos (S "(4:") line with
      | some pc, some pp =>
        if pc ≤ pp then
          match splitAtFirstSub line (S "\x7b4:") with
          | some (_, fromPos) =>
            .ok (pushAfterOpen { fs with block_kind := some .curly } (fromPos.drop 3))
          | none => .ok fs
        else
          match splitAtFirstSub line (S "(4:") with
          | some (_, fromPos) =>
            .ok (pushAfterOpen { fs with block_kind := some .paren } (fromPos.drop 3))
          | none => .ok fs
      | some _, none =>
        match splitAtFirstSub line (S "\x7b4:") with
        | some (_, fromPos) =>
          .ok (pushAfterOpen { fs with block_kind := some .curly } (fromPos.drop 3))
        | none => .ok fs
      | none, some _ =>
        match splitAtFirstSub line (S "(4:") with
        | some (_, fromPos) =>
          .ok (pushAfterOpen { fs with block_kind := some .paren } (fromPos.drop 3))
        | none => .ok fs
      | none, none => .ok fs
  else
    match fs.block_kind with
    | none => .error (.panic (S "in_text_block set but block_kind is None"))
    | some kind =>
      if (closeMarkers kind).any (fun p => startsWithStr trimmed p) then
        match from_string_lines fs.message_lines with
        | .error e => .error e
        | .ok msg =>
          .ok { fs with messages := fs.messages ++ [msg],
                        message_lines := [], in_text := false }
      else .ok { fs with message_lines := fs.message_lines ++ [line] }

def frameRun : FrameState → List RStr → MRes FrameState
  | fs, [] => .ok fs
  | fs, l :: ls =>
    match frameStep fs l with
    | .error e => .error e
    | .ok fs2 => frameRun fs2 ls

/-- Model of `Mt940Data` (one message kept). -/
structure Mt940Data where
  message : Mt940Message
  deriving Repr, DecidableEq

/-- Model of `Mt940Data::parse` over the input's lines: runs the framing
loop, closes an unterminated non-empty final block, errors when no message
was found and otherwise keeps the first message (later ones only get a
warning in Rust). -/
def mt940Parse (lines : List RStr) : MRes Mt940Data :=
  match frameRun frameInit lines with
  | .error e => .error e
  | .ok fs =>
    let msgsE : MRes (List Mt940Message) :=
      if fs.in_text && !fs.message_lines.isEmpty then
        match from_string_lines fs.message_lines with
        | .error e => .error e
        | .ok m => .ok (fs.messages ++ [m])
      else .ok fs.messages
    match msgsE with
    | .error e => .error e
    | .ok msgs =>
      match msgs with
      | [] => .error (.err (.badInput (S "0 mt940 messages detected")))
      | m :: _ => .ok ⟨m⟩


/-! ## MT940 counterparty heuristic (`src/parser/src/mt940/utils.rs`) -/

/-- Shape check of the IBAN regex `(?i)^[A-Z]{2}\d{2}[A-Z0-9]{11,30}$`. -/
def ibanShaped (s : RStr) : Bool :=
  match s with
  | a :: b :: c :: d :: rest =>
    isAsciiAlpha a && isAsciiAlpha b && isAsciiDigit c && isAsciiDigit d &&
    11 ≤ rest.length && rest.length ≤ 30 && rest.all isAsciiAlnum
  | _ => false

/-- Model of `normalize_and_check_iban`: strip non-alphanumeric characters
from both edges, uppercase, and match against the IBAN shape. -/
def normalize_and_check_iban (token : RStr) : Option RStr :=
  let cleaned := toUpperRust (trimMatchesP token (fun c => !isAsciiAlnum c))
  if cleaned.isEmpty then none
  else if ibanShaped cleaned then some cleaned else none

/-- Model of `find_iban_in_line`. -/
def find_iban_in_line (line : RStr) : Option RStr :=
  (splitWS line).findSome? normalize_and_check_iban

/-- Token loop of `find_iban_and_name_in_line`: at the first IBAN-shaped
token, the remaining tokens joined by spaces become the name. -/
def fianTokens : List RStr → Option (RStr × Option RStr)
  | [] => none
  | tok :: rest =>
    match normalize_and_check_iban tok with
    | some iban =>
      let restJoined := trim (joinSep (S " ") rest)
      some (iban, if restJoined.isEmpty then none else some restJoined)
    | none => fianTokens rest

/-- Model of `find_iban_and_name_in_line`. -/
def find_iban_and_name_in_line (line : RStr) : Option (RStr × Option RStr) :=
  fianTokens (splitWS line)

/-- Name lookup after an IBAN-carrying line: the next non-empty line that
is not itself IBAN-carrying. -/
def fianNameAfter : List RStr → Option RStr
  | [] => none
  | l :: rest =>
    let t := trim l
    if t.isEmpty then fianNameAfter rest
    else if (find_iban_in_line t).isSome then fianNameAfter rest
    else some t

/-- Second pass of `find_iban_and_name_in_lines`: first IBAN-carrying line,
name from the following lines. -/
def fianSecondPass : List RStr → Option (RStr × Option RStr)
  | [] => none
  | l :: rest =>
    match find_iban_in_line l with
    | some iban => some (iban, fianNameAfter rest)
    | none => fianSecondPass rest

/-- Model of `find_iban_and_name_in_lines`. -/
def find_iban_and_name_in_lines (lines : List RStr) : Option (RStr × Option RStr) :=
  match lines.findSome? (fun l =>
    match find_iban_and_name_in_line l with
    | some (i, some n) => some (i, n)
    | _ => none) with
  | some (i, n) => some (i, some n)
  | none => fianSecondPass lines

/-- Model of `extract_counterparty_from_mt940` (src/parser/src/mt940.rs
lines 336-357): info lines first, then customer reference, then bank
reference. -/
def extract_counterparty_from_mt940 (entry : Mt940Entry) : Option RStr × Option RStr :=
  match find_iban_and_name_in_lines entry.info.lines with
  | some (iban, nm) => (some iban, nm)
  | none =>
    match entry.customer_reference.bind find_iban_and_name_in_line with
    | some (iban, nm) => (some iban, nm)
    | none =>
      match entry.bank_reference.bind find_iban_and_name_in_line with
      | some (iban, nm) => (some iban, nm)
      | none => (none, none)

/-- Model of `build_description` (src/parser/src/mt940.rs lines 305-333). -/
def build_description (entry : Mt940Entry) : RStr :=
  let parts : List RStr :=
    (match entry.transaction_type with
     | some tt => [tt]
     | none => []) ++
    (match entry.customer_reference with
     | some cust => [cust]
     | none => []) ++
    (match entry.bank_reference with
     | some bank => [S "//" ++ bank]
     | none => []) ++
    (match entry.extra_details with
     | some extra => [extra]
     | none => []) ++
    (if entry.info.lines.isEmpty then [] else [joinSep (S " ") entry.info.lines])
  if parts.isEmpty then entry.raw_61 else joinSep (S " | ") parts

/-- Model of `TryFrom<&Mt940Entry> for Transaction`
(src/parser/src/mt940.rs lines 359-391). -/
def txFromMt940Entry (entry : Mt940Entry) : MRes Transaction :=
  let dirE : MRes Direction :=
    if entry.dc_mark = 'D' then .ok .Debit
    else if entry.dc_mark = 'C' then .ok .Credit
    else .error (.err (.invalidAmount (S "unknown direction: " ++ [entry.dc_mark])))
  match dirE with
  | .error e => .error e
  | .ok direction =>
    match parse_amount entry.amount with
    | .error e => .error (.err e)
    | .ok amount =>
      match parse_mt940_yy_mm_dd entry.value_date with
      | .error e => .error e
      | .ok value_date =>
        match derive_booking_date value_date entry.entry_date with
        | .error e => .error e
        | .ok booking_date =>
          let description := build_description entry
          let cp := extract_counterparty_from_mt940 entry
          .ok ⟨booking_date, some value_date, amount, direction, description,
               cp.1, cp.2⟩

def mt940TxsFromEntries : List Mt940Entry → MRes (List Transaction)
  | [] => .ok []
  | e :: rest =>
    match txFromMt940Entry e with
    | .error er => .error er
    | .ok t =>
      match mt940TxsFromEntries rest with
      | .error er => .error er
      | .ok ts => .ok (t :: ts)

/-- Signs a parsed balance magnitude by the C/D mark, as in
`TryFrom<Mt940Message>`; the error message interpolates the unknown mark. -/
def signBalance (raw : Nat) (dc : Char) (whichMsg : RStr) : MRes Int :=
  if dc = 'C' then .ok (raw : Int)
  else if dc = 'D' then .ok (-(raw : Int))
  else .error (.err (.invalidAmount (whichMsg ++ [dc])))

/-- Model of `TryFrom<Mt940Message> for Statement`
(src/parser/src/mt940.rs lines 167-244). -/
def stmtFromMt940Message (msg : Mt940Message) : MRes Statement :=
  let currency := parse_currency msg.opening_balance.currency
  match parse_amount msg.opening_balance.amount with
  | .error e => .error (.err e)
  | .ok opening_raw =>
    match signBalance opening_raw msg.opening_balance.dc_mark
        (S "unknown opening balance direction: ") with
    | .error e => .error e
    | .ok opening_balance =>
      let closingE : MRes (Option Int) :=
        match msg.closing_balance with
        | some cb =>
          match parse_amount cb.amount with
          | .error e => .error (.err e)
          | .ok raw =>
            match signBalance raw cb.dc_mark (S "unknown closing balance direction: ") with
            | .error e => .error e
            | .ok signed => .ok (some signed)
        | none => .ok none
      match closingE with
      | .error e => .error e
      | .ok closing_balance =>
        match parse_mt940_yy_mm_dd msg.opening_balance.date with
        | .error e => .error e
        | .ok period_from =>
          match mt940TxsFromEntries msg.entries with
          | .error e => .error e
          | .ok transactions =>
            let untilE : MRes NDate :=
              match msg.closing_balance with
              | some cb => parse_mt940_yy_mm_dd cb.date
              | none =>
                .ok ((listMaxDate (transactions.map (fun t => t.booking_date))).getD
                      period_from)
            match untilE with
            | .error e => .error e
            | .ok period_until =>
              .ok ⟨msg.account_id, none, currency, some opening_balance,
                   closing_balance, transactions, period_from, period_until⟩

/-- Full MT940 decode: framing plus conversion to the canonical model
(`Statement::try_from(Mt940Data)`). -/
def mt940Decode (lines : List RStr) : MRes Statement :=
  match mt940Parse lines with
  | .error e => .error e
  | .ok data => stmtFromMt940Message data.message


/-! ## MT940 encoding (`Statement::write_mt940`,
src/parser/src/serialization.rs lines 144-212, and
src/parser/src/serialization/mt940_helpers.rs).  The byte sink is modelled
as the list of lines passed to `writeln!`. -/

def digitChar10 (n : Nat) : Char := Char.ofNat (48 + n)

/-- Fuel-based digit loop for `natToChars`; the fuel `n + 1` always
suffices because the value shrinks by a factor of ten per step. -/
def natToCharsAux : Nat → Nat → RStr → RStr
  | 0, _, acc => acc
  | fuel + 1, n, acc =>
    if n < 10 then digitChar10 n :: acc
    else natToCharsAux fuel (n / 10) (digitChar10 (n % 10) :: acc)

/-- Decimal rendering of a natural number (Rust `Display` for unsigned
integers). -/
def natToChars (n : Nat) : RStr := natToCharsAux (n + 1) n []

/-- Rust `format!("{:02}")` for the values below 100 produced here. -/
def zeroPad2 (n : Nat) : RStr :=
  if n < 10 then '0' :: natToChars n else natToChars n

/-- Model of `format_minor_units` (src/parser/src/serialization/common.rs):
absolute value split into units and a two-digit fraction. -/
def format_minor_units (v : Int) (sep : Char) : RStr :=
  let a := v.natAbs
  natToChars (a / 100) ++ [sep] ++ zeroPad2 (a % 100)

/-- Model of chrono `%y%m%d` formatting for the non-negative years this
crate produces (`format_yymmdd` in mt940_helpers.rs). -/
def format_yymmdd (d : NDate) : RStr :=
  zeroPad2 (d.y % 100).toNat ++ zeroPad2 d.m ++ zeroPad2 d.d

/-- Model of `format_61_line` (mt940_helpers.rs lines 25-43). -/
def format_61_line (tx : Transaction) : RStr :=
  let value_date := tx.value_date.getD tx.booking_date
  let dc_mark : Char :=
    match tx.direction with
    | .Debit => 'D'
    | .Credit => 'C'
  format_yymmdd value_date ++ (zeroPad2 tx.booking_date.m ++ zeroPad2 tx.booking_date.d) ++
    [dc_mark] ++ format_minor_units (tx.amount : Int) ','

/-- Model of `format_86_line` (mt940_helpers.rs lines 47-79). -/
def format_86_line (tx : Transaction) : Option RStr :=
  let parts : List RStr :=
    (match tx.counterparty with
     | some cp =>
       let cp := trim cp
       if cp.isEmpty then [] else [cp]
     | none => []) ++
    (match tx.counterparty_name with
     | some nm =>
       let nm := trim nm
       if nm.isEmpty then [] else [nm]
     | none => [])
  let base0 := joinSep (S " ") parts
  let base1 :=
    if !(trim tx.description).isEmpty then
      (if base0.isEmpty then base0 else base0 ++ S " // ") ++ trim tx.description
    else base0
  let base2 := trim base1
  if base2.isEmpty then none else some base2

/-- Model of `currency_code` in mt940_helpers.rs: unknown currencies encode
as the placeholder `XXX`. -/
def mt940CurrencyCode (c : Currency) : RStr :=
  match c with
  | .RUB => S "RUB"
  | .EUR => S "EUR"
  | .USD => S "USD"
  | .CNY => S "CNY"
  | .Other _ => S "XXX"

/-- Lines written for one transaction: the `:61:` line and, when present,
the `:86:` line. -/
def write_mt940_tx (tx : Transaction) : List RStr :=
  [S ":61:" ++ format_61_line tx] ++
  (match format_86_line tx with
   | some info => [S ":86:" ++ info]
   | none => [])

/-- Model of `Statement::write_mt940` as the list of written lines.  The
`as u64` casts of the absolute balance values truncate modulo `2^64`. -/
def write_mt940 (s : Statement) : List RStr :=
  let ccy_code := mt940CurrencyCode s.currency
  let opening_minor : Int := s.opening_balance.getD 0
  let odc : Char := if opening_minor ≥ 0 then 'C' else 'D'
  let oabs : Int := if opening_minor ≥ 0 then opening_minor else -opening_minor
  let oabs_u : Nat := (oabs % (2 ^ 64 : Int)).toNat
  [S "\x7b4:", S ":20:SERIALIZED", S ":25:" ++ s.account_id, S ":28C:1/1",
   S ":60F:" ++ [odc] ++ format_yymmdd s.period_from ++ ccy_code ++
     format_minor_units (oabs_u : Int) ','] ++
  (s.transactions.flatMap write_mt940_tx) ++
  (match s.closing_balance with
   | some closing_minor =>
     let cdc : Char := if closing_minor ≥ 0 then 'C' else 'D'
     let cabs : Int := if closing_minor ≥ 0 then closing_minor else -closing_minor
     let cabs_u : Nat := (cabs % (2 ^ 64 : Int)).toNat
     [S ":62F:" ++ [cdc] ++ format_yymmdd s.period_until ++ ccy_code ++
       format_minor_units (cabs_u : Int) ',']
   | none => []) ++
  [S "-\x7d"]


/-! ## CSV conversion layer (`src/parser/src/csv_parser.rs`).  The `csv`
crate's row reading (`CsvData::parse`) is outside the embedding; the
structures below model the already-extracted header, records and footer on
which `TryFrom<CsvData> for Statement` operates. -/

structure CsvHeader where
  creation_date : RStr
  system : RStr
  bank : RStr
  client_account : RStr
  client_name : RStr
  period_from : RStr
  period_until : RStr
  currency : RStr
  last_transaction_date : RStr
  deriving Repr, DecidableEq

structure CsvRecord where
  booking_date : RStr
  debit_account : RStr
  credit_account : RStr
  debit_amount : Option RStr
  credit_amount : Option RStr
  doc_number : RStr
  operation_type : RStr
  bank : RStr
  transaction_purpose : Option RStr
  deriving Repr, DecidableEq

structure CsvFooter where
  opening_balance : Int
  closing_balance : Int
  deriving Repr, DecidableEq

structure CsvData where
  header : CsvHeader
  records : List CsvRecord
  footer : CsvFooter
  deriving Repr, DecidableEq

/-- Russian month-name table of `parse_rus_date`. -/
def monthFromRus (s : RStr) : Option Nat :=
  if s = S "января" then some 1
  else if s = S "февраля" then some 2
  else if s = S "марта" then some 3
  else if s = S "апреля" then some 4
  else if s = S "мая" then some 5
  else if s = S "июня" then some 6
  else if s = S "июля" then some 7
  else if s = S "августа" then some 8
  else if s = S "сентября" then some 9
  else if s = S "октября" then some 10
  else if s = S "ноября" then some 11
  else if s = S "декабря" then some 12
  else none

/-- Model of `parse_rus_date` (src/parser/src/csv_parser/utils.rs lines
148-188). -/
def parse_rus_date (raw : RStr) : Except ParseError NDate :=
  let s0 := trim raw
  let s := trim (trimEndMatchesP s0 (fun c => isRustWS c || c = '.' || c = 'г'))
  let parts := splitWS s
  if parts.length < 3 then .error (.header (S "invalid date from string " ++ raw))
  else
    match u32FromStr (parts.getD 0 []) with
    | none => .error (.header (S "invalid day part of date str " ++ raw))
    | some day =>
      match i32FromStr (parts.getD 2 []) with
      | none => .error (.header (S "invalid year part of date str " ++ raw))
      | some year =>
        match monthFromRus (toLowerRust (parts.getD 1 [])) with
        | none => .error (.header (S "unknown month in date: " ++ raw))
        | some month =>
          match fromYmdOpt year month day with
          | some d => .ok d
          | none => .error (.header (S "invalid date: " ++ raw))

/-- Model of chrono `NaiveDate::parse_from_str(s, "%d.%m.%Y")` as used by
`CsvRecord::into_transaction`: 1-2-digit day, dot, 1-2-digit month, dot,
4-digit year, full input consumed, validated by `from_ymd_opt`; any failure
is the wrapped chrono error. -/
def parseDdMmYyyy (s : RStr) : Except ParseError NDate :=
  let bad : Except ParseError NDate := .error .date
  let (ds, r1) := spanDigits s
  if 1 ≤ ds.length && ds.length ≤ 2 then
    match r1 with
    | '.' :: r2 =>
      let (ms, r3) := spanDigits r2
      if 1 ≤ ms.length && ms.length ≤ 2 then
        match r3 with
        | '.' :: r4 =>
          let (ys, r5) := spanDigits r4
          if ys.length = 4 && r5.isEmpty then
            match fromYmdOpt (digitsVal ys) (digitsVal ms) (digitsVal ds) with
            | some d => .ok d
            | none => bad
          else bad
        | _ => bad
      else bad
    | _ => bad
  else bad

/-- Model of `extract_account_and_name` (src/parser/src/csv_parser/utils.rs
lines 40-51): first and third non-empty trimmed line of the cell block. -/
def extract_account_and_name (block : RStr) : Option RStr × Option RStr :=
  let lines := ((splitChar block '\n').map trim).filter (fun l => !l.isEmpty)
  (lines.get? 0, lines.get? 2)

/-- Model of `extract_counterparty_account`
(src/parser/src/csv_parser/utils.rs lines 57-80). -/
def extract_counterparty_account (debit_block credit_block our_account : RStr) :
    Option RStr × Option RStr :=
  let da := extract_account_and_name debit_block
  let ca := extract_account_and_name credit_block
  if da.1 = some our_account then ca
  else if ca.1 = some our_account then da
  else (none, none)

/-- Model of `CsvRecord::into_transaction` (src/parser/src/csv_parser.rs
lines 118-138). -/
def csvRecordToTransaction (rec : CsvRecord) (our_account : RStr) :
    Except ParseError Transaction :=
  match parseDdMmYyyy rec.booking_date with
  | .error e => .error e
  | .ok booking_date =>
    match parse_amount_and_direction rec.debit_amount rec.credit_amount with
    | .error e => .error e
    | .ok (amount, direction) =>
      let description := rec.transaction_purpose.getD []
      let cp := extract_counterparty_account rec.debit_account rec.credit_account
        our_account
      .ok ⟨booking_date, none, amount, direction, description, cp.1, cp.2⟩

def csvTxsFromRecords : List CsvRecord → RStr → Except ParseError (List Transaction)
  | [], _ => .ok []
  | r :: rest, acc =>
    match csvRecordToTransaction r acc with
    | .error e => .error e
    | .ok t =>
      match csvTxsFromRecords rest acc with
      | .error e => .error e
      | .ok ts => .ok (t :: ts)

/-- Fuel-based loop of `trimStartMatchesStr`. -/
def trimStartMatchesAux : Nat → RStr → RStr → RStr
  | 0, s, _ => s
  | fuel + 1, s, pat =>
    if pat ≠ [] && pat.isPrefixOf s then trimStartMatchesAux fuel (s.drop pat.length) pat
    else s

/-- Rust `str::trim_start_matches(&str)`: removes every successive
occurrence of the prefix. -/
def trimStartMatchesStr (s pat : RStr) : RStr := trimStartMatchesAux (s.length + 1) s pat

/-- Model of `TryFrom<CsvData> for Statement` (src/parser/src/csv_parser.rs
lines 248-283). -/
def csvDataToStatement (data : CsvData) : Except ParseError Statement :=
  let account_id := data.header.client_account
  let account_name := some data.header.client_name
  let currency := parse_currency data.header.currency
  let opening_balance := some data.footer.opening_balance
  let closing_balance := some data.footer.closing_balance
  let pf := trim (trimStartMatchesStr data.header.period_from (S "за период с"))
  let pu := trim (trimStartMatchesStr data.header.period_until (S "по"))
  match parse_rus_date pf with
  | .error e => .error e
  | .ok period_from =>
    match parse_rus_date pu with
    | .error e => .error e
    | .ok period_until =>
      match csvTxsFromRecords data.records account_id with
      | .error e => .error e
      | .ok transactions =>
        .ok ⟨account_id, account_name, currency, opening_balance, closing_balance,
             transactions, period_from, period_until⟩


/-- Sample camt.053 balance whose credit/debit indicator is malformed. -/
def c8Bal : Camt053Balance :=
  ⟨⟨⟨some (S "OPBD")⟩⟩, ⟨S "EUR", S "100.00"⟩, some (S "SOMETHING"), none⟩

/-- Sample camt.053 statement containing `c8Bal` as its opening balance. -/
def c8Stmt : Camt053Statement :=
  ⟨none, none, none, some ⟨some (S "2023-01-01"), some (S "2023-01-31")⟩,
   ⟨⟨some (S "DE1")⟩, none, some (S "EUR")⟩, [c8Bal], []⟩

/-- Sample MT940 entry used by the C8 witness. -/
def c8Entry : Mt940Entry :=
  ⟨S ":61:230102C50,00", S "230102", none, 'C', none, S "50,00", none, none, none,
   none, ⟨[]⟩⟩

/-- Sample MT940 message containing `c8Entry`. -/
def c8Msg : Mt940Message :=
  ⟨none, S "ACC", none, ⟨'C', S "230101", S "EUR", S "100,00"⟩, [c8Entry], none, none⟩

/-- The statement `c8Msg` converts to. -/
def c8Stm : Statement :=
  ⟨S "ACC", none, .EUR, some 10000, none,
   [⟨⟨2023, 1, 2⟩, some ⟨2023, 1, 2⟩, 5000, .Credit, S ":61:230102C50,00", none, none⟩],
   ⟨2023, 1, 1⟩, ⟨2023, 1, 2⟩⟩

/-! ### Sample inputs for the period-order analysis (C9) -/

/-- Sample MT940 entry used by the C9 witness. -/
def c9Entry : Mt940Entry :=
  ⟨S ":61:230102C50,00", S "230102", none, 'C', none, S "50,00", none, none, none,
   none, ⟨[]⟩⟩

/-- Sample MT940 message (no closing balance) used by the C9 witness. -/
def c9MsgB : Mt940Message :=
  ⟨none, S "ACC2", none, ⟨'C', S "230101", S "EUR", S "100,00"⟩, [c9Entry], none, none⟩

/-- The statement `c9MsgB` converts to. -/
def c9StmB : Statement :=
  ⟨S "ACC2", none, .EUR, some 10000, none,
   [⟨⟨2023, 1, 2⟩, some ⟨2023, 1, 2⟩, 5000, .Credit, S ":61:230102C50,00", none, none⟩],
   ⟨2023, 1, 1⟩, ⟨2023, 1, 2⟩⟩

/-- The statement `c9CamtStmt` converts to. -/
def c9CamtRes : Statement :=
  ⟨S "DE1", none, .EUR, none, none,
   [⟨⟨2023, 2, 10⟩, some ⟨2023, 2, 10⟩, 100, .Credit, [], none, none⟩,
    ⟨⟨2023, 2, 5⟩, some ⟨2023, 2, 5⟩, 100, .Credit, [], none, none⟩],
   ⟨2023, 2, 5⟩, ⟨2023, 2, 10⟩⟩

/-- MT940 message whose closing-balance date precedes its opening-balance date. -/
def c9Msg : Mt940Message :=
  ⟨none, S "ACC", none, ⟨'C', S "230105", S "EUR", S "100,00"⟩, [],
   some ⟨'C', S "230101", S "EUR", S "100,00"⟩, none⟩

/-- camt.053 statement with no explicit period, entries booked out of order. -/
def c9CamtStmt : Camt053Statement :=
  ⟨none, none, none, none, ⟨⟨some (S "DE1")⟩, none, some (S "EUR")⟩, [],
   [⟨⟨S "EUR", S "1.00"⟩, S "CRDT", ⟨S "2023-02-10"⟩, ⟨S "2023-02-10"⟩, none⟩,
    ⟨⟨S "EUR", S "1.00"⟩, S "CRDT", ⟨S "2023-02-05"⟩, ⟨S "2023-02-05"⟩, none⟩]⟩

/-! ### First-statement selection inputs (C7) -/

/-- Statement selection in `Camt053Data::parse` (src/parser/src/camt053.rs
lines 62-74), after XML deserialization (abstracted here as the list of
parsed `<Stmt>` elements): the first statement is kept, later ones only
produce a warning, and an empty list is a `BadInput` error. -/
def camt053Parse (stmts : List Camt053Statement) : Except ParseError Camt053Statement :=
  match stmts with
  | [] => .error (.badInput (S "CAMT file has no <Stmt>"))
  | s :: _ => .ok s

/-- Lines of a well-formed `\x7b4:...-\x7d` MT940 block. -/
def c7Block1 : List RStr :=
  [S "\x7b4:", S ":20:REF1", S ":25:ACC1", S ":28C:1",
   S ":60F:C230101EUR100,00", S ":61:230102C50,00",
   S ":62F:C230103EUR150,00", S "-\x7d"]

/-- A second block missing its `:25:` account id. -/
def c7Block2Bad : List RStr :=
  [S "\x7b4:", S ":20:REF2", S "-\x7d"]

/-- A second, well-formed block. -/
def c7Block2Good : List RStr :=
  [S "\x7b4:", S ":20:REF2", S ":25:ACC2", S ":28C:2",
   S ":60F:C230201EUR10,00", S ":62F:C230203EUR10,00", S "-\x7d"]

/-- The message `c7Block1` parses to. -/
def c7Msg1 : Mt940Message :=
  ⟨some (S "REF1"), S "ACC1", some (S "1"),
   ⟨'C', S "230101", S "EUR", S "100,00"⟩,
   [⟨S ":61:230102C50,00", S "230102", none, 'C', none, S "50,00", none, none, none,
     none, ⟨[]⟩⟩],
   some ⟨'C', S "230103", S "EUR", S "150,00"⟩, none⟩

/-- The message `c7Block2Good` parses to. -/
def c7Msg2 : Mt940Message :=
  ⟨some (S "REF2"), S "ACC2", some (S "2"),
   ⟨'C', S "230201", S "EUR", S "10,00"⟩, [],
   some ⟨'C', S "230203", S "EUR", S "10,00"⟩, none⟩

/-- The framing state after `c7Block1 ++ c7Block2Good`. -/
def c7FrameFinal : FrameState := ⟨some .curly, false, [], [c7Msg1, c7Msg2]⟩

/-! ### Round-trip sample inputs (C1) -/

/-- An MT940 block whose balances carry the currency code CHF. -/
def c1ChfLines : List RStr :=
  [S "\x7b4:", S ":25:ACC1", S ":60F:C230101CHF100,00",
   S ":61:230102C50,00", S ":62F:C230103CHF150,00", S "-\x7d"]

/-- The statement `c1ChfLines` decodes to. -/
def c1ChfStm : Statement :=
  ⟨S "ACC1", none, .Other (S "CHF"), some 10000, some 15000,
   [⟨⟨2023, 1, 2⟩, some ⟨2023, 1, 2⟩, 5000, .Credit, S ":61:230102C50,00", none, none⟩],
   ⟨2023, 1, 1⟩, ⟨2023, 1, 3⟩⟩

/-- A statement satisfying every hypothesis of the conditional round-trip. -/
def c1Stmt : Statement :=
  ⟨S "ACC", none, .EUR, some 10000, some 15000,
   [⟨⟨2023, 1, 2⟩, some ⟨2023, 1, 1⟩, 5000, .Credit, S "PAYMENT", none, none⟩],
   ⟨2023, 1, 1⟩, ⟨2023, 1, 3⟩⟩

/-! ## Shared lemmas about the string model and `parse_amount` -/

theorem dropWhile_filter (p q : Char → Bool) (h : ∀ c, p c = false → q c = true) (l : RStr) :
    (l.filter p).dropWhile q = (l.dropWhile q).filter p := by
  induction l with
  | nil => simp
  | cons c xs ih =>
    cases hp : p c with
    | true =>
      cases hq : q c with
      | true => simp [List.filter_cons, List.dropWhile_cons, hp, hq, ih]
      | false => simp [List.filter_cons, List.dropWhile_cons, hp, hq]
    | false =>
      have hq := h c hp
      simp [List.filter_cons, List.dropWhile_cons, hp, hq, ih]

theorem trim_filter (p : Char → Bool) (h : ∀ c, p c = false → isRustWS c = true) (l : RStr) :
    trim (l.filter p) = (trim l).filter p := by
  unfold trim trimStart trimEnd
  rw [dropWhile_filter p _ h, ← List.filter_reverse, dropWhile_filter p _ h, List.filter_reverse]

theorem trimF_eq_F_trim (l : RStr) :
    (trim l).filter (fun c => c ≠ ' ') = trim (l.filter (fun c => c ≠ ' ')) := by
  rw [trim_filter]
  intro c hc
  have : c = ' ' := by simpa using hc
  subst this; rfl

theorem amountCleaned_space_mid (u v : RStr) :
    amountCleaned (u ++ ' ' :: v) = amountCleaned (u ++ v) := by
  have hfil : (u ++ ' ' :: v).filter (fun c => c ≠ ' ') =
      (u ++ v).filter (fun c => c ≠ ' ') := by
    simp [List.filter_append, List.filter_cons]
  have hcl0 : (trim (u ++ ' ' :: v)).filter (fun c => c ≠ ' ') =
      (trim (u ++ v)).filter (fun c => c ≠ ' ') := by
    rw [trimF_eq_F_trim, trimF_eq_F_trim, hfil]
  have hcomma : containsChar (u ++ ' ' :: v) ',' = containsChar (u ++ v) ',' := by
    simp [containsChar]
  have hdot : containsChar (u ++ ' ' :: v) '.' = containsChar (u ++ v) '.' := by
    simp [containsChar]
  unfold amountCleaned
  rw [hcl0, hcomma, hdot]

theorem parse_amount_congr (r1 r2 : RStr) (h : amountCleaned r1 = amountCleaned r2) :
    parse_amount r1 = parse_amount r2 := by
  unfold parse_amount
  rw [h]

theorem parse_amount_space_insensitive (u v : RStr) :
    parse_amount (u ++ ' ' :: v) = parse_amount (u ++ v) :=
  parse_amount_congr _ _ (amountCleaned_space_mid u v)

theorem dropWhileWS_eq_self (l : RStr) (h : ∀ c ∈ l, isRustWS c = false) :
    l.dropWhile (fun c => isRustWS c) = l := by
  cases l with
  | nil => rfl
  | cons x xs =>
    have hx := h x (List.mem_cons_self x xs)
    simp [List.dropWhile_cons, hx]

theorem trim_eq_self_of_noWS (l : RStr) (h : ∀ c ∈ l, isRustWS c = false) : trim l = l := by
  unfold trim trimStart trimEnd
  rw [dropWhileWS_eq_self l h, dropWhileWS_eq_self, List.reverse_reverse]
  intro c hc
  exact h c (List.mem_reverse.mp hc)

theorem filter_space_eq_self (l : RStr) (h : ∀ c ∈ l, isRustWS c = false) :
    l.filter (fun c => c ≠ ' ') = l := by
  rw [List.filter_eq_self]
  intro a ha
  have := h a ha
  simp only [decide_eq_true_eq]
  intro heq
  subst heq
  simp [isRustWS] at this

theorem containsChar_filter_out (s : RStr) (c : Char) :
    containsChar (s.filter (fun x => x ≠ c)) c = false := by
  simp [containsChar, List.any_eq_false]

theorem amountCleaned_eq_self_of_noWS_noComma (s : RStr)
    (hws : ∀ c ∈ s, isRustWS c = false) (hc : containsChar s ',' = false) :
    amountCleaned s = s := by
  unfold amountCleaned
  rw [hc]
  rw [trim_eq_self_of_noWS s hws, filter_space_eq_self s hws]
  simp

theorem parse_amount_both_separators (s : RStr) (hws : ∀ c ∈ s, isRustWS c = false)
    (hc : containsChar s ',' = true) (hd : containsChar s '.' = true) :
    parse_amount s = parse_amount (s.filter (fun c => c ≠ ',')) := by
  apply parse_amount_congr
  have h1 : amountCleaned s = s.filter (fun c => c ≠ ',') := by
    unfold amountCleaned
    rw [hc, hd]
    simp only [if_true]
    rw [trim_eq_self_of_noWS s hws, filter_space_eq_self s hws]
  rw [h1]
  rw [amountCleaned_eq_self_of_noWS_noComma]
  · intro c hcmem
    exact hws c (List.mem_of_mem_filter hcmem)
  · exact containsChar_filter_out s ','

theorem parse_amount_comma_decimal (s : RStr) (hws : ∀ c ∈ s, isRustWS c = false)
    (hc : containsChar s ',' = true) (hd : containsChar s '.' = false) :
    parse_amount s = parse_amount (s.map (fun c => if c = ',' then '.' else c)) := by
  apply parse_amount_congr
  have h1 : amountCleaned s = s.map (fun c => if c = ',' then '.' else c) := by
    unfold amountCleaned
    rw [hc, hd]
    rw [trim_eq_self_of_noWS s hws, filter_space_eq_self s hws]
    simp
  rw [h1]
  rw [amountCleaned_eq_self_of_noWS_noComma]
  · intro c hcmem
    rw [List.mem_map] at hcmem
    obtain ⟨a, ha, rfl⟩ := hcmem
    by_cases hac : a = ','
    · simp [hac, isRustWS]
    · simp only [if_neg hac]
      exact hws a ha
  · simp only [containsChar, List.any_map, List.any_eq_false]
    intro a _
    by_cases hac : a = ','
    · simp [hac]
    · simp [Function.comp, hac]

theorem splitChar_no_occurrence (r : RStr) (c : Char) (h : containsChar r c = false) :
    splitChar r c = [r] := by
  induction r with
  | nil => rfl
  | cons x xs ih =>
    simp only [containsChar, List.any_cons, Bool.or_eq_false_iff] at h
    obtain ⟨hx, hxs⟩ := h
    have hxc : x ≠ c := by simpa using hx
    rw [splitChar, ih hxs]
    simp [hxc]

theorem splitChar_append_once (l r : RStr) (c : Char)
    (hl : containsChar l c = false) (hr : containsChar r c = false) :
    splitChar (l ++ c :: r) c = [l, r] := by
  induction l with
  | nil =>
    simp only [List.nil_append]
    rw [splitChar, splitChar_no_occurrence r c hr]
    simp
  | cons x xs ih =>
    simp only [containsChar, List.any_cons, Bool.or_eq_false_iff] at hl
    obtain ⟨hx, hxs⟩ := hl
    have hxc : x ≠ c := by simpa using hx
    simp only [List.cons_append]
    rw [splitChar, ih hxs]
    simp [hxc]

theorem digit_not_ws (c : Char) (h : isAsciiDigit c = true) : isRustWS c = false := by
  simp only [isAsciiDigit, Bool.and_eq_true, decide_eq_true_eq] at h
  simp only [isRustWS, Bool.or_eq_false_iff, Bool.and_eq_false_iff, decide_eq_false_iff_not]
  omega

theorem char_ne_of_toNat_ne {c d : Char} (h : c.toNat ≠ d.toNat) : c ≠ d := by
  intro he
  exact h (by rw [he])

theorem digit_facts (c : Char) (h : isAsciiDigit c = true) :
    isRustWS c = false ∧ c ≠ '+' ∧ c ≠ '-' ∧ c ≠ '.' ∧ c ≠ ',' ∧ utf8Len c = 1 ∧
      digitVal10 c = some (c.toNat - 48) := by
  have hn : 48 ≤ c.toNat ∧ c.toNat ≤ 57 := by
    simpa [isAsciiDigit] using h
  refine ⟨digit_not_ws c h, ?_, ?_, ?_, ?_, ?_, ?_⟩
  · exact char_ne_of_toNat_ne (by simp; omega)
  · exact char_ne_of_toNat_ne (by simp; omega)
  · exact char_ne_of_toNat_ne (by simp; omega)
  · exact char_ne_of_toNat_ne (by simp; omega)
  · simp only [utf8Len]
    rw [if_pos]
    omega
  · simp [digitVal10, h]

theorem u64FromStr_digits (ds : RStr) (h1 : ds ≠ [])
    (h2 : ∀ c ∈ ds, isAsciiDigit c = true) (h3 : digitsVal ds ≤ u64Max) :
    u64FromStr ds = some (digitsVal ds) := by
  obtain ⟨x, xs, rfl⟩ := List.exists_cons_of_ne_nil h1
  have hx := (digit_facts x (h2 x (by simp))).2.1
  unfold u64FromStr
  have hne : (x :: xs).head? ≠ some '+' := by
    simp only [List.head?_cons]
    intro hcon
    exact hx (Option.some.inj hcon)
  rw [if_neg hne]
  rw [if_pos]
  simp only [Bool.and_eq_true, decide_eq_true_eq, List.all_eq_true]
  exact ⟨⟨by simp, h2⟩, h3⟩

theorem parse_amount_single_frac_digit (ds : RStr) (d : Char) (h1 : ds ≠ [])
    (h2 : ∀ c ∈ ds, isAsciiDigit c = true) (hd : isAsciiDigit d = true)
    (h3 : digitsVal ds ≤ u64Max) :
    parse_amount (ds ++ '.' :: [d]) =
      .ok ((digitsVal ds * 100 + (d.toNat - 48) * 10) % 2 ^ 64) := by
  have hws : ∀ c ∈ ds ++ '.' :: [d], isRustWS c = false := by
    intro c hc
    rcases List.mem_append.mp hc with hc | hc
    · exact (digit_facts c (h2 c hc)).1
    · rcases List.mem_cons.mp hc with rfl | hc
      · decide
      · rcases List.mem_singleton.mp hc with rfl
        exact (digit_facts c hd).1
  have hnc : containsChar (ds ++ '.' :: [d]) ',' = false := by
    simp only [containsChar, List.any_eq_false, decide_eq_false_iff_not]
    intro a ha
    rcases List.mem_append.mp ha with ha | ha
    · simpa using (digit_facts a (h2 a ha)).2.2.2.2.1
    · rcases List.mem_cons.mp ha with rfl | ha
      · decide
      · rcases List.mem_singleton.mp ha with rfl
        simpa using (digit_facts a hd).2.2.2.2.1
  have hclean : amountCleaned (ds ++ '.' :: [d]) = ds ++ '.' :: [d] :=
    amountCleaned_eq_self_of_noWS_noComma _ hws (by simpa [containsChar] using hnc)
  obtain ⟨x, xs, rfl⟩ := List.exists_cons_of_ne_nil h1
  have hxdig := h2 x (by simp)
  have hxm : ¬ ('-' = x) := fun hcon => (digit_facts x hxdig).2.2.1 hcon.symm
  unfold parse_amount
  rw [hclean]
  rw [if_neg (by simp)]
  have hstart : startsWithStr (x :: (xs ++ ['.', d])) (S "-") = false := by
    simp [startsWithStr, S, List.isPrefixOf, hxm]
  rw [if_neg (by simp only [List.cons_append]; simp [hstart])]
  have hsplit : splitChar ((x :: xs) ++ '.' :: [d]) '.' = [x :: xs, [d]] := by
    apply splitChar_append_once
    · simp only [containsChar, List.any_eq_false, decide_eq_false_iff_not]
      intro a ha
      simpa using (digit_facts a (h2 a ha)).2.2.2.1
    · simp only [containsChar, List.any_cons, List.any_nil, Bool.or_eq_false_iff]
      refine ⟨by simpa using (digit_facts d hd).2.2.2.1, trivial⟩
  rw [hsplit]
  simp only [List.headD_cons, List.drop_succ_cons, List.drop_zero, List.length_cons,
    List.length_nil]
  rw [if_neg (by omega)]
  rw [u64FromStr_digits (x :: xs) (by simp) h2 h3]
  have hbyte : byteLen [d] = 1 := by
    simp [byteLen, (digit_facts d hd).2.2.2.2.2.1]
  rw [hbyte]
  simp [(digit_facts d hd).2.2.2.2.2.2]

theorem startsWith_dash (cl : RStr) :
    startsWithStr cl (S "-") = decide (cl.head? = some '-') := by
  cases cl with
  | nil => rfl
  | cons x xs =>
    show List.isPrefixOf ['-'] (x :: xs) = _
    simp only [List.isPrefixOf, Bool.and_true, List.head?_cons, Option.some.injEq]
    rw [Bool.eq_iff_iff, beq_iff_eq, decide_eq_true_iff]
    exact eq_comm

theorem splitChar_length_eq (s : RStr) (c : Char) :
    (splitChar s c).length = s.count c + 1 := by
  induction s with
  | nil => simp [splitChar]
  | cons x xs ih =>
    rw [splitChar]
    by_cases hx : x = c
    · subst hx
      simp [List.count_cons, ih]
    · have hne : (splitChar xs c) ≠ [] := by
        cases xs with
        | nil => simp [splitChar]
        | cons y ys =>
          rw [splitChar]
          by_cases hy : y = c
          · simp [hy]
          · simp only [if_neg hy]
            split
            · simp
            · simp
      obtain ⟨r, rs, hr⟩ := List.exists_cons_of_ne_nil hne
      rw [hr]
      simp only [if_neg hx]
      have := ih
      rw [hr] at this
      simp only [List.length_cons] at this ⊢
      simp [List.count_cons, hx]
      omega

theorem c4_classification (raw : RStr) :
    isInvalidAmountErr (parse_amount raw) = specInvalidAmountCondsAmended raw ∧
    isIntErr (parse_amount raw) = specIntErrConds raw := by
  unfold parse_amount specInvalidAmountCondsAmended specIntErrConds amountIntPart amountFracPart
  simp only [startsWith_dash]
  have hlen := splitChar_length_eq (amountCleaned raw) '.'
  by_cases h1 : (amountCleaned raw).isEmpty
  · simp [h1, isInvalidAmountErr, isIntErr]
  · by_cases h2 : (amountCleaned raw).head? = some '-'
    · simp [h1, h2, isInvalidAmountErr, isIntErr]
    · by_cases h3 : (splitChar (amountCleaned raw) '.').length > 2
      · have h3' : (amountCleaned raw).count '.' > 1 := by omega
        simp [h1, h2, h3, h3', isInvalidAmountErr, isIntErr]
      · have h3' : ¬ ((amountCleaned raw).count '.' > 1) := by omega
        cases hint : u64FromStr ((splitChar (amountCleaned raw) '.').headD []) with
        | none => simp [h1, h2, h3, h3', hint, isInvalidAmountErr, isIntErr]
        | some ip =>
          rcases hb : byteLen (((splitChar (amountCleaned raw) '.').drop 1).headD []) with
            _ | _ | _ | n
          · simp [h1, h2, h3, h3', hint, hb, isInvalidAmountErr, isIntErr]
          · cases hd : ((((splitChar (amountCleaned raw) '.').drop 1).headD []).head? >>=
                digitVal10) with
            | none => simp [h1, h2, h3, h3', hint, hb, hd, isInvalidAmountErr, isIntErr]
            | some dv => simp [h1, h2, h3, h3', hint, hb, hd, isInvalidAmountErr, isIntErr]
          · cases hf : u64FromStr (((splitChar (amountCleaned raw) '.').drop 1).headD []) with
            | none => simp [h1, h2, h3, h3', hint, hb, hf, isInvalidAmountErr, isIntErr]
            | some fv => simp [h1, h2, h3, h3', hint, hb, hf, isInvalidAmountErr, isIntErr]
          · simp [h1, h2, h3, h3', hint, hb, isInvalidAmountErr, isIntErr]

/-! ## Claim theorems for C3 and C4 -/

/-- C3: `parse_amount` ignores spaces anywhere in its input; when both `,`
and `.` occur, every `,` is removed (thousands separator) and `.` is the
decimal point; when only `,` occurs it is treated as the decimal point; a
single fractional digit scales by ten; and
`parse_amount "1,234.56" = parse_amount "1 234,56" = 123456`. -/
theorem c3_parse_amount_separator_rules :
    (∀ u v : RStr, parse_amount (u ++ ' ' :: v) = parse_amount (u ++ v)) ∧
    (∀ s : RStr, (∀ c ∈ s, isRustWS c = false) → containsChar s ',' = true →
      containsChar s '.' = true →
      parse_amount s = parse_amount (s.filter (fun c => c ≠ ','))) ∧
    (∀ s : RStr, (∀ c ∈ s, isRustWS c = false) → containsChar s ',' = true →
      containsChar s '.' = false →
      parse_amount s = parse_amount (s.map (fun c => if c = ',' then '.' else c))) ∧
    (∀ ds : RStr, ∀ d : Char, ds ≠ [] → (∀ c ∈ ds, isAsciiDigit c = true) →
      isAsciiDigit d = true → digitsVal ds ≤ u64Max →
      parse_amount (ds ++ '.' :: [d]) =
        .ok ((digitsVal ds * 100 + (d.toNat - 48) * 10) % 2 ^ 64)) ∧
    parse_amount (S "1,234.56") = .ok 123456 ∧
    parse_amount (S "1 234,56") = .ok 123456 :=
  ⟨parse_amount_space_insensitive, parse_amount_both_separators,
   parse_amount_comma_decimal, parse_amount_single_frac_digit, by decide, by decide⟩

/-- Witness for C3: the universally quantified parts applied at concrete
inputs, with every hypothesis discharged by computation. -/
theorem c3_witness :
    parse_amount (['1'] ++ ' ' :: ['2']) = parse_amount (['1'] ++ ['2']) ∧
    parse_amount (S "1,2.3") = parse_amount ((S "1,2.3").filter (fun c => c ≠ ',')) ∧
    parse_amount (S "1,2") =
      parse_amount ((S "1,2").map (fun c => if c = ',' then '.' else c)) ∧
    parse_amount (['1'] ++ '.' :: ['2']) =
      .ok ((digitsVal ['1'] * 100 + ('2'.toNat - 48) * 10) % 2 ^ 64) :=
  ⟨c3_parse_amount_separator_rules.1 ['1'] ['2'],
   c3_parse_amount_separator_rules.2.1 (S "1,2.3") (by decide) (by decide) (by decide),
   c3_parse_amount_separator_rules.2.2.1 (S "1,2") (by decide) (by decide) (by decide),
   c3_parse_amount_separator_rules.2.2.2.1 ['1'] '2' (by decide) (by decide) (by decide)
     (by decide)⟩

/-- C4 counterexample: `parse_amount "1.x"` fails with `InvalidAmount`
although none of the four conditions listed by the claim (empty input after
stripping, leading `-`, more than one decimal point, more than two
fractional digits) holds for `"1.x"`. -/
theorem c4_counterexample_single_nondigit_frac :
    isInvalidAmountErr (parse_amount (S "1.x")) = true ∧
    specInvalidAmountConds (S "1.x") = false := by decide

/-- C4 (amended): `parse_amount` fails with `InvalidAmount` exactly on
empty input (after cleaning), a leading `-`, more than one decimal point,
or — when the integer part parses as a `u64` — more than two fractional
bytes or a single fractional byte that is not a digit; it fails with a
wrapped integer-parse error exactly when the integer part does not parse as
a `u64` (non-digit or out of range) or a two-byte fractional part does not;
`parse_amount "0" = 0` and `parse_amount "-1"` fails with `InvalidAmount`. -/
theorem c4_parse_amount_failure_classification :
    (∀ raw : RStr,
      isInvalidAmountErr (parse_amount raw) = specInvalidAmountCondsAmended raw ∧
      isIntErr (parse_amount raw) = specIntErrConds raw) ∧
    parse_amount (S "0") = .ok 0 ∧
    isInvalidAmountErr (parse_amount (S "-1")) = true :=
  ⟨c4_classification, by decide, by decide⟩

/-- C5: direction and amount of a CSV data row come from whichever of the
debit/credit amount cells is non-empty: only the debit cell filled gives
`Debit` with the parsed debit amount, only the credit cell filled gives
`Credit` with the parsed credit amount, and both filled or both
empty/missing fails with `AmountSideConflict`. -/
theorem c5_csv_amount_side_rules :
    (∀ ds : RStr, ∀ c : Option RStr, (trim ds).isEmpty = false → optIsEmpty c = true →
      parse_amount_and_direction (some ds) c =
        (parse_amount ds).map (fun a => (a, Direction.Debit))) ∧
    (∀ d : Option RStr, ∀ cs : RStr, optIsEmpty d = true → (trim cs).isEmpty = false →
      parse_amount_and_direction d (some cs) =
        (parse_amount cs).map (fun a => (a, Direction.Credit))) ∧
    (∀ d c : Option RStr, optIsEmpty d = optIsEmpty c →
      parse_amount_and_direction d c = .error .amountSideConflict) := by
  refine ⟨?_, ?_, ?_⟩
  · intro ds c hd hc
    unfold parse_amount_and_direction
    rw [if_pos (by simp [cellFilled, hd, hc])]
    cases h : parse_amount ds with
    | error e => simp [h, Except.map]
    | ok a => simp [h, Except.map]
  · intro d cs hd hcs
    unfold parse_amount_and_direction
    have hdf : cellFilled d = false := by
      cases d with
      | none => rfl
      | some dd => simpa [cellFilled, optIsEmpty] using hd
    rw [if_neg (by simp [hdf])]
    rw [if_pos (by simp [cellFilled, hcs, hd])]
    cases h : parse_amount cs with
    | error e => simp [h, Except.map]
    | ok a => simp [h, Except.map]
  · intro d c hdc
    unfold parse_amount_and_direction
    by_cases hdf : cellFilled d = true
    · have hde : optIsEmpty d = false := by
        cases d with
        | none => simp [cellFilled] at hdf
        | some dd => simpa [cellFilled, optIsEmpty] using hdf
      have hce : optIsEmpty c = false := by rw [← hdc, hde]
      have hcf : cellFilled c = true := by
        cases c with
        | none => simp [optIsEmpty] at hce
        | some cc => simpa [cellFilled, optIsEmpty] using hce
      rw [if_neg (by simp [hce]), if_neg (by simp [hde])]
    · have hdf' : cellFilled d = false := by simpa using hdf
      have hde : optIsEmpty d = true := by
        cases d with
        | none => rfl
        | some dd => simpa [cellFilled, optIsEmpty] using hdf'
      have hce : optIsEmpty c = true := by rw [← hdc, hde]
      have hcf : cellFilled c = false := by
        cases c with
        | none => rfl
        | some cc => simpa [cellFilled, optIsEmpty] using hce
      rw [if_neg (by simp [hdf']), if_neg (by simp [hcf])]

/-- Witness for C5: the three cases applied at concrete cells. -/
theorem c5_witness :
    parse_amount_and_direction (some (S "100")) (some (S " ")) =
      (parse_amount (S "100")).map (fun a => (a, Direction.Debit)) ∧
    parse_amount_and_direction (some (S "")) (some (S "200")) =
      (parse_amount (S "200")).map (fun a => (a, Direction.Credit)) ∧
    parse_amount_and_direction (some (S "100")) (some (S "200")) =
      .error .amountSideConflict :=
  ⟨c5_csv_amount_side_rules.1 (S "100") (some (S " ")) (by decide) (by decide),
   c5_csv_amount_side_rules.2.1 (some (S "")) (S "200") (by decide) (by decide),
   c5_csv_amount_side_rules.2.2 (some (S "100")) (some (S "200")) (by decide)⟩

/-! ## camt.053 lemmas and claim C6 -/
theorem parse_amount_err_not_invcur (raw : RStr) (e : ParseError)
    (h : parse_amount raw = .error e) : isInvCur e = false := by
  simp only [parse_amount] at h
  split at h
  · cases h; rfl
  · split at h
    · cases h; rfl
    · split at h
      · cases h; rfl
      · split at h
        · cases h; rfl
        · split at h
          · next e2 heq =>
            cases h
            split at heq
            · cases heq
            · split at heq
              · cases heq
              · cases heq; rfl
            · split at heq
              · cases heq
              · cases heq; rfl
            · cases heq; rfl
          · cases h

theorem parse_camt_date_err_shape (s : RStr) (e : ParseError)
    (h : parse_camt_date_to_naive s = .error e) :
    e = .badInput (S "invalid CAMT date: " ++ s) := by
  unfold parse_camt_date_to_naive at h
  split at h
  · cases h
  · split at h
    · cases h
    · cases h; rfl

theorem periodFold_err_not_invcur (l : List Camt053Entry) (mn mx : Option NDate)
    (e : ParseError) (h : periodFold l mn mx = .error e) : isInvCur e = false := by
  induction l generalizing mn mx with
  | nil => cases h
  | cons x xs ih =>
    rw [periodFold] at h
    split at h
    · rename_i er her
      cases h
      rw [parse_camt_date_err_shape _ _ her]
      rfl
    · exact ih _ _ h

theorem detect_period_err_not_invcur (stmt : Camt053Statement) (e : ParseError)
    (h : detect_period stmt = .error e) : isInvCur e = false := by
  simp only [detect_period] at h
  split at h
  · split at h
    · next er her => cases h; rw [parse_camt_date_err_shape _ _ her]; rfl
    · split at h
      · next er her => cases h; rw [parse_camt_date_err_shape _ _ her]; rfl
      · cases h
  · split at h
    · next er her => cases h; exact periodFold_err_not_invcur _ _ _ _ her
    · cases h
    · cases h; rfl

theorem camtTxFromEntry_err_not_invcur (entry : Camt053Entry) (e : ParseError)
    (h : camtTxFromEntry entry = .error e) : isInvCur e = false := by
  simp only [camtTxFromEntry] at h
  split at h
  · next e2 heq =>
    cases h
    split at heq
    · cases heq
    · split at heq
      · cases heq
      · cases heq; rfl
  · split at h
    · next e2 heq => cases h; exact parse_amount_err_not_invcur _ _ heq
    · split at h
      · next e2 heq => cases h; rw [parse_camt_date_err_shape _ _ heq]; rfl
      · split at h
        · next e2 heq => cases h; rw [parse_camt_date_err_shape _ _ heq]; rfl
        · cases h

theorem camtTxsFromEntries_err_not_invcur (l : List Camt053Entry) (e : ParseError)
    (h : camtTxsFromEntries l = .error e) : isInvCur e = false := by
  induction l with
  | nil => cases h
  | cons x xs ih =>
    rw [camtTxsFromEntries] at h
    split at h
    · next er her => cases h; exact camtTxFromEntry_err_not_invcur _ _ her
    · split at h
      · next er her => cases h; exact ih her
      · cases h

theorem detect_currency_err_shape (stmt : Camt053Statement) (e : ParseError)
    (h : detect_currency stmt = .error e) :
    e = .invalidCurrency (S "no currency found") ∧ stmt.account.currency = none ∧
      stmt.balances = [] ∧ stmt.entries = [] := by
  unfold detect_currency at h
  split at h
  · cases h
  · split at h
    · cases h
    · split at h
      · cases h
      · cases h
        refine ⟨rfl, ?_, ?_, ?_⟩ <;> assumption

/-- C6: camt.053 currency resolution follows the ordered chain account
currency attribute, then first balance currency, then first entry currency;
and the whole statement conversion fails with `InvalidCurrency` exactly
when all three sources are absent. -/
theorem c6_camt_currency_resolution :
    (∀ stmt : Camt053Statement, ∀ c, stmt.account.currency = some c →
      detect_currency stmt = .ok (parse_currency c)) ∧
    (∀ stmt : Camt053Statement, ∀ b bs, stmt.account.currency = none →
      stmt.balances = b :: bs →
      detect_currency stmt = .ok (parse_currency b.amount.currency)) ∧
    (∀ stmt : Camt053Statement, ∀ e es, stmt.account.currency = none →
      stmt.balances = [] → stmt.entries = e :: es →
      detect_currency stmt = .ok (parse_currency e.amount.currency)) ∧
    (∀ stmt : Camt053Statement, ∀ m,
      camtStatementToStatement stmt = .error (.invalidCurrency m) →
      stmt.account.currency = none ∧ stmt.balances = [] ∧ stmt.entries = []) ∧
    (∀ stmt : Camt053Statement, stmt.account.currency = none → stmt.balances = [] →
      stmt.entries = [] →
      camtStatementToStatement stmt = .error (.invalidCurrency (S "no currency found"))) := by
  refine ⟨?_, ?_, ?_, ?_, ?_⟩
  · intro stmt c hc
    unfold detect_currency
    rw [hc]
  · intro stmt b bs hc hb
    unfold detect_currency
    rw [hc, hb]
  · intro stmt e es hc hb he
    unfold detect_currency
    rw [hc, hb, he]
  · intro stmt m h
    simp only [camtStatementToStatement] at h
    split at h
    · next e0 heq =>
      cases h
      exact (detect_currency_err_shape stmt _ heq).2
    · split at h
      · next e0 heq =>
        cases h
        have := detect_period_err_not_invcur stmt _ heq
        simp [isInvCur] at this
      · split at h
        · next e0 heq =>
          cases h
          have := camtTxsFromEntries_err_not_invcur stmt.entries _ heq
          simp [isInvCur] at this
        · cases h
  · intro stmt hc hb he
    simp only [camtStatementToStatement]
    have hd : detect_currency stmt = .error (.invalidCurrency (S "no currency found")) := by
      unfold detect_currency
      rw [hc, hb, he]
    rw [hd]

/-- Witness for C6: the resolution chain and the failure case applied at
concrete statements. -/
theorem c6_witness :
    detect_currency sampleCamtAccountCcy = .ok (parse_currency (S "EUR")) ∧
    camtStatementToStatement sampleCamtEmpty =
      .error (.invalidCurrency (S "no currency found")) :=
  ⟨c6_camt_currency_resolution.1 sampleCamtAccountCcy (S "EUR") rfl,
   c6_camt_currency_resolution.2.2.2.2 sampleCamtEmpty rfl rfl rfl⟩

/-! ## Lemmas and claim C8 -/
theorem mt940Txs_ok_all (l : List Mt940Entry) (ts : List Transaction)
    (h : mt940TxsFromEntries l = .ok ts) :
    ∀ e ∈ l, ∃ t, txFromMt940Entry e = .ok t := by
  induction l generalizing ts with
  | nil => intro e he; cases he
  | cons x xs ih =>
    intro e he
    rw [mt940TxsFromEntries] at h
    rcases List.mem_cons.mp he with rfl | he2
    · split at h
      · cases h
      · next t ht => exact ⟨t, ht⟩
    · split at h
      · cases h
      · split at h
        · cases h
        · next ts2 hts => exact ih ts2 hts e he2

theorem camtTxs_ok_all (l : List Camt053Entry) (ts : List Transaction)
    (h : camtTxsFromEntries l = .ok ts) :
    ∀ e ∈ l, ∃ t, camtTxFromEntry e = .ok t := by
  induction l generalizing ts with
  | nil => intro e he; cases he
  | cons x xs ih =>
    intro e he
    rw [camtTxsFromEntries] at h
    rcases List.mem_cons.mp he with rfl | he2
    · split at h
      · cases h
      · next t ht => exact ⟨t, ht⟩
    · split at h
      · cases h
      · split at h
        · cases h
        · next ts2 hts => exact ih ts2 hts e he2

theorem csvTxs_ok_all (l : List CsvRecord) (acc : RStr) (ts : List Transaction)
    (h : csvTxsFromRecords l acc = .ok ts) :
    ∀ r ∈ l, ∃ t, csvRecordToTransaction r acc = .ok t := by
  induction l generalizing ts with
  | nil => intro r hr; cases hr
  | cons x xs ih =>
    intro r hr
    rw [csvTxsFromRecords] at h
    rcases List.mem_cons.mp hr with rfl | hr2
    · split at h
      · cases h
      · next t ht => exact ⟨t, ht⟩
    · split at h
      · cases h
      · split at h
        · cases h
        · next ts2 hts => exact ih ts2 hts r hr2

theorem stmtFromMt940_entries_ok (msg : Mt940Message) (s : Statement)
    (h : stmtFromMt940Message msg = .ok s) :
    ∀ e ∈ msg.entries, ∃ t, txFromMt940Entry e = .ok t := by
  simp only [stmtFromMt940Message] at h
  split at h
  · cases h
  · split at h
    · cases h
    · split at h
      · cases h
      · split at h
        · cases h
        · split at h
          · cases h
          · next ts hts =>
            exact mt940Txs_ok_all _ _ hts

theorem camtStatement_entries_ok (stmt : Camt053Statement) (s : Statement)
    (h : camtStatementToStatement stmt = .ok s) :
    ∀ e ∈ stmt.entries, ∃ t, camtTxFromEntry e = .ok t := by
  simp only [camtStatementToStatement] at h
  split at h
  · cases h
  · split at h
    · cases h
    · split at h
      · cases h
      · next ts hts => exact camtTxs_ok_all _ _ hts

theorem csvData_records_ok (data : CsvData) (s : Statement)
    (h : csvDataToStatement data = .ok s) :
    ∀ r ∈ data.records, ∃ t, csvRecordToTransaction r data.header.client_account = .ok t := by
  simp only [csvDataToStatement] at h
  split at h
  · cases h
  · split at h
    · cases h
    · split at h
      · cases h
      · next ts hts => exact csvTxs_ok_all _ _ _ hts


/-- C8 counterexample: a malformed camt.053 opening balance makes
`balance_from_camt` fail, yet the whole statement conversion succeeds and
silently returns `opening_balance = None` — a failure during decode that
does not abort it. -/
theorem c8_counterexample_swallowed_balance_error :
    balance_from_camt c8Bal = .error (.invalidAmount (S "unknown CdtDbtInd: ")) ∧
    camtStatementToStatement c8Stmt =
      .ok ⟨S "DE1", none, .EUR, none, none, [], ⟨2023, 1, 1⟩, ⟨2023, 1, 31⟩⟩ := by
  exact ⟨by decide, by rfl⟩

/-- C8 (amended): a failed transaction conversion aborts the whole decode
in all three formats — a successful conversion implies every raw
entry/record converts — but a malformed camt.053 balance is dropped
(`None`) rather than failing the decode. -/
theorem c8_no_partial_statement :
    (∀ msg : Mt940Message, ∀ s : Statement, stmtFromMt940Message msg = .ok s →
      ∀ e ∈ msg.entries, ∃ t, txFromMt940Entry e = .ok t) ∧
    (∀ stmt : Camt053Statement, ∀ s : Statement, camtStatementToStatement stmt = .ok s →
      ∀ e ∈ stmt.entries, ∃ t, camtTxFromEntry e = .ok t) ∧
    (∀ data : CsvData, ∀ s : Statement, csvDataToStatement data = .ok s →
      ∀ r ∈ data.records, ∃ t, csvRecordToTransaction r data.header.client_account = .ok t) :=
  ⟨stmtFromMt940_entries_ok, camtStatement_entries_ok, csvData_records_ok⟩

/-- Witness for C8: the MT940 part applied at a concrete message that
converts successfully. -/
theorem c8_witness : ∃ t, txFromMt940Entry c8Entry = .ok t :=
  c8_no_partial_statement.1 c8Msg c8Stm (by rfl) c8Entry (List.mem_cons_self _ _)

/-! ## Period-order lemmas (C9) -/

theorem dateLe_refl (a : NDate) : dateLe a a = true := by
  simp [dateLe]

theorem dateLe_trans (a b c : NDate) (h1 : dateLe a b = true) (h2 : dateLe b c = true) :
    dateLe a c = true := by
  simp only [dateLe, Bool.or_eq_true, Bool.and_eq_true, decide_eq_true_eq] at h1 h2 ⊢
  omega

theorem dateLe_total (a b : NDate) (h : dateLe a b = false) : dateLe b a = true := by
  simp only [dateLe, Bool.or_eq_false_iff, Bool.or_eq_true, Bool.and_eq_false_iff,
    Bool.and_eq_true, decide_eq_false_iff_not, decide_eq_true_eq] at h ⊢
  omega

theorem dateMin_le_left (a b : NDate) : dateLe (dateMin a b) a = true := by
  cases h : dateLe a b with
  | true => simp [dateMin, h, dateLe_refl]
  | false =>
    simp only [dateMin, h, Bool.false_eq_true, if_false]
    exact dateLe_total a b h

theorem dateMax_ge_right4 (a b : NDate) : dateLe b (dateMax a b) = true := by
  cases h : dateLe a b with
  | true => simp [dateMax, h, dateLe_refl]
  | false =>
    simp only [dateMax, h, Bool.false_eq_true, if_false]
    exact dateLe_total a b h

theorem dateMax_ge_left4 (a b : NDate) : dateLe a (dateMax a b) = true := by
  cases h : dateLe a b with
  | true => simp [dateMax, h]
  | false =>
    simp only [dateMax, h, Bool.false_eq_true, if_false]
    exact dateLe_refl a

theorem dateMin_le_right4 (a b : NDate) : dateLe (dateMin a b) b = true := by
  cases h : dateLe a b with
  | true => simp [dateMin, h]
  | false => simp [dateMin, h, dateLe_refl]

theorem periodFold_inv (l : List Camt053Entry) :
    ∀ mn mx mn2 mx2, periodFold l mn mx = .ok (mn2, mx2) →
    ((mn = none ∧ mx = none) ∨ (∃ a b, mn = some a ∧ mx = some b ∧ dateLe a b = true)) →
    ((mn2 = none ∧ mx2 = none) ∨
      (∃ a b, mn2 = some a ∧ mx2 = some b ∧ dateLe a b = true)) := by
  induction l with
  | nil =>
    intro mn mx mn2 mx2 h hinv
    rw [periodFold] at h
    cases h
    exact hinv
  | cons x xs ih =>
    intro mn mx mn2 mx2 h hinv
    rw [periodFold] at h
    split at h
    · cases h
    · next d hd =>
      rcases hinv with ⟨rfl, rfl⟩ | ⟨a, b, rfl, rfl, hab⟩
      · exact ih _ _ _ _ h (Or.inr ⟨d, d, rfl, rfl, dateLe_refl d⟩)
      · refine ih _ _ _ _ h (Or.inr ⟨dateMin a d, dateMax b d, rfl, rfl, ?_⟩)
        exact dateLe_trans _ a _ (dateMin_le_left a d)
          (dateLe_trans a b _ hab (dateMax_ge_left4 b d))

theorem listMaxDate_mem_aux (l : List NDate) :
    ∀ acc mx, (l.foldl (fun acc d =>
      match acc with
      | none => some d
      | some a => some (dateMax a d)) acc) = some mx →
    acc = some mx ∨ mx ∈ l := by
  induction l with
  | nil =>
    intro acc mx h
    exact Or.inl h
  | cons d t ih =>
    intro acc mx h
    rw [List.foldl_cons] at h
    rcases ih _ mx h with hstep | hmem
    · cases acc with
      | none =>
        simp only [Option.some.injEq] at hstep
        exact Or.inr (by simp [← hstep])
      | some a =>
        simp only [Option.some.injEq] at hstep
        unfold dateMax at hstep
        split at hstep
        · exact Or.inr (by simp [← hstep])
        · exact Or.inl (by rw [hstep])
    · exact Or.inr (List.mem_cons_of_mem _ hmem)

theorem listMaxDate_mem (l : List NDate) (mx : NDate) (h : listMaxDate l = some mx) :
    mx ∈ l := by
  rcases listMaxDate_mem_aux l none mx h with hc | hm
  · cases hc
  · exact hm

theorem stmtFromMt940_period (msg : Mt940Message) (s : Statement)
    (h : stmtFromMt940Message msg = .ok s) :
    parse_mt940_yy_mm_dd msg.opening_balance.date = .ok s.period_from ∧
    mt940TxsFromEntries msg.entries = .ok s.transactions ∧
    (∀ cb, msg.closing_balance = some cb →
      parse_mt940_yy_mm_dd cb.date = .ok s.period_until) ∧
    (msg.closing_balance = none → s.period_until =
      (listMaxDate (s.transactions.map (fun t => t.booking_date))).getD s.period_from) := by
  simp only [stmtFromMt940Message] at h
  split at h
  · cases h
  · split at h
    · cases h
    · split at h
      · cases h
      · split at h
        · cases h
        · next pf hpf =>
          split at h
          · cases h
          · next ts hts =>
            split at h
            · cases h
            · next pu hpu =>
              cases h
              refine ⟨hpf, hts, ?_, ?_⟩
              · intro cb hcb
                rw [hcb] at hpu
                exact hpu
              · intro hnone
                rw [hnone] at hpu
                simpa using hpu.symm

theorem camtStatement_period (stmt : Camt053Statement) (s : Statement)
    (h : camtStatementToStatement stmt = .ok s) :
    detect_period stmt = .ok (s.period_from, s.period_until) := by
  simp only [camtStatementToStatement] at h
  split at h
  · cases h
  · split at h
    · cases h
    · next pr hpr =>
      split at h
      · cases h
      · cases h
        exact hpr

theorem detect_period_fallback (stmt : Camt053Statement) (f t : NDate)
    (hexp : stmt.period = none ∨ ∃ p, stmt.period = some p ∧
      (p.fromDt = none ∨ p.toDt = none))
    (h : detect_period stmt = .ok (f, t)) : dateLe f t = true := by
  simp only [detect_period] at h
  have hnone :
      (match stmt.period with
       | some p =>
         match p.fromDt, p.toDt with
         | some rawF, some rawT => some (rawF, rawT)
         | _, _ => none
       | none => none) = (none : Option (RStr × RStr)) := by
    rcases hexp with hp | ⟨p, hp, hft⟩
    · rw [hp]
    · obtain ⟨pf, pt⟩ := p
      rw [hp]
      rcases hft with hf | ht
      · subst hf
        cases pt <;> rfl
      · subst ht
        cases pf <;> rfl
  split at h
  · next rawF rawT heq =>
    rw [hnone] at heq
    cases heq
  · next heq =>
    split at h
    · cases h
    · next mn mx hfold =>
      cases h
      rcases periodFold_inv stmt.entries none none (some f) (some t) hfold
        (Or.inl ⟨rfl, rfl⟩) with ⟨hc, _⟩ | ⟨a, b, ha, hb, hab⟩
      · cases hc
      · cases Option.some.inj ha
        cases Option.some.inj hb
        exact hab
    · cases h

/-- C9 counterexample: an MT940 message whose `:62F:` closing date precedes the
`:60F:` opening date decodes successfully to a statement with
`period_from = 2023-01-05 > period_until = 2023-01-01`; no ordering between the
two dates is checked anywhere. -/
theorem c9_counterexample_period_unordered :
    stmtFromMt940Message c9Msg =
      .ok ⟨S "ACC", none, .EUR, some 10000, some 10000, [], ⟨2023, 1, 5⟩, ⟨2023, 1, 1⟩⟩ ∧
    dateLe (⟨2023, 1, 5⟩ : NDate) ⟨2023, 1, 1⟩ = false :=
  ⟨by rfl, by decide⟩

/-- C9 (amended): `period_from <= period_until` holds only conditionally.
For MT940: if the closing balance is absent, the period ends at the latest
booking date, so the order holds whenever every booking date is `>= period_from`;
if a closing balance is present, the order holds exactly when its parsed date is
`>= period_from` (nothing in the code enforces this). For camt.053: when no
explicit `<FrToDt>` period is given, the fallback computed by `detect_period`
from the entries always satisfies `from <= until`. -/
theorem c9_period_order_conditional :
    (∀ msg : Mt940Message, ∀ s : Statement, stmtFromMt940Message msg = .ok s →
      (msg.closing_balance = none →
        (∀ tx ∈ s.transactions, dateLe s.period_from tx.booking_date = true) →
        dateLe s.period_from s.period_until = true) ∧
      (∀ cb u, msg.closing_balance = some cb → parse_mt940_yy_mm_dd cb.date = .ok u →
        dateLe s.period_from u = true → dateLe s.period_from s.period_until = true)) ∧
    (∀ stmt : Camt053Statement, ∀ s : Statement, camtStatementToStatement stmt = .ok s →
      (stmt.period = none ∨ ∃ p, stmt.period = some p ∧
        (p.fromDt = none ∨ p.toDt = none)) →
      dateLe s.period_from s.period_until = true) := by
  constructor
  · intro msg s h
    obtain ⟨hpf, htxs, hsome, hnone⟩ := stmtFromMt940_period msg s h
    constructor
    · intro hcb hall
      have huntil := hnone hcb
      cases hmax : listMaxDate (s.transactions.map (fun t => t.booking_date)) with
      | none =>
        rw [hmax] at huntil
        simp only [Option.getD_none] at huntil
        rw [huntil]
        exact dateLe_refl _
      | some mx =>
        rw [hmax] at huntil
        simp only [Option.getD_some] at huntil
        have hmem := listMaxDate_mem _ _ hmax
        rw [List.mem_map] at hmem
        obtain ⟨tx, htx, rfl⟩ := hmem
        rw [huntil]
        exact hall tx htx
    · intro cb u hcb hu hle
      have := hsome cb hcb
      rw [hu] at this
      cases Except.ok.inj this
      exact hle
  · intro stmt s h hexp
    exact detect_period_fallback stmt _ _ hexp (camtStatement_period stmt s h)

/-- Witness for C9: both conditional branches applied at concrete inputs. -/
theorem c9_witness :
    dateLe (⟨2023, 1, 1⟩ : NDate) (⟨2023, 1, 2⟩ : NDate) = true ∧
    dateLe (⟨2023, 2, 5⟩ : NDate) (⟨2023, 2, 10⟩ : NDate) = true := by
  constructor
  · exact (c9_period_order_conditional.1 c9MsgB c9StmB (by rfl)).1 rfl (by decide)
  · exact c9_period_order_conditional.2 c9CamtStmt c9CamtRes (by rfl) (Or.inl rfl)

/-! ## Booking-date rules (C2) -/

/-- `u32::from_str` on two decimal digit characters. -/
theorem u32FromStr_two (a b : Char) (ha : isAsciiDigit a = true) (hb : isAsciiDigit b = true) :
    u32FromStr [a, b] = some (digitsVal [a, b]) := by
  have hna : 48 ≤ a.toNat ∧ a.toNat ≤ 57 := by simpa [isAsciiDigit] using ha
  have hnb : 48 ≤ b.toNat ∧ b.toNat ≤ 57 := by simpa [isAsciiDigit] using hb
  have hpa : a ≠ '+' := (digit_facts a ha).2.1
  have hv : digitsVal [a, b] ≤ u32Max := by
    simp only [digitsVal, List.foldl_cons, List.foldl_nil, u32Max]
    omega
  simp [u32FromStr, hpa, ha, hb, hv]

/-- `i32::from_str` on two decimal digit characters. -/
theorem i32FromStr_two (a b : Char) (ha : isAsciiDigit a = true) (hb : isAsciiDigit b = true) :
    i32FromStr [a, b] = some ((digitsVal [a, b] : Nat) : Int) := by
  have hna : 48 ≤ a.toNat ∧ a.toNat ≤ 57 := by simpa [isAsciiDigit] using ha
  have hnb : 48 ≤ b.toNat ∧ b.toNat ≤ 57 := by simpa [isAsciiDigit] using hb
  have hpa : a ≠ '+' := (digit_facts a ha).2.1
  have hma : a ≠ '-' := (digit_facts a ha).2.2.1
  have h0 : (Char.toNat '0') = 48 := rfl
  have h99 : digitsVal [a, b] ≤ 99 := by
    simp only [digitsVal, List.foldl_cons, List.foldl_nil, h0]
    omega
  simp [i32FromStr, hpa, hma, ha, hb]
  omega

/-- C2: booking-date derivation for MT940 `:61:` entries.  With no override the
booking date is the value date; a 4-digit override is MM/DD in the value date's
year; a 2-digit override is day DD in the value date's month and year; any
other override length is a `BadInput` error; in `parse_mt940_yy_mm_dd`
two-digit years map 80-99 to 1900+yy and 00-79 to 2000+yy.  In particular
`:61:` value "2301010102C100,00" parses to value date 2023-01-01, booking date
2023-01-02, Credit, 10000 minor units. -/
theorem c2_booking_date_rules :
    (∀ vd : NDate, derive_booking_date vd none = .ok vd) ∧
    (∀ vd : NDate, ∀ a b c d : Char,
      isAsciiDigit a = true → isAsciiDigit b = true →
      isAsciiDigit c = true → isAsciiDigit d = true →
      derive_booking_date vd (some [a, b, c, d]) =
        match fromYmdOpt vd.y (digitsVal [a, b]) (digitsVal [c, d]) with
        | some dt => .ok dt
        | none => .error (.err (.badInput
            (S "invalid MMDD entry date: '" ++ [a, b, c, d] ++ S "'")))) ∧
    (∀ vd : NDate, ∀ a b : Char, isAsciiDigit a = true → isAsciiDigit b = true →
      derive_booking_date vd (some [a, b]) =
        match fromYmdOpt vd.y vd.m (digitsVal [a, b]) with
        | some dt => .ok dt
        | none => .error (.err (.badInput
            (S "invalid DD entry date: '" ++ [a, b] ++ S "'")))) ∧
    (∀ vd : NDate, ∀ ed : RStr, byteLen ed ≠ 2 → byteLen ed ≠ 4 →
      derive_booking_date vd (some ed) =
        .error (.err (.badInput
          (S "entry date must be 2 or 4 digits, got '" ++ ed ++ S "'")))) ∧
    (∀ a b c d e f : Char,
      isAsciiDigit a = true → isAsciiDigit b = true → isAsciiDigit c = true →
      isAsciiDigit d = true → isAsciiDigit e = true → isAsciiDigit f = true →
      parse_mt940_yy_mm_dd [a, b, c, d, e, f] =
        match fromYmdOpt
            (if ((digitsVal [a, b] : Nat) : Int) ≥ 80 then 1900 + ((digitsVal [a, b] : Nat) : Int)
             else 2000 + ((digitsVal [a, b] : Nat) : Int))
            (digitsVal [c, d]) (digitsVal [e, f]) with
        | some dt => .ok dt
        | none => .error (.err (.badInput
            (S "invalid YYMMDD date components: '" ++ [a, b, c, d, e, f] ++ S "'")))) ∧
    (from_61_line (S "2301010102C100,00") (S ":61:2301010102C100,00")).bind txFromMt940Entry =
      .ok ⟨⟨2023, 1, 2⟩, some ⟨2023, 1, 1⟩, 10000, .Credit,
           S ":61:2301010102C100,00", none, none⟩ := by
  refine ⟨?_, ?_, ?_, ?_, ?_, ?_⟩
  · intro vd
    rfl
  · intro vd a b c d ha hb hc hd
    have h1 := (digit_facts a ha).2.2.2.2.2.1
    have h2 := (digit_facts b hb).2.2.2.2.2.1
    have h3 := (digit_facts c hc).2.2.2.2.2.1
    have h4 := (digit_facts d hd).2.2.2.2.2.1
    have hlen : byteLen [a, b, c, d] = 4 := by
      simp [byteLen, h1, h2, h3, h4]
    simp only [derive_booking_date, hlen, reduceIte]
    have hs1 : pSliceRange [a, b, c, d] 0 2 = .ok [a, b] := by
      simp [pSliceRange, sliceBytes, dropBytes, takeBytes, h1, h2]
    have hs2 : pSliceRange [a, b, c, d] 2 4 = .ok [c, d] := by
      simp [pSliceRange, sliceBytes, dropBytes, takeBytes, h1, h2, h3, h4]
    rw [hs1, hs2]
    simp only [bind, Except.bind]
    rw [u32FromStr_two a b ha hb, u32FromStr_two c d hc hd]
  · intro vd a b ha hb
    have h1 := (digit_facts a ha).2.2.2.2.2.1
    have h2 := (digit_facts b hb).2.2.2.2.2.1
    have hlen4 : ¬ (byteLen [a, b] = 4) := by
      simp [byteLen, h1, h2]
    have hlen2 : byteLen [a, b] = 2 := by
      simp [byteLen, h1, h2]
    simp only [derive_booking_date, hlen2, reduceIte]
    rw [if_neg (show ¬(2 = 4) by decide)]
    rw [u32FromStr_two a b ha hb]
  · intro vd ed hn2 hn4
    simp only [derive_booking_date]
    rw [if_neg hn4, if_neg hn2]
  · intro a b c d e f ha hb hc hd he hf
    have h1 := (digit_facts a ha).2.2.2.2.2.1
    have h2 := (digit_facts b hb).2.2.2.2.2.1
    have h3 := (digit_facts c hc).2.2.2.2.2.1
    have h4 := (digit_facts d hd).2.2.2.2.2.1
    have h5 := (digit_facts e he).2.2.2.2.2.1
    have h6 := (digit_facts f hf).2.2.2.2.2.1
    have hlen : byteLen [a, b, c, d, e, f] = 6 := by
      simp [byteLen, h1, h2, h3, h4, h5, h6]
    simp only [parse_mt940_yy_mm_dd, hlen]
    rw [if_neg (by omega)]
    have hs1 : pSliceRange [a, b, c, d, e, f] 0 2 = .ok [a, b] := by
      simp [pSliceRange, sliceBytes, dropBytes, takeBytes, h1, h2]
    have hs2 : pSliceRange [a, b, c, d, e, f] 2 4 = .ok [c, d] := by
      simp [pSliceRange, sliceBytes, dropBytes, takeBytes, h1, h2, h3, h4]
    have hs3 : pSliceRange [a, b, c, d, e, f] 4 6 = .ok [e, f] := by
      simp [pSliceRange, sliceBytes, dropBytes, takeBytes, h1, h2, h3, h4, h5, h6]
    rw [hs1, hs2, hs3]
    simp only [bind, Except.bind]
    rw [i32FromStr_two a b ha hb, u32FromStr_two c d hc hd, u32FromStr_two e f he hf]
  · rfl

/-- Witness for C2: the rules applied at concrete digit characters, covering
both sides of the two-digit-year pivot. -/
theorem c2_witness :
    derive_booking_date (⟨2023, 1, 1⟩ : NDate) (some (S "0102")) = .ok ⟨2023, 1, 2⟩ ∧
    parse_mt940_yy_mm_dd (S "800101") = .ok ⟨1980, 1, 1⟩ ∧
    parse_mt940_yy_mm_dd (S "790101") = .ok ⟨2079, 1, 1⟩ := by
  refine ⟨?_, ?_, ?_⟩
  · rw [show S "0102" = ['0', '1', '0', '2'] from rfl,
      c2_booking_date_rules.2.1 ⟨2023, 1, 1⟩ '0' '1' '0' '2'
        (by decide) (by decide) (by decide) (by decide)]
    rfl
  · rw [show S "800101" = ['8', '0', '0', '1', '0', '1'] from rfl,
      c2_booking_date_rules.2.2.2.2.1 '8' '0' '0' '1' '0' '1'
        (by decide) (by decide) (by decide) (by decide) (by decide) (by decide)]
    rfl
  · rw [show S "790101" = ['7', '9', '0', '1', '0', '1'] from rfl,
      c2_booking_date_rules.2.2.2.2.1 '7' '9' '0' '1' '0' '1'
        (by decide) (by decide) (by decide) (by decide) (by decide) (by decide)]
    rfl

/-! ## ASCII totality of the MT940 value parsers (C10) -/

theorem utf8Len_of_ascii (c : Char) (h : c.toNat < 128) : utf8Len c = 1 := by
  simp only [utf8Len]
  rw [if_pos h]

theorem byteLen_ascii (s : RStr) (h : ∀ c ∈ s, c.toNat < 128) :
    byteLen s = s.length := by
  induction s with
  | nil => rfl
  | cons x t ih =>
    simp only [byteLen, List.map_cons, List.sum_cons, List.length_cons] at *
    rw [utf8Len_of_ascii x (h x (by simp))]
    have := ih (fun c hc => h c (by simp [hc]))
    omega

theorem dropBytes_ascii (s : RStr) (n : Nat) (h : ∀ c ∈ s, c.toNat < 128)
    (hn : n ≤ s.length) : dropBytes s n = some (s.drop n) := by
  induction s generalizing n with
  | nil =>
    cases n with
    | zero => rfl
    | succ m => simp at hn
  | cons x t ih =>
    cases n with
    | zero => rfl
    | succ m =>
      simp only [dropBytes]
      have hx : utf8Len x = 1 := utf8Len_of_ascii x (h x (by simp))
      rw [hx, if_pos (by omega)]
      have : m + 1 - 1 = m := by omega
      rw [this]
      exact ih m (fun c hc => h c (by simp [hc])) (by simp at hn; omega)

theorem takeBytes_ascii (s : RStr) (n : Nat) (h : ∀ c ∈ s, c.toNat < 128)
    (hn : n ≤ s.length) : takeBytes s n = some (s.take n) := by
  induction s generalizing n with
  | nil =>
    cases n with
    | zero => rfl
    | succ m => simp at hn
  | cons x t ih =>
    cases n with
    | zero => rfl
    | succ m =>
      simp only [takeBytes]
      have hx : utf8Len x = 1 := utf8Len_of_ascii x (h x (by simp))
      rw [hx, if_pos (by omega)]
      have h1 : m + 1 - 1 = m := by omega
      rw [h1, ih m (fun c hc => h c (by simp [hc])) (by simp at hn; omega)]
      rfl

theorem sliceBytes_ascii (s : RStr) (a b : Nat) (h : ∀ c ∈ s, c.toNat < 128)
    (hab : a ≤ b) (hb : b ≤ s.length) :
    sliceBytes s a b = some ((s.drop a).take (b - a)) := by
  simp only [sliceBytes]
  rw [if_pos hab, dropBytes_ascii s a h (by omega)]
  exact takeBytes_ascii _ _ (fun c hc => h c (List.mem_of_mem_drop hc))
    (by simp; omega)

theorem mem_trimStart (s : RStr) (c : Char) (h : c ∈ trimStart s) : c ∈ s :=
  (List.dropWhile_sublist _).subset h

theorem mem_trimEnd (s : RStr) (c : Char) (h : c ∈ trimEnd s) : c ∈ s := by
  simp only [trimEnd, List.mem_reverse] at h
  exact List.mem_reverse.mp ((List.dropWhile_sublist _).subset h)

theorem mem_trim (s : RStr) (c : Char) (h : c ∈ trim s) : c ∈ s :=
  mem_trimStart s c (mem_trimEnd (trimStart s) c h)

theorem pSliceRange_ascii (s : RStr) (a b : Nat) (h : ∀ c ∈ s, c.toNat < 128)
    (hab : a ≤ b) (hb : b ≤ s.length) :
    pSliceRange s a b = .ok ((s.drop a).take (b - a)) := by
  unfold pSliceRange
  rw [sliceBytes_ascii s a b h hab hb]

theorem pSliceFrom_ascii (s : RStr) (a : Nat) (h : ∀ c ∈ s, c.toNat < 128)
    (ha : a ≤ s.length) : pSliceFrom s a = .ok (s.drop a) := by
  simp only [pSliceFrom, dropBytes_ascii s a h ha]

theorem pTakeBytes_ascii (s : RStr) (a : Nat) (h : ∀ c ∈ s, c.toNat < 128)
    (ha : a ≤ s.length) : pTakeBytes s a = .ok (s.take a) := by
  simp only [pTakeBytes, takeBytes_ascii s a h ha]

theorem parse_balance_ascii (s : RStr) (h : ∀ c ∈ s, c.toNat < 128) :
    (∃ b, parse_balance s = .ok b) ∨ (∃ pe, parse_balance s = .error (.err pe)) := by
  have hv : ∀ c ∈ trim s, c.toNat < 128 := fun c hc => h c (mem_trim s c hc)
  simp only [parse_balance]
  by_cases h11 : byteLen (trim s) < 11
  · rw [if_pos h11]
    exact Or.inr ⟨_, rfl⟩
  · rw [if_neg h11]
    have hlen : byteLen (trim s) = (trim s).length := byteLen_ascii _ hv
    have hge : 11 ≤ (trim s).length := by omega
    cases hhead : (trim s).head? with
    | none =>
      exact Or.inr ⟨_, rfl⟩
    | some dc =>
      rw [dropBytes_ascii _ 1 hv (by omega)]
      dsimp only
      have hrest : ∀ c ∈ (trim s).drop 1, c.toNat < 128 :=
        fun c hc => hv c (List.mem_of_mem_drop hc)
      have hdlen : ((trim s).drop 1).length = (trim s).length - 1 := by simp
      have hrlen : byteLen ((trim s).drop 1) = (trim s).length - 1 := by
        rw [byteLen_ascii _ hrest, hdlen]
      by_cases h9 : byteLen ((trim s).drop 1) < 9
      · rw [if_pos h9]
        exact Or.inr ⟨_, rfl⟩
      · rw [if_neg h9]
        rw [pSliceRange_ascii _ 0 6 hrest (by omega) (by omega),
            pSliceRange_ascii _ 6 9 hrest (by omega) (by omega),
            pSliceFrom_ascii _ 9 hrest (by omega)]
        exact Or.inl ⟨_, rfl⟩
theorem parse_dc_and_amount_rest_subset (r f : RStr) (dc : Char) (o : Option Char)
    (am rest1 : RStr) (h : parse_dc_and_amount r f = .ok (dc, o, am, rest1)) :
    ∀ c ∈ rest1, c ∈ r := by
  cases r with
  | nil => simp [parse_dc_and_amount] at h
  | cons dm r1 =>
    cases r1 with
    | nil =>
      simp only [parse_dc_and_amount] at h
      split at h
      · cases h
      · simp only [Except.ok.injEq, Prod.mk.injEq] at h
        obtain ⟨-, -, -, h4⟩ := h
        intro c hc
        rw [← h4] at hc
        simp at hc
    | cons c2 t =>
      simp only [parse_dc_and_amount] at h
      split at h
      · split at h
        · cases h
        · simp only [Except.ok.injEq, Prod.mk.injEq] at h
          obtain ⟨-, -, -, h4⟩ := h
          intro c hc
          rw [← h4] at hc
          have hc2 := (List.dropWhile_sublist _).subset hc
          exact List.mem_cons_of_mem _ (List.mem_cons_of_mem _ hc2)
      · split at h
        · cases h
        · simp only [Except.ok.injEq, Prod.mk.injEq] at h
          obtain ⟨-, -, -, h4⟩ := h
          intro c hc
          rw [← h4] at hc
          have hc2 := (List.dropWhile_sublist _).subset hc
          exact List.mem_cons_of_mem _ hc2

theorem from_61_line_ascii (v raw : RStr) (h : ∀ c ∈ v, c.toNat < 128) :
    (∃ e, from_61_line v raw = .ok e) ∨
    (∃ pe, from_61_line v raw = .error (.err pe)) := by
  have hval : ∀ c ∈ trim v, c.toNat < 128 := fun c hc => h c (mem_trim v c hc)
  have hlen : byteLen (trim v) = (trim v).length := byteLen_ascii _ hval
  simp only [from_61_line]
  by_cases h8 : byteLen (trim v) < 8
  · rw [if_pos h8]
    exact Or.inr ⟨_, rfl⟩
  · rw [if_neg h8]
    rw [pSliceRange_ascii _ 0 6 hval (by omega) (by omega)]
    simp only [bind, Except.bind, pure, Except.pure]
    by_cases h10 : byteLen (trim v) ≥ 6 + 4
    · rw [if_pos h10, pSliceRange_ascii _ 6 10 hval (by omega) (by omega)]
      dsimp only
      by_cases hd : (((trim v).drop 6).take (10 - 6)).all isAsciiDigit = true
      · rw [if_pos hd]
        rw [pSliceFrom_ascii _ 10 hval (by omega)]
        dsimp only
        cases hpd : parse_dc_and_amount ((trim v).drop 10) (trim v) with
        | error e =>
          exact Or.inr ⟨e, rfl⟩
        | ok quad =>
          obtain ⟨dc, fc, am, rest1⟩ := quad
          dsimp only
          have hrest1 : ∀ c ∈ rest1, c.toNat < 128 := fun c hc =>
            hval c (List.mem_of_mem_drop
              (parse_dc_and_amount_rest_subset _ _ _ _ _ _ hpd c hc))
          have hr1len : byteLen rest1 = rest1.length := byteLen_ascii _ hrest1
          by_cases h4 : byteLen rest1 ≥ 4
          · rw [if_pos h4, pTakeBytes_ascii rest1 4 hrest1 (by omega)]
            dsimp only
            by_cases halpha : (rest1.take 4).all isAsciiAlpha = true
            · rw [if_pos halpha, pSliceFrom_ascii rest1 4 hrest1 (by omega)]
              exact Or.inl ⟨_, rfl⟩
            · rw [if_neg halpha]
              exact Or.inl ⟨_, rfl⟩
          · rw [if_neg h4]
            exact Or.inl ⟨_, rfl⟩
      · rw [if_neg hd]
        rw [pSliceFrom_ascii _ 6 hval (by omega)]
        dsimp only
        cases hpd : parse_dc_and_amount ((trim v).drop 6) (trim v) with
        | error e =>
          exact Or.inr ⟨e, rfl⟩
        | ok quad =>
          obtain ⟨dc, fc, am, rest1⟩ := quad
          dsimp only
          have hrest1 : ∀ c ∈ rest1, c.toNat < 128 := fun c hc =>
            hval c (List.mem_of_mem_drop
              (parse_dc_and_amount_rest_subset _ _ _ _ _ _ hpd c hc))
          have hr1len : byteLen rest1 = rest1.length := byteLen_ascii _ hrest1
          by_cases h4 : byteLen rest1 ≥ 4
          · rw [if_pos h4, pTakeBytes_ascii rest1 4 hrest1 (by omega)]
            dsimp only
            by_cases halpha : (rest1.take 4).all isAsciiAlpha = true
            · rw [if_pos halpha, pSliceFrom_ascii rest1 4 hrest1 (by omega)]
              exact Or.inl ⟨_, rfl⟩
            · rw [if_neg halpha]
              exact Or.inl ⟨_, rfl⟩
          · rw [if_neg h4]
            exact Or.inl ⟨_, rfl⟩
    · rw [if_neg h10]
      rw [pSliceFrom_ascii _ 6 hval (by omega)]
      dsimp only
      cases hpd : parse_dc_and_amount ((trim v).drop 6) (trim v) with
      | error e =>
        exact Or.inr ⟨e, rfl⟩
      | ok quad =>
        obtain ⟨dc, fc, am, rest1⟩ := quad
        dsimp only
        have hrest1 : ∀ c ∈ rest1, c.toNat < 128 := fun c hc =>
          hval c (List.mem_of_mem_drop
            (parse_dc_and_amount_rest_subset _ _ _ _ _ _ hpd c hc))
        have hr1len : byteLen rest1 = rest1.length := byteLen_ascii _ hrest1
        by_cases h4 : byteLen rest1 ≥ 4
        · rw [if_pos h4, pTakeBytes_ascii rest1 4 hrest1 (by omega)]
          dsimp only
          by_cases halpha : (rest1.take 4).all isAsciiAlpha = true
          · rw [if_pos halpha, pSliceFrom_ascii rest1 4 hrest1 (by omega)]
            exact Or.inl ⟨_, rfl⟩
          · rw [if_neg halpha]
            exact Or.inl ⟨_, rfl⟩
        · rw [if_neg h4]
          exact Or.inl ⟨_, rfl⟩

/-- C10 counterexample: both MT940 value parsers panic on multi-byte UTF-8
input.  `parse_balance` slices `&value[1..]` after a char-level read of the
first character, so a 2-byte first character ('Ж') makes the byte index 1 fall
inside a character; `from_61_line` slices `&value[0..6]` so a multi-byte
character straddling byte 6 panics likewise. -/
theorem c10_counterexample_multibyte_panic :
    parse_balance (S "Ж230101EUR1,00") =
      .error (.panic (S "byte index is not a char boundary")) ∧
    from_61_line (S "12345Ж100,00") (S ":61:12345Ж100,00") =
      .error (.panic (S "byte index is not a char boundary")) :=
  ⟨by rfl, by rfl⟩

/-- C10 (amended): on all-ASCII input `parse_balance` and
`Mt940Entry::from_61_line` are total — every byte-index slice lands on a
character boundary, so they return `Ok` or a `ParseError` and never panic. -/
theorem c10_ascii_totality :
    (∀ s : RStr, (∀ c ∈ s, c.toNat < 128) →
      (∃ b, parse_balance s = .ok b) ∨
      (∃ pe, parse_balance s = .error (.err pe))) ∧
    (∀ v raw : RStr, (∀ c ∈ v, c.toNat < 128) →
      (∃ e, from_61_line v raw = .ok e) ∨
      (∃ pe, from_61_line v raw = .error (.err pe))) :=
  ⟨parse_balance_ascii, from_61_line_ascii⟩

/-- Witness for C10: the totality theorem applied at concrete ASCII inputs. -/
theorem c10_witness :
    ((∃ b, parse_balance (S "C230101EUR1,00") = .ok b) ∨
     (∃ pe, parse_balance (S "C230101EUR1,00") = .error (.err pe))) ∧
    ((∃ e, from_61_line (S "2301010102C100,00") (S ":61:2301010102C100,00") = .ok e) ∨
     (∃ pe, from_61_line (S "2301010102C100,00") (S ":61:2301010102C100,00") =
        .error (.err pe))) :=
  ⟨c10_ascii_totality.1 (S "C230101EUR1,00") (by decide),
   c10_ascii_totality.2 (S "2301010102C100,00") (S ":61:2301010102C100,00") (by decide)⟩

/-! ## First statement kept (C7) -/

/-- C7 counterexample: later MT940 blocks are not merely "dropped with a
warning" — each closed block is parsed with `?`, so a malformed second block
aborts the whole decode even though the first block alone decodes fine. -/
theorem c7_counterexample_second_block_aborts :
    mt940Parse c7Block1 = .ok ⟨c7Msg1⟩ ∧
    mt940Parse (c7Block1 ++ c7Block2Bad) =
      .error (.err (.badInput (S "MT940: missing :25: account id"))) :=
  ⟨by rfl, by rfl⟩

/-- C7 (amended): when every block parses, only the first statement is kept.
For camt.053 the first `<Stmt>` is returned and later ones are dropped with a
warning; for MT940, if the framing loop succeeds with its last block closed
and messages `m :: rest`, the parse returns `m` regardless of `rest`. -/
theorem c7_first_statement_kept :
    (∀ s : Camt053Statement, ∀ rest : List Camt053Statement,
      camt053Parse (s :: rest) = .ok s) ∧
    (∀ lines : List RStr, ∀ fs : FrameState, ∀ m : Mt940Message,
      ∀ rest : List Mt940Message,
      frameRun frameInit lines = .ok fs → fs.in_text = false →
      fs.messages = m :: rest → mt940Parse lines = .ok ⟨m⟩) := by
  constructor
  · intro s rest
    rfl
  · intro lines fs m rest h hin hmsgs
    simp only [mt940Parse, h]
    rw [hin]
    simp [hmsgs]

/-- Witness for C7: two well-formed MT940 blocks decode to the first message;
two camt statements select the first. -/
theorem c7_witness :
    mt940Parse (c7Block1 ++ c7Block2Good) = .ok ⟨c7Msg1⟩ ∧
    camt053Parse [sampleCamtEmpty, sampleCamtEmpty] = .ok sampleCamtEmpty :=
  ⟨c7_first_statement_kept.2 (c7Block1 ++ c7Block2Good) c7FrameFinal c7Msg1 [c7Msg2]
      (by rfl) (by rfl) (by rfl),
   c7_first_statement_kept.1 sampleCamtEmpty [sampleCamtEmpty]⟩

/-! ## MT940 encode/decode round-trip (C1) -/

theorem digitChar10_facts : ∀ n < 10, isAsciiDigit (digitChar10 n) = true ∧
    (digitChar10 n).toNat = 48 + n := by decide

theorem natToCharsAux_append (fuel : Nat) : ∀ n acc,
    natToCharsAux fuel n acc = natToCharsAux fuel n [] ++ acc := by
  induction fuel with
  | zero => intro n acc; rfl
  | succ fuel ih =>
    intro n acc
    by_cases h : n < 10
    · rw [natToCharsAux, if_pos h, natToCharsAux, if_pos h]
      rfl
    · rw [natToCharsAux, if_neg h, natToCharsAux, if_neg h]
      rw [ih (n / 10) (digitChar10 (n % 10) :: acc), ih (n / 10) [digitChar10 (n % 10)]]
      simp

theorem digitsVal_append_one (l : RStr) (c : Char) :
    digitsVal (l ++ [c]) = digitsVal l * 10 + (c.toNat - '0'.toNat) := by
  simp [digitsVal, List.foldl_append]

theorem natToCharsAux_spec (fuel : Nat) : ∀ n, n < 10 ^ (fuel + 1) →
    natToCharsAux (fuel + 1) n [] ≠ [] ∧
    (∀ c ∈ natToCharsAux (fuel + 1) n [], isAsciiDigit c = true) ∧
    digitsVal (natToCharsAux (fuel + 1) n []) = n := by
  induction fuel with
  | zero =>
    intro n hn
    have h10 : n < 10 := by simpa using hn
    have hd := digitChar10_facts n h10
    rw [natToCharsAux, if_pos h10]
    refine ⟨by simp, ?_, ?_⟩
    · intro c hc
      rcases List.mem_singleton.mp hc with rfl
      exact hd.1
    · simp only [digitsVal, List.foldl_cons, List.foldl_nil, hd.2]
      have h0 : ('0').toNat = 48 := rfl
      omega
  | succ fuel ih =>
    intro n hn
    by_cases h10 : n < 10
    · have hd := digitChar10_facts n h10
      rw [natToCharsAux, if_pos h10]
      refine ⟨by simp, ?_, ?_⟩
      · intro c hc
        rcases List.mem_singleton.mp hc with rfl
        exact hd.1
      · simp only [digitsVal, List.foldl_cons, List.foldl_nil, hd.2]
        have h0 : ('0').toNat = 48 := rfl
        omega
    · have hdiv : n / 10 < 10 ^ (fuel + 1) := by
        rw [Nat.div_lt_iff_lt_mul (by omega)]
        calc n < 10 ^ (fuel + 1 + 1) := hn
        _ = 10 ^ (fuel + 1) * 10 := by ring
      obtain ⟨hne, hdig, hval⟩ := ih (n / 10) hdiv
      have hmod := digitChar10_facts (n % 10) (Nat.mod_lt n (by omega))
      rw [natToCharsAux, if_neg h10, natToCharsAux_append]
      refine ⟨by simp, ?_, ?_⟩
      · intro c hc
        rcases List.mem_append.mp hc with hc | hc
        · exact hdig c hc
        · rcases List.mem_singleton.mp hc with rfl
          exact hmod.1
      · rw [digitsVal_append_one, hval, hmod.2]
        have h0 : ('0').toNat = 48 := rfl
        rw [h0]
        omega

theorem natToChars_spec (n : Nat) :
    natToChars n ≠ [] ∧ (∀ c ∈ natToChars n, isAsciiDigit c = true) ∧
    digitsVal (natToChars n) = n :=
  natToCharsAux_spec n n (by
    calc n < 10 ^ n := Nat.lt_pow_self (by norm_num) n
    _ ≤ 10 ^ (n + 1) := Nat.pow_le_pow_right (by norm_num) (by omega))

theorem zeroPad2_eq : ∀ n < 100,
    zeroPad2 n = [digitChar10 (n / 10), digitChar10 (n % 10)] := by decide

theorem parse_amount_two_frac_dot (ds : RStr) (d1 d2 : Char) (h1 : ds ≠ [])
    (h2 : ∀ c ∈ ds, isAsciiDigit c = true) (hd1 : isAsciiDigit d1 = true)
    (hd2 : isAsciiDigit d2 = true) (h3 : digitsVal ds ≤ u64Max) :
    parse_amount (ds ++ '.' :: [d1, d2]) =
      .ok ((digitsVal ds * 100 + digitsVal [d1, d2]) % 2 ^ 64) := by
  have hws : ∀ c ∈ ds ++ '.' :: [d1, d2], isRustWS c = false := by
    intro c hc
    rcases List.mem_append.mp hc with hc | hc
    · exact (digit_facts c (h2 c hc)).1
    · rcases List.mem_cons.mp hc with rfl | hc
      · decide
      · rcases List.mem_cons.mp hc with rfl | hc
        · exact (digit_facts c hd1).1
        · rcases List.mem_singleton.mp hc with rfl
          exact (digit_facts c hd2).1
  have hnc : containsChar (ds ++ '.' :: [d1, d2]) ',' = false := by
    simp only [containsChar, List.any_eq_false, decide_eq_false_iff_not]
    intro a ha
    rcases List.mem_append.mp ha with ha | ha
    · simpa using (digit_facts a (h2 a ha)).2.2.2.2.1
    · rcases List.mem_cons.mp ha with rfl | ha
      · decide
      · rcases List.mem_cons.mp ha with rfl | ha
        · simpa using (digit_facts a hd1).2.2.2.2.1
        · rcases List.mem_singleton.mp ha with rfl
          simpa using (digit_facts a hd2).2.2.2.2.1
  have hclean : amountCleaned (ds ++ '.' :: [d1, d2]) = ds ++ '.' :: [d1, d2] :=
    amountCleaned_eq_self_of_noWS_noComma _ hws (by simpa [containsChar] using hnc)
  obtain ⟨x, xs, rfl⟩ := List.exists_cons_of_ne_nil h1
  have hxdig := h2 x (by simp)
  have hxm : ¬ ('-' = x) := fun hcon => (digit_facts x hxdig).2.2.1 hcon.symm
  unfold parse_amount
  rw [hclean]
  rw [if_neg (by simp)]
  have hstart : startsWithStr (x :: (xs ++ ['.', d1, d2])) (S "-") = false := by
    simp [startsWithStr, S, List.isPrefixOf, hxm]
  rw [if_neg (by simp only [List.cons_append]; simp [hstart])]
  have hsplit : splitChar ((x :: xs) ++ '.' :: [d1, d2]) '.' = [x :: xs, [d1, d2]] := by
    apply splitChar_append_once
    · simp only [containsChar, List.any_eq_false, decide_eq_false_iff_not]
      intro a ha
      simpa using (digit_facts a (h2 a ha)).2.2.2.1
    · simp only [containsChar, List.any_cons, List.any_nil, Bool.or_eq_false_iff]
      refine ⟨by simpa using (digit_facts d1 hd1).2.2.2.1,
        by simpa using (digit_facts d2 hd2).2.2.2.1, trivial⟩
  rw [hsplit]
  simp only [List.headD_cons, List.drop_succ_cons, List.drop_zero, List.length_cons,
    List.length_nil]
  rw [if_neg (by omega)]
  rw [u64FromStr_digits (x :: xs) (by simp) h2 h3]
  have hbyte : byteLen [d1, d2] = 2 := by
    simp [byteLen, (digit_facts d1 hd1).2.2.2.2.2.1, (digit_facts d2 hd2).2.2.2.2.2.1]
  rw [hbyte]
  have hd12 : digitsVal [d1, d2] ≤ u64Max := by
    have ha : 48 ≤ d1.toNat ∧ d1.toNat ≤ 57 := by simpa [isAsciiDigit] using hd1
    have hb : 48 ≤ d2.toNat ∧ d2.toNat ≤ 57 := by simpa [isAsciiDigit] using hd2
    have h0 : ('0').toNat = 48 := rfl
    simp only [digitsVal, List.foldl_cons, List.foldl_nil, h0, u64Max]
    omega
  rw [u64FromStr_digits [d1, d2] (by simp) (by
    intro c hc
    rcases List.mem_cons.mp hc with rfl | hc
    · exact hd1
    · rcases List.mem_singleton.mp hc with rfl
      exact hd2) hd12]

theorem parse_amount_two_frac_comma (ds : RStr) (d1 d2 : Char) (h1 : ds ≠ [])
    (h2 : ∀ c ∈ ds, isAsciiDigit c = true) (hd1 : isAsciiDigit d1 = true)
    (hd2 : isAsciiDigit d2 = true) (h3 : digitsVal ds ≤ u64Max) :
    parse_amount (ds ++ ',' :: [d1, d2]) =
      .ok ((digitsVal ds * 100 + digitsVal [d1, d2]) % 2 ^ 64) := by
  have hws : ∀ c ∈ ds ++ ',' :: [d1, d2], isRustWS c = false := by
    intro c hc
    rcases List.mem_append.mp hc with hc | hc
    · exact (digit_facts c (h2 c hc)).1
    · rcases List.mem_cons.mp hc with rfl | hc
      · decide
      · rcases List.mem_cons.mp hc with rfl | hc
        · exact (digit_facts c hd1).1
        · rcases List.mem_singleton.mp hc with rfl
          exact (digit_facts c hd2).1
  have hcomma : containsChar (ds ++ ',' :: [d1, d2]) ',' = true := by
    simp [containsChar]
  have hdot : containsChar (ds ++ ',' :: [d1, d2]) '.' = false := by
    simp only [containsChar, List.any_eq_false, decide_eq_false_iff_not]
    intro a ha
    rcases List.mem_append.mp ha with ha | ha
    · simpa using (digit_facts a (h2 a ha)).2.2.2.1
    · rcases List.mem_cons.mp ha with rfl | ha
      · decide
      · rcases List.mem_cons.mp ha with rfl | ha
        · simpa using (digit_facts a hd1).2.2.2.1
        · rcases List.mem_singleton.mp ha with rfl
          simpa using (digit_facts a hd2).2.2.2.1
  rw [parse_amount_comma_decimal _ hws hcomma hdot]
  have hmap : (ds ++ ',' :: [d1, d2]).map (fun c => if c = ',' then '.' else c) =
      ds ++ '.' :: [d1, d2] := by
    rw [List.map_append]
    congr 1
    · calc ds.map (fun c => if c = ',' then '.' else c) = ds.map id := by
            apply List.map_congr_left
            intro a ha
            have := (digit_facts a (h2 a ha)).2.2.2.2.1
            simp [this]
      _ = ds := List.map_id ds
    · have hne1 : d1 ≠ ',' := (digit_facts d1 hd1).2.2.2.2.1
      have hne2 : d2 ≠ ',' := (digit_facts d2 hd2).2.2.2.2.1
      simp [hne1, hne2]
  rw [hmap]
  exact parse_amount_two_frac_dot ds d1 d2 h1 h2 hd1 hd2 h3

theorem parse_amount_format_minor (n : Nat) (h : n < 2 ^ 64) :
    parse_amount (format_minor_units (n : Int) ',') = .ok n := by
  have habs : ((n : Int)).natAbs = n := by simp
  have hmod : n % 100 < 100 := Nat.mod_lt n (by omega)
  obtain ⟨hne, hdig, hval⟩ := natToChars_spec (n / 100)
  have hz := zeroPad2_eq (n % 100) hmod
  have hda := digitChar10_facts (n % 100 / 10) (by omega)
  have hdb := digitChar10_facts (n % 100 % 10) (by omega)
  have hform : format_minor_units (n : Int) ',' =
      natToChars (n / 100) ++ ',' ::
        [digitChar10 (n % 100 / 10), digitChar10 (n % 100 % 10)] := by
    unfold format_minor_units
    rw [habs]
    show natToChars (n / 100) ++ [','] ++ zeroPad2 (n % 100) = _
    rw [hz, List.append_assoc]
    rfl
  rw [hform]
  rw [parse_amount_two_frac_comma _ _ _ hne hdig hda.1 hdb.1
    (by rw [hval]; unfold u64Max; omega)]
  congr 1
  rw [hval]
  have h0 : ('0').toNat = 48 := rfl
  simp only [digitsVal, List.foldl_cons, List.foldl_nil, hda.2, hdb.2, h0]
  omega

theorem daysInMonth_le (y : Int) (m : Nat) : daysInMonth y m ≤ 31 := by
  unfold daysInMonth
  split
  any_goals omega
  split <;> omega

theorem fromYmdOpt_some (y : Int) (m d : Nat) (dd : NDate)
    (h : fromYmdOpt y m d = some dd) :
    dd = ⟨y, m, d⟩ ∧ 1 ≤ m ∧ m ≤ 12 ∧ 1 ≤ d ∧ d ≤ 31 := by
  unfold fromYmdOpt at h
  split at h
  · next hcond =>
    simp only [Bool.and_eq_true, decide_eq_true_eq] at hcond
    cases h
    have hd31 := daysInMonth_le y m
    exact ⟨rfl, by omega, by omega, by omega, by omega⟩
  · cases h

theorem parse_mt940_yy_mm_dd_digits (a b c d e f : Char)
    (ha : isAsciiDigit a = true) (hb : isAsciiDigit b = true)
    (hc : isAsciiDigit c = true) (hd : isAsciiDigit d = true)
    (he : isAsciiDigit e = true) (hf : isAsciiDigit f = true) :
    parse_mt940_yy_mm_dd [a, b, c, d, e, f] =
      match fromYmdOpt
          (if ((digitsVal [a, b] : Nat) : Int) ≥ 80 then 1900 + ((digitsVal [a, b] : Nat) : Int)
           else 2000 + ((digitsVal [a, b] : Nat) : Int))
          (digitsVal [c, d]) (digitsVal [e, f]) with
      | some dt => .ok dt
      | none => .error (.err (.badInput
          (S "invalid YYMMDD date components: '" ++ [a, b, c, d, e, f] ++ S "'"))) := by
  have h1 := (digit_facts a ha).2.2.2.2.2.1
  have h2 := (digit_facts b hb).2.2.2.2.2.1
  have h3 := (digit_facts c hc).2.2.2.2.2.1
  have h4 := (digit_facts d hd).2.2.2.2.2.1
  have h5 := (digit_facts e he).2.2.2.2.2.1
  have h6 := (digit_facts f hf).2.2.2.2.2.1
  have hlen : byteLen [a, b, c, d, e, f] = 6 := by
    simp [byteLen, h1, h2, h3, h4, h5, h6]
  simp only [parse_mt940_yy_mm_dd, hlen]
  rw [if_neg (by omega)]
  have hs1 : pSliceRange [a, b, c, d, e, f] 0 2 = .ok [a, b] := by
    simp [pSliceRange, sliceBytes, dropBytes, takeBytes, h1, h2]
  have hs2 : pSliceRange [a, b, c, d, e, f] 2 4 = .ok [c, d] := by
    simp [pSliceRange, sliceBytes, dropBytes, takeBytes, h1, h2, h3, h4]
  have hs3 : pSliceRange [a, b, c, d, e, f] 4 6 = .ok [e, f] := by
    simp [pSliceRange, sliceBytes, dropBytes, takeBytes, h1, h2, h3, h4, h5, h6]
  rw [hs1, hs2, hs3]
  simp only [bind, Except.bind]
  rw [i32FromStr_two a b ha hb, u32FromStr_two c d hc hd, u32FromStr_two e f he hf]

theorem digitsVal_two_digitChar (x y : Nat) (hx : x < 10) (hy : y < 10) :
    digitsVal [digitChar10 x, digitChar10 y] = 10 * x + y := by
  have hdx := digitChar10_facts x hx
  have hdy := digitChar10_facts y hy
  have h0 : ('0').toNat = 48 := rfl
  simp only [digitsVal, List.foldl_cons, List.foldl_nil, hdx.2, hdy.2, h0]
  omega

theorem yymmdd_roundtrip (d : NDate) (hv : fromYmdOpt d.y d.m d.d = some d)
    (hy1 : 1980 ≤ d.y) (hy2 : d.y ≤ 2079) :
    parse_mt940_yy_mm_dd (format_yymmdd d) = .ok d := by
  obtain ⟨-, hm1, hm2, hd1, hd2⟩ := fromYmdOpt_some _ _ _ _ hv
  have hyy0 : (0 : Int) ≤ d.y % 100 := Int.emod_nonneg d.y (by omega)
  have hyy1 : d.y % 100 < 100 := Int.emod_lt_of_pos d.y (by omega)
  have hyyN : (d.y % 100).toNat < 100 := by omega
  have hycast : ((d.y % 100).toNat : Int) = d.y % 100 := Int.toNat_of_nonneg hyy0
  have hform : format_yymmdd d =
      [digitChar10 ((d.y % 100).toNat / 10), digitChar10 ((d.y % 100).toNat % 10),
       digitChar10 (d.m / 10), digitChar10 (d.m % 10),
       digitChar10 (d.d / 10), digitChar10 (d.d % 10)] := by
    unfold format_yymmdd
    rw [zeroPad2_eq _ hyyN, zeroPad2_eq d.m (by omega), zeroPad2_eq d.d (by omega)]
    rfl
  rw [hform]
  rw [parse_mt940_yy_mm_dd_digits _ _ _ _ _ _
    (digitChar10_facts _ (by omega)).1 (digitChar10_facts _ (by omega)).1
    (digitChar10_facts _ (by omega)).1 (digitChar10_facts _ (by omega)).1
    (digitChar10_facts _ (by omega)).1 (digitChar10_facts _ (by omega)).1]
  rw [digitsVal_two_digitChar _ _ (by omega) (by omega),
      digitsVal_two_digitChar _ _ (by omega) (by omega),
      digitsVal_two_digitChar _ _ (by omega) (by omega)]
  have hyrec : 10 * ((d.y % 100).toNat / 10) + (d.y % 100).toNat % 10 = (d.y % 100).toNat := by
    omega
  have hmrec : 10 * (d.m / 10) + d.m % 10 = d.m := by omega
  have hdrec : 10 * (d.d / 10) + d.d % 10 = d.d := by omega
  rw [hyrec, hmrec, hdrec]
  have hyear : (if ((((d.y % 100).toNat : Nat)) : Int) ≥ 80
      then 1900 + ((((d.y % 100).toNat : Nat)) : Int)
      else 2000 + ((((d.y % 100).toNat : Nat)) : Int)) = d.y := by
    by_cases hcond : ((((d.y % 100).toNat : Nat)) : Int) ≥ 80
    · rw [if_pos hcond]
      omega
    · rw [if_neg hcond]
      omega
  rw [hyear, hv]

theorem format_yymmdd_explicit (d : NDate) (hm : d.m < 100) (hd : d.d < 100) :
    format_yymmdd d =
      [digitChar10 ((d.y % 100).toNat / 10), digitChar10 ((d.y % 100).toNat % 10),
       digitChar10 (d.m / 10), digitChar10 (d.m % 10),
       digitChar10 (d.d / 10), digitChar10 (d.d % 10)] := by
  have hyy0 : (0 : Int) ≤ d.y % 100 := Int.emod_nonneg d.y (by omega)
  have hyy1 : d.y % 100 < 100 := Int.emod_lt_of_pos d.y (by omega)
  unfold format_yymmdd
  rw [zeroPad2_eq _ (by omega), zeroPad2_eq d.m hm, zeroPad2_eq d.d hd]
  rfl

theorem format_yymmdd_digits (d : NDate) (hm : d.m < 100) (hd : d.d < 100) :
    (∀ c ∈ format_yymmdd d, isAsciiDigit c = true) ∧ (format_yymmdd d).length = 6 := by
  have hyy0 : (0 : Int) ≤ d.y % 100 := Int.emod_nonneg d.y (by omega)
  have hyy1 : d.y % 100 < 100 := Int.emod_lt_of_pos d.y (by omega)
  rw [format_yymmdd_explicit d hm hd]
  refine ⟨?_, rfl⟩
  intro c hc
  simp only [List.mem_cons, List.not_mem_nil, or_false] at hc
  rcases hc with rfl | rfl | rfl | rfl | rfl | rfl
  · exact (digitChar10_facts _ (by omega)).1
  · exact (digitChar10_facts _ (by omega)).1
  · exact (digitChar10_facts _ (by omega)).1
  · exact (digitChar10_facts _ (by omega)).1
  · exact (digitChar10_facts _ (by omega)).1
  · exact (digitChar10_facts _ (by omega)).1

theorem parse_balance_format (dcm : Char) (dt : NDate) (ccy amt : RStr)
    (hdc1 : dcm.toNat < 128) (hdc2 : isRustWS dcm = false)
    (hm : dt.m < 100) (hd : dt.d < 100)
    (hccyL : ccy.length = 3) (hccy : ∀ c ∈ ccy, c.toNat < 128 ∧ isRustWS c = false)
    (hamtNe : amt ≠ []) (hamt : ∀ c ∈ amt, c.toNat < 128 ∧ isRustWS c = false) :
    parse_balance (dcm :: (format_yymmdd dt ++ ccy ++ amt)) =
      .ok ⟨dcm, format_yymmdd dt, ccy, amt⟩ := by
  obtain ⟨hdig6, hlen6⟩ := format_yymmdd_digits dt hm hd
  have hasciiY : ∀ c ∈ format_yymmdd dt, c.toNat < 128 ∧ isRustWS c = false := by
    intro c hc
    have h1 := hdig6 c hc
    have h2 : 48 ≤ c.toNat ∧ c.toNat ≤ 57 := by simpa [isAsciiDigit] using h1
    exact ⟨by omega, (digit_facts c h1).1⟩
  have hall : ∀ c ∈ dcm :: (format_yymmdd dt ++ ccy ++ amt),
      c.toNat < 128 ∧ isRustWS c = false := by
    intro c hc
    rcases List.mem_cons.mp hc with rfl | hc
    · exact ⟨hdc1, hdc2⟩
    · rcases List.mem_append.mp hc with hc | hc
      · rcases List.mem_append.mp hc with hc | hc
        · exact hasciiY c hc
        · exact hccy c hc
      · exact hamt c hc
  have hax : ∀ c ∈ dcm :: (format_yymmdd dt ++ ccy ++ amt), c.toNat < 128 :=
    fun c hc => (hall c hc).1
  have hws : ∀ c ∈ dcm :: (format_yymmdd dt ++ ccy ++ amt), isRustWS c = false :=
    fun c hc => (hall c hc).2
  have htrim : trim (dcm :: (format_yymmdd dt ++ ccy ++ amt)) =
      dcm :: (format_yymmdd dt ++ ccy ++ amt) := trim_eq_self_of_noWS _ hws
  have hamtL : 1 ≤ amt.length := by
    cases amt with
    | nil => exact absurd rfl hamtNe
    | cons x xs => simp
  have hlenAll : (dcm :: (format_yymmdd dt ++ ccy ++ amt)).length =
      10 + amt.length := by
    simp [hlen6, hccyL]
    omega
  have hbl : byteLen (dcm :: (format_yymmdd dt ++ ccy ++ amt)) = 10 + amt.length := by
    rw [byteLen_ascii _ hax, hlenAll]
  simp only [parse_balance]
  rw [htrim, hbl]
  rw [if_neg (by omega)]
  simp only [List.head?_cons]
  have hrest : ∀ c ∈ format_yymmdd dt ++ ccy ++ amt, c.toNat < 128 :=
    fun c hc => hax c (List.mem_cons_of_mem _ hc)
  rw [dropBytes_ascii _ 1 hax (by simp)]
  dsimp only
  have hdrop1 : (dcm :: (format_yymmdd dt ++ ccy ++ amt)).drop 1 =
      format_yymmdd dt ++ ccy ++ amt := rfl
  rw [hdrop1]
  have hblr : byteLen (format_yymmdd dt ++ ccy ++ amt) = 9 + amt.length := by
    rw [byteLen_ascii _ hrest]
    simp [hlen6, hccyL]
    omega
  rw [hblr]
  rw [if_neg (by omega)]
  have hlenr : (format_yymmdd dt ++ ccy ++ amt).length = 9 + amt.length := by
    simp [hlen6, hccyL]
    omega
  rw [pSliceRange_ascii _ 0 6 hrest (by omega) (by omega),
      pSliceRange_ascii _ 6 9 hrest (by omega) (by omega),
      pSliceFrom_ascii _ 9 hrest (by omega)]
  have htake6 : ((format_yymmdd dt ++ ccy ++ amt).drop 0).take (6 - 0) =
      format_yymmdd dt := by
    rw [List.drop_zero, List.append_assoc, ← hlen6]
    exact List.take_left _ _
  have hccypart : ((format_yymmdd dt ++ ccy ++ amt).drop 6).take (9 - 6) = ccy := by
    have h96 : (9 : Nat) - 6 = 3 := rfl
    rw [h96, List.append_assoc]
    rw [show (6 : Nat) = (format_yymmdd dt).length from hlen6.symm]
    rw [List.drop_left]
    rw [← hccyL]
    exact List.take_left _ _
  have hamtpart : (format_yymmdd dt ++ ccy ++ amt).drop 9 = amt := by
    rw [show (9 : Nat) = (format_yymmdd dt ++ ccy).length by simp [hlen6, hccyL]]
    exact List.drop_left _ _
  rw [htake6, hccypart, hamtpart]
  have htrimAmt : trim amt = amt :=
    trim_eq_self_of_noWS _ (fun c hc => (hamt c hc).2)
  simp only [bind, Except.bind, pure, Except.pure, htrimAmt]

theorem digit_not_alpha (c : Char) (h : isAsciiDigit c = true) :
    isAsciiAlpha c = false := by
  have hn : 48 ≤ c.toNat ∧ c.toNat ≤ 57 := by simpa [isAsciiDigit] using h
  simp only [isAsciiAlpha, Bool.or_eq_false_iff, Bool.and_eq_false_iff]
  constructor
  · left
    simp only [decide_eq_false_iff_not]
    omega
  · left
    simp only [decide_eq_false_iff_not]
    omega

theorem takeWhile_all (p : Char → Bool) (l : RStr) (h : ∀ c ∈ l, p c = true) :
    l.takeWhile p = l ∧ l.dropWhile p = [] := by
  induction l with
  | nil => exact ⟨rfl, rfl⟩
  | cons x xs ih =>
    have hx := h x (by simp)
    obtain ⟨h1, h2⟩ := ih (fun c hc => h c (List.mem_cons_of_mem _ hc))
    rw [List.takeWhile_cons, List.dropWhile_cons]
    simp [hx, h1, h2]

theorem format_minor_chars (n : Nat) :
    ∀ c ∈ format_minor_units (n : Int) ',', isAsciiDigit c = true ∨ c = ',' := by
  have habs : ((n : Int)).natAbs = n := by simp
  have hmod : n % 100 < 100 := Nat.mod_lt n (by omega)
  obtain ⟨hne, hdig, hval⟩ := natToChars_spec (n / 100)
  intro c hc
  have hform : format_minor_units (n : Int) ',' =
      natToChars (n / 100) ++ [','] ++ zeroPad2 (n % 100) := by
    unfold format_minor_units
    rw [habs]
  rw [hform] at hc
  rcases List.mem_append.mp hc with hc | hc
  · rcases List.mem_append.mp hc with hc | hc
    · exact Or.inl (hdig c hc)
    · exact Or.inr (List.mem_singleton.mp hc)
  · rw [zeroPad2_eq _ hmod] at hc
    rcases List.mem_cons.mp hc with rfl | hc
    · exact Or.inl (digitChar10_facts _ (by omega)).1
    · rcases List.mem_singleton.mp hc with rfl
      exact Or.inl (digitChar10_facts _ (by omega)).1

theorem format_minor_ne_nil (n : Nat) : format_minor_units (n : Int) ',' ≠ [] := by
  have habs : ((n : Int)).natAbs = n := by simp
  obtain ⟨hne, -, -⟩ := natToChars_spec (n / 100)
  unfold format_minor_units
  rw [habs]
  intro hcon
  rcases List.append_eq_nil.mp hcon with ⟨h1, -⟩
  rcases List.append_eq_nil.mp h1 with ⟨h2, -⟩
  exact hne h2

theorem format_minor_head_digit (n : Nat) :
    ∃ x xs, format_minor_units (n : Int) ',' = x :: xs ∧ isAsciiDigit x = true := by
  have habs : ((n : Int)).natAbs = n := by simp
  obtain ⟨hne, hdig, -⟩ := natToChars_spec (n / 100)
  obtain ⟨x, xs, hx⟩ := List.exists_cons_of_ne_nil hne
  refine ⟨x, xs ++ [','] ++ zeroPad2 (n % 100), ?_, hdig x (by rw [hx]; simp)⟩
  unfold format_minor_units
  rw [habs]
  show natToChars (n / 100) ++ [','] ++ zeroPad2 (n % 100) = _
  rw [hx]
  simp

theorem parse_dc_amount_format (dcm : Char) (n : Nat) (full : RStr) :
    parse_dc_and_amount (dcm :: format_minor_units (n : Int) ',') full =
      .ok (dcm, none, format_minor_units (n : Int) ',', []) := by
  obtain ⟨x, xs, hx, hxd⟩ := format_minor_head_digit n
  have hp : ∀ c ∈ format_minor_units (n : Int) ',',
      (isAsciiDigit c || decide (c = ',') || decide (c = '.')) = true := by
    intro c hc
    rcases format_minor_chars n c hc with h | h
    · simp [h]
    · simp [h]
  obtain ⟨htake, hdrop⟩ := takeWhile_all _ _ hp
  rw [hx] at htake hdrop ⊢
  simp only [parse_dc_and_amount]
  have hcond : (isAsciiAlpha x && decide (x ≠ 'C') && decide (x ≠ 'D')) = false := by
    rw [digit_not_alpha x hxd]
    rfl
  rw [hcond]
  simp only [Bool.false_eq_true, if_false]
  rw [htake, hdrop]
  simp

theorem from_61_format (vd bk : NDate) (amtN : Nat) (dcm : Char) (raw : RStr)
    (hm : vd.m < 100) (hdv : vd.d < 100) (hbm : bk.m < 100) (hbd : bk.d < 100)
    (hdcm : dcm = 'C' ∨ dcm = 'D') :
    from_61_line (format_yymmdd vd ++ (zeroPad2 bk.m ++ zeroPad2 bk.d) ++ [dcm] ++
        format_minor_units (amtN : Int) ',') raw =
      .ok ⟨raw, format_yymmdd vd, some (zeroPad2 bk.m ++ zeroPad2 bk.d), dcm, none,
           format_minor_units (amtN : Int) ',', none, none, none, none, ⟨[]⟩⟩ := by
  obtain ⟨hAdig, hA6⟩ := format_yymmdd_digits vd hm hdv
  have hB4 : (zeroPad2 bk.m ++ zeroPad2 bk.d).length = 4 := by
    rw [zeroPad2_eq bk.m hbm, zeroPad2_eq bk.d hbd]
    rfl
  have hBdig : ∀ c ∈ zeroPad2 bk.m ++ zeroPad2 bk.d, isAsciiDigit c = true := by
    intro c hc
    rw [zeroPad2_eq bk.m hbm, zeroPad2_eq bk.d hbd] at hc
    simp only [List.mem_append, List.mem_cons, List.not_mem_nil, or_false] at hc
    rcases hc with (rfl | rfl) | (rfl | rfl) <;>
      exact (digitChar10_facts _ (by omega)).1
  have hFne : format_minor_units (amtN : Int) ',' ≠ [] := format_minor_ne_nil amtN
  have hFax : ∀ c ∈ format_minor_units (amtN : Int) ',',
      c.toNat < 128 ∧ isRustWS c = false := by
    intro c hc
    rcases format_minor_chars amtN c hc with h | h
    · have hn : 48 ≤ c.toNat ∧ c.toNat ≤ 57 := by simpa [isAsciiDigit] using h
      exact ⟨by omega, (digit_facts c h).1⟩
    · subst h
      exact ⟨by decide, by decide⟩
  have hdig_ax : ∀ c : Char, isAsciiDigit c = true → c.toNat < 128 ∧ isRustWS c = false := by
    intro c h
    have hn : 48 ≤ c.toNat ∧ c.toNat ≤ 57 := by simpa [isAsciiDigit] using h
    exact ⟨by omega, (digit_facts c h).1⟩
  have hVax2 : ∀ c ∈ format_yymmdd vd ++ (zeroPad2 bk.m ++ zeroPad2 bk.d) ++ [dcm] ++
      format_minor_units (amtN : Int) ',', c.toNat < 128 ∧ isRustWS c = false := by
    intro c hc
    rcases List.mem_append.mp hc with hc | hc
    · rcases List.mem_append.mp hc with hc | hc
      · rcases List.mem_append.mp hc with hc | hc
        · exact hdig_ax c (hAdig c hc)
        · exact hdig_ax c (hBdig c hc)
      · rcases List.mem_singleton.mp hc with rfl
        rcases hdcm with rfl | rfl
        · exact ⟨by decide, by decide⟩
        · exact ⟨by decide, by decide⟩
    · exact hFax c hc
  have hVax : ∀ c ∈ format_yymmdd vd ++ (zeroPad2 bk.m ++ zeroPad2 bk.d) ++ [dcm] ++
      format_minor_units (amtN : Int) ',', c.toNat < 128 := fun c hc => (hVax2 c hc).1
  have htrimV : trim (format_yymmdd vd ++ (zeroPad2 bk.m ++ zeroPad2 bk.d) ++ [dcm] ++
      format_minor_units (amtN : Int) ',') =
      format_yymmdd vd ++ (zeroPad2 bk.m ++ zeroPad2 bk.d) ++ [dcm] ++
      format_minor_units (amtN : Int) ',' :=
    trim_eq_self_of_noWS _ (fun c hc => (hVax2 c hc).2)
  have hVlen : (format_yymmdd vd ++ (zeroPad2 bk.m ++ zeroPad2 bk.d) ++ [dcm] ++
      format_minor_units (amtN : Int) ',').length =
      11 + (format_minor_units (amtN : Int) ',').length := by
    have hB4x := hB4
    simp only [List.length_append] at hB4x
    simp only [List.length_append, List.length_cons, List.length_nil, hA6]
    omega
  have hbl : byteLen (format_yymmdd vd ++ (zeroPad2 bk.m ++ zeroPad2 bk.d) ++ [dcm] ++
      format_minor_units (amtN : Int) ',') =
      11 + (format_minor_units (amtN : Int) ',').length := by
    rw [byteLen_ascii _ hVax, hVlen]
  have hFlen1 : 1 ≤ (format_minor_units (amtN : Int) ',').length := by
    cases hcase : format_minor_units (amtN : Int) ',' with
    | nil => exact absurd hcase hFne
    | cons x xs => simp
  have hslice1 : ((format_yymmdd vd ++ (zeroPad2 bk.m ++ zeroPad2 bk.d) ++ [dcm] ++
      format_minor_units (amtN : Int) ',').drop 0).take (6 - 0) = format_yymmdd vd := by
    rw [List.drop_zero, List.append_assoc, List.append_assoc, ← hA6]
    exact List.take_left _ _
  have hslice2 : ((format_yymmdd vd ++ (zeroPad2 bk.m ++ zeroPad2 bk.d) ++ [dcm] ++
      format_minor_units (amtN : Int) ',').drop 6).take (10 - 6) =
      zeroPad2 bk.m ++ zeroPad2 bk.d := by
    have h106 : (10 : Nat) - 6 = 4 := rfl
    rw [h106, List.append_assoc, List.append_assoc]
    rw [show (6 : Nat) = (format_yymmdd vd).length from hA6.symm, List.drop_left]
    rw [← hB4]
    exact List.take_left _ _
  have hdrop10 : (format_yymmdd vd ++ (zeroPad2 bk.m ++ zeroPad2 bk.d) ++ [dcm] ++
      format_minor_units (amtN : Int) ',').drop 10 =
      dcm :: format_minor_units (amtN : Int) ',' := by
    rw [List.append_assoc]
    rw [show (10 : Nat) = (format_yymmdd vd ++ (zeroPad2 bk.m ++ zeroPad2 bk.d)).length by
      simp [hA6, hB4]]
    rw [List.drop_left]
    rfl
  have hBall : List.all (zeroPad2 bk.m ++ zeroPad2 bk.d) isAsciiDigit = true :=
    List.all_eq_true.mpr hBdig
  simp only [from_61_line]
  rw [htrimV, hbl]
  rw [if_neg (by omega)]
  rw [pSliceRange_ascii _ 0 6 hVax (by omega) (by rw [hVlen]; omega)]
  simp only [bind, Except.bind, pure, Except.pure]
  rw [if_pos (by omega)]
  rw [pSliceRange_ascii _ 6 10 hVax (by omega) (by rw [hVlen]; omega)]
  dsimp only
  rw [hslice2, if_pos hBall]
  rw [pSliceFrom_ascii _ 10 hVax (by rw [hVlen]; omega)]
  dsimp only
  rw [hdrop10, hslice1]
  rw [parse_dc_amount_format dcm amtN]
  dsimp only
  rw [if_neg (by decide)]
  rfl

theorem joinSep_single (sep x : RStr) : joinSep sep [x] = x := by
  simp [joinSep, List.intercalate]

theorem derive_booking_four (vdd : NDate) (a b c d : Char)
    (ha : isAsciiDigit a = true) (hb : isAsciiDigit b = true)
    (hc : isAsciiDigit c = true) (hd : isAsciiDigit d = true) :
    derive_booking_date vdd (some [a, b, c, d]) =
      match fromYmdOpt vdd.y (digitsVal [a, b]) (digitsVal [c, d]) with
      | some dt => .ok dt
      | none => .error (.err (.badInput
          (S "invalid MMDD entry date: '" ++ [a, b, c, d] ++ S "'"))) := by
  have h1 := (digit_facts a ha).2.2.2.2.2.1
  have h2 := (digit_facts b hb).2.2.2.2.2.1
  have h3 := (digit_facts c hc).2.2.2.2.2.1
  have h4 := (digit_facts d hd).2.2.2.2.2.1
  have hlen : byteLen [a, b, c, d] = 4 := by
    simp [byteLen, h1, h2, h3, h4]
  simp only [derive_booking_date, hlen, reduceIte]
  have hs1 : pSliceRange [a, b, c, d] 0 2 = .ok [a, b] := by
    simp [pSliceRange, sliceBytes, dropBytes, takeBytes, h1, h2]
  have hs2 : pSliceRange [a, b, c, d] 2 4 = .ok [c, d] := by
    simp [pSliceRange, sliceBytes, dropBytes, takeBytes, h1, h2, h3, h4]
  rw [hs1, hs2]
  simp only [bind, Except.bind]
  rw [u32FromStr_two a b ha hb, u32FromStr_two c d hc hd]

theorem txFromEntry_format (vd bk : NDate) (amtN : Nat) (dcm : Char)
    (dir : Direction) (raw desc : RStr)
    (hdir : (dir = .Credit ∧ dcm = 'C') ∨ (dir = .Debit ∧ dcm = 'D'))
    (hamt : amtN < 2 ^ 64)
    (hvdv : fromYmdOpt vd.y vd.m vd.d = some vd) (hy1 : 1980 ≤ vd.y) (hy2 : vd.y ≤ 2079)
    (hbkv : fromYmdOpt bk.y bk.m bk.d = some bk) (hyy : bk.y = vd.y) :
    ∃ cp1 cp2,
      txFromMt940Entry ⟨raw, format_yymmdd vd,
          some (zeroPad2 bk.m ++ zeroPad2 bk.d), dcm, none,
          format_minor_units (amtN : Int) ',', none, none, none, none, ⟨[desc]⟩⟩ =
        .ok ⟨bk, some vd, amtN, dir, desc, cp1, cp2⟩ := by
  obtain ⟨-, -, hbm2, -, hbd2⟩ := fromYmdOpt_some _ _ _ _ hbkv
  refine ⟨(extract_counterparty_from_mt940 ⟨raw, format_yymmdd vd,
      some (zeroPad2 bk.m ++ zeroPad2 bk.d), dcm, none,
      format_minor_units (amtN : Int) ',', none, none, none, none, ⟨[desc]⟩⟩).1,
    (extract_counterparty_from_mt940 ⟨raw, format_yymmdd vd,
      some (zeroPad2 bk.m ++ zeroPad2 bk.d), dcm, none,
      format_minor_units (amtN : Int) ',', none, none, none, none, ⟨[desc]⟩⟩).2, ?_⟩
  simp only [txFromMt940Entry]
  have hdirE : (if dcm = 'D' then (.ok .Debit : MRes Direction)
      else if dcm = 'C' then .ok .Credit
      else .error (.err (.invalidAmount (S "unknown direction: " ++ [dcm])))) =
      .ok dir := by
    rcases hdir with ⟨rfl, rfl⟩ | ⟨rfl, rfl⟩
    · rfl
    · rfl
  rw [hdirE]
  rw [parse_amount_format_minor amtN hamt]
  rw [yymmdd_roundtrip vd hvdv hy1 hy2]
  dsimp only
  have hzpm := zeroPad2_eq bk.m (by omega)
  have hzpd := zeroPad2_eq bk.d (by omega)
  have hfour : zeroPad2 bk.m ++ zeroPad2 bk.d =
      [digitChar10 (bk.m / 10), digitChar10 (bk.m % 10),
       digitChar10 (bk.d / 10), digitChar10 (bk.d % 10)] := by
    rw [hzpm, hzpd]
    rfl
  rw [hfour]
  rw [derive_booking_four vd _ _ _ _
    (digitChar10_facts _ (by omega)).1 (digitChar10_facts _ (by omega)).1
    (digitChar10_facts _ (by omega)).1 (digitChar10_facts _ (by omega)).1]
  rw [digitsVal_two_digitChar _ _ (by omega) (by omega),
      digitsVal_two_digitChar _ _ (by omega) (by omega)]
  have hm : 10 * (bk.m / 10) + bk.m % 10 = bk.m := by omega
  have hdd : 10 * (bk.d / 10) + bk.d % 10 = bk.d := by omega
  rw [hm, hdd, ← hyy, hbkv]
  have hdesc : build_description ⟨raw, format_yymmdd vd,
      some [digitChar10 (bk.m / 10), digitChar10 (bk.m % 10),
            digitChar10 (bk.d / 10), digitChar10 (bk.d % 10)], dcm, none,
      format_minor_units (amtN : Int) ',', none, none, none, none, ⟨[desc]⟩⟩ =
      joinSep (S " | ") [joinSep (S " ") [desc]] := by
    simp [build_description]
  rw [hdesc, joinSep_single, joinSep_single]

theorem dropWhile_eq_self_not (p : Char → Bool) (l : RStr) (h : ∀ x ∈ l, p x = false) :
    l.dropWhile p = l := by
  cases l with
  | nil => rfl
  | cons x xs => simp [List.dropWhile_cons, h x (by simp)]

theorem trimEndMatchesChar_eq_self (s : RStr) (c : Char) (h : ∀ x ∈ s, x ≠ c) :
    trimEndMatchesChar s c = s := by
  unfold trimEndMatchesChar
  rw [dropWhile_eq_self_not _ _ (by
    intro x hx
    simpa using h x (List.mem_reverse.mp hx))]
  exact List.reverse_reverse s

theorem splitAtFirstChar_append (l r : RStr) (c : Char) (hl : ∀ x ∈ l, x ≠ c) :
    splitAtFirstChar (l ++ c :: r) c = some (l, c :: r) := by
  induction l with
  | nil =>
    rw [List.nil_append, splitAtFirstChar]
    simp
  | cons x xs ih =>
    rw [List.cons_append, splitAtFirstChar]
    rw [if_neg (hl x (by simp))]
    rw [ih (fun y hy => hl y (List.mem_cons_of_mem _ hy))]
    rfl

theorem split_tag_format (tag v : RStr)
    (htag : ∀ x ∈ tag, isRustWS x = false ∧ x ≠ ':') :
    split_tag_line (':' :: (tag ++ ':' :: v)) = .ok (tag, v) := by
  have htrimS : trimStart (':' :: (tag ++ ':' :: v)) = ':' :: (tag ++ ':' :: v) := by
    unfold trimStart
    rw [List.dropWhile_cons]
    simp [show isRustWS ':' = false by decide]
  simp only [split_tag_line, htrimS]
  have hstart : startsWithStr (':' :: (tag ++ ':' :: v)) (S ":") = true := by
    simp [startsWithStr, S, List.isPrefixOf]
  rw [hstart]
  simp only [Bool.not_true, Bool.false_eq_true, if_false, reduceIte, List.tail_cons]
  rw [splitAtFirstChar_append tag (v) ':' (fun x hx => (htag x hx).2)]
  dsimp only
  rw [trim_eq_self_of_noWS tag (fun x hx => (htag x hx).1)]
  rfl

theorem trimStart_cons_nonWS (c : Char) (rest : RStr) (h : isRustWS c = false) :
    trimStart (c :: rest) = c :: rest := by
  simp [trimStart, List.dropWhile_cons, h]

theorem processLine_tag_line (st : MLState) (tag v : RStr)
    (htag : ∀ x ∈ tag, isRustWS x = false ∧ x ≠ ':' ∧ x ≠ '\r')
    (hnoCR : ∀ x ∈ v, x ≠ '\r') :
    processLine st (':' :: (tag ++ ':' :: v)) =
      (if tag = S "20" then .ok { st with tx_ref := some v }
       else if tag = S "25" then .ok { st with account_id := some v }
       else if tag = S "28C" then .ok { st with statement_number := some v }
       else if tag = S "60F" || tag = S "60M" then
         match parse_balance v with
         | .error e => .error e
         | .ok bal =>
           if st.opening_balance.isNone then .ok { st with opening_balance := some bal }
           else .ok st
       else if tag = S "62F" || tag = S "62M" then
         match parse_balance v with
         | .error e => .error e
         | .ok bal => .ok { st with closing_balance := some bal }
       else if tag = S "64" then
         match parse_balance v with
         | .error e => .error e
         | .ok bal => .ok { st with closing_available_balance := some bal }
       else if tag = S "61" then
         match from_61_line v (':' :: (tag ++ ':' :: v)) with
         | .error e => .error e
         | .ok entry =>
           .ok { st with
                 entries := st.entries ++ (match st.current_entry with
                                           | some prev => [prev]
                                           | none => []),
                 current_entry := some entry }
       else if tag = S "86" then
         .ok { st with current_entry := st.current_entry.map (fun e => push_info_line e v) }
       else .ok st) := by
  have hCR : trimEndMatchesChar (':' :: (tag ++ ':' :: v)) '\r' =
      ':' :: (tag ++ ':' :: v) := by
    apply trimEndMatchesChar_eq_self
    intro x hx
    rcases List.mem_cons.mp hx with rfl | hx
    · decide
    · rcases List.mem_append.mp hx with hx | hx
      · exact (htag x hx).2.2
      · rcases List.mem_cons.mp hx with rfl | hx
        · decide
        · exact hnoCR x hx
  have hTS : trimStart (':' :: (tag ++ ':' :: v)) = ':' :: (tag ++ ':' :: v) :=
    trimStart_cons_nonWS ':' _ (by decide)
  have hSW : startsWithStr (':' :: (tag ++ ':' :: v)) (S ":") = true := by
    simp [startsWithStr, S, List.isPrefixOf]
  simp only [processLine, hCR, hTS, hSW, if_true, reduceIte]
  rw [split_tag_format tag v (fun x hx => ⟨(htag x hx).1, (htag x hx).2.1⟩)]

theorem format_86_plain (tx : Transaction) (hcp : tx.counterparty = none)
    (hcpn : tx.counterparty_name = none) (hne : tx.description ≠ [])
    (hts : trim tx.description = tx.description) :
    format_86_line tx = some tx.description := by
  simp only [format_86_line, hcp, hcpn, List.append_nil, List.nil_append]
  have hj : joinSep (S " ") [] = [] := rfl
  rw [hj]
  simp only [List.isEmpty_nil, hts]
  have hne' : tx.description.isEmpty = false := by
    cases hdesc : tx.description with
    | nil => exact absurd hdesc hne
    | cons x xs => rfl
  simp [hne']
  exact ⟨fun hcon => hne (by rw [← hts, hcon]), hts⟩

theorem write_tx_lines (tx : Transaction) (hcp : tx.counterparty = none)
    (hcpn : tx.counterparty_name = none) (hne : tx.description ≠ [])
    (hts : trim tx.description = tx.description) :
    write_mt940_tx tx = [S ":61:" ++ format_61_line tx, S ":86:" ++ tx.description] := by
  unfold write_mt940_tx
  rw [format_86_plain tx hcp hcpn hne hts]
  rfl

theorem format_61_noCR (tx : Transaction) (vd : NDate) (hvd : tx.value_date = some vd)
    (hm : vd.m < 100) (hdv : vd.d < 100)
    (hbm : tx.booking_date.m < 100) (hbd : tx.booking_date.d < 100) :
    ∀ c ∈ format_61_line tx, c ≠ '\r' := by
  have hf61 : format_61_line tx = format_yymmdd vd ++
      (zeroPad2 tx.booking_date.m ++ zeroPad2 tx.booking_date.d) ++
      [(match tx.direction with | .Debit => 'D' | .Credit => 'C')] ++
      format_minor_units (tx.amount : Int) ',' := by
    unfold format_61_line
    rw [hvd]
    rfl
  rw [hf61]
  obtain ⟨hAdig, -⟩ := format_yymmdd_digits vd hm hdv
  intro c hc
  have hdigCR : ∀ x : Char, isAsciiDigit x = true → x ≠ '\r' := by
    intro x hx hcon
    subst hcon
    simp [isAsciiDigit] at hx
  rcases List.mem_append.mp hc with hc | hc
  · rcases List.mem_append.mp hc with hc | hc
    · rcases List.mem_append.mp hc with hc | hc
      · exact hdigCR c (hAdig c hc)
      · rcases List.mem_append.mp hc with hc | hc
        · rw [zeroPad2_eq _ hbm] at hc
          rcases List.mem_cons.mp hc with rfl | hc
          · exact hdigCR _ (digitChar10_facts _ (by omega)).1
          · rcases List.mem_singleton.mp hc with rfl
            exact hdigCR _ (digitChar10_facts _ (by omega)).1
        · rw [zeroPad2_eq _ hbd] at hc
          rcases List.mem_cons.mp hc with rfl | hc
          · exact hdigCR _ (digitChar10_facts _ (by omega)).1
          · rcases List.mem_singleton.mp hc with rfl
            exact hdigCR _ (digitChar10_facts _ (by omega)).1
    · rcases List.mem_singleton.mp hc with rfl
      cases tx.direction <;> decide
  · rcases format_minor_chars tx.amount c hc with h | h
    · exact hdigCR c h
    · subst h
      decide

theorem processLines_one_tx (st : MLState) (tx : Transaction) (vd : NDate)
    (hvd : tx.value_date = some vd)
    (hm : vd.m < 100) (hdv : vd.d < 100)
    (hbm : tx.booking_date.m < 100) (hbd : tx.booking_date.d < 100)
    (hcp : tx.counterparty = none) (hcpn : tx.counterparty_name = none)
    (hne : tx.description ≠ []) (hts : trim tx.description = tx.description)
    (hdCR : ∀ x ∈ tx.description, x ≠ '\r') :
    processLines st (write_mt940_tx tx) = .ok { st with
      entries := st.entries ++ (match st.current_entry with
                                | some prev => [prev]
                                | none => []),
      current_entry := some ⟨S ":61:" ++ format_61_line tx,
        format_yymmdd vd,
        some (zeroPad2 tx.booking_date.m ++ zeroPad2 tx.booking_date.d),
        (match tx.direction with | .Debit => 'D' | .Credit => 'C'), none,
        format_minor_units (tx.amount : Int) ',', none, none, none, none,
        ⟨[tx.description]⟩⟩ } := by
  rw [write_tx_lines tx hcp hcpn hne hts]
  have h61form : S ":61:" ++ format_61_line tx =
      ':' :: (S "61" ++ ':' :: format_61_line tx) := rfl
  have h86form : S ":86:" ++ tx.description =
      ':' :: (S "86" ++ ':' :: tx.description) := rfl
  have hf61 : format_61_line tx = format_yymmdd vd ++
      (zeroPad2 tx.booking_date.m ++ zeroPad2 tx.booking_date.d) ++
      [(match tx.direction with | .Debit => 'D' | .Credit => 'C')] ++
      format_minor_units (tx.amount : Int) ',' := by
    unfold format_61_line
    rw [hvd]
    rfl
  have hpl1 : processLine st (S ":61:" ++ format_61_line tx) = .ok { st with
      entries := st.entries ++ (match st.current_entry with
                                | some prev => [prev]
                                | none => []),
      current_entry := some ⟨S ":61:" ++ format_61_line tx,
        format_yymmdd vd,
        some (zeroPad2 tx.booking_date.m ++ zeroPad2 tx.booking_date.d),
        (match tx.direction with | .Debit => 'D' | .Credit => 'C'), none,
        format_minor_units (tx.amount : Int) ',', none, none, none, none,
        ⟨[]⟩⟩ } := by
    rw [h61form]
    rw [processLine_tag_line st (S "61") (format_61_line tx)
      (by decide) (format_61_noCR tx vd hvd hm hdv hbm hbd)]
    rw [if_neg (by decide), if_neg (by decide), if_neg (by decide),
        if_neg (by decide), if_neg (by decide), if_neg (by decide),
        if_pos rfl]
    rw [hf61]
    rw [from_61_format vd tx.booking_date tx.amount _ _ hm hdv hbm hbd
      (by cases tx.direction
          · exact Or.inr rfl
          · exact Or.inl rfl)]
  have hpl2 : ∀ st2 : MLState, processLine st2 (S ":86:" ++ tx.description) =
      .ok { st2 with current_entry :=
        st2.current_entry.map (fun e => push_info_line e tx.description) } := by
    intro st2
    rw [h86form]
    rw [processLine_tag_line st2 (S "86") tx.description (by decide) hdCR]
    rw [if_neg (by decide), if_neg (by decide), if_neg (by decide),
        if_neg (by decide), if_neg (by decide), if_neg (by decide),
        if_neg (by decide), if_pos rfl]
  simp only [processLines]
  rw [hpl1]
  dsimp only
  rw [hpl2]
  dsimp only
  unfold push_info_line
  rw [hts]
  rfl

theorem processLines_append (l1 l2 : List RStr) : ∀ st,
    processLines st (l1 ++ l2) =
      match processLines st l1 with
      | .error e => .error e
      | .ok st2 => processLines st2 l2 := by
  induction l1 with
  | nil => intro st; rfl
  | cons l ls ih =>
    intro st
    show (match processLine st l with
          | .error e => (.error e : MRes MLState)
          | .ok st2 => processLines st2 (ls ++ l2)) =
        match (match processLine st l with
               | .error e => (.error e : MRes MLState)
               | .ok st2 => processLines st2 ls) with
        | .error e => .error e
        | .ok st2 => processLines st2 l2
    cases processLine st l with
    | error e => rfl
    | ok st2 =>
      dsimp only
      exact ih st2

theorem processLines_txs (txs : List Transaction) : ∀ st : MLState,
    (∀ tx ∈ txs, (∃ vd : NDate, tx.value_date = some vd ∧ vd.m < 100 ∧ vd.d < 100) ∧
      tx.booking_date.m < 100 ∧ tx.booking_date.d < 100 ∧
      tx.counterparty = none ∧ tx.counterparty_name = none ∧
      tx.description ≠ [] ∧ trim tx.description = tx.description ∧
      (∀ x ∈ tx.description, x ≠ '\r')) →
    ∃ st' : MLState, processLines st (txs.flatMap write_mt940_tx) = .ok st' ∧
      st'.tx_ref = st.tx_ref ∧ st'.account_id = st.account_id ∧
      st'.statement_number = st.statement_number ∧
      st'.opening_balance = st.opening_balance ∧
      st'.closing_balance = st.closing_balance ∧
      st'.closing_available_balance = st.closing_available_balance ∧
      st'.entries ++ (match st'.current_entry with
                      | some prev => [prev]
                      | none => []) =
        (st.entries ++ (match st.current_entry with
                        | some prev => [prev]
                        | none => [])) ++
        txs.map (fun tx => (⟨S ":61:" ++ format_61_line tx,
          format_yymmdd (tx.value_date.getD tx.booking_date),
          some (zeroPad2 tx.booking_date.m ++ zeroPad2 tx.booking_date.d),
          (match tx.direction with | .Debit => 'D' | .Credit => 'C'), none,
          format_minor_units (tx.amount : Int) ',', none, none, none, none,
          ⟨[tx.description]⟩⟩ : Mt940Entry)) := by
  induction txs with
  | nil =>
    intro st hyp
    exact ⟨st, rfl, rfl, rfl, rfl, rfl, rfl, rfl, by simp⟩
  | cons tx rest ih =>
    intro st hyp
    obtain ⟨⟨vd, hvd, hvm, hvdd⟩, hbm, hbd, hcp, hcpn, hne, hts, hdCR⟩ :=
      hyp tx (by simp)
    rw [List.flatMap_cons, processLines_append]
    rw [processLines_one_tx st tx vd hvd hvm hvdd hbm hbd hcp hcpn hne hts hdCR]
    obtain ⟨st', hrun, h1, h2, h3, h4, h5, h6, hcomb⟩ :=
      ih _ (fun t ht => hyp t (List.mem_cons_of_mem _ ht))
    refine ⟨st', hrun, by rw [h1], by rw [h2], by rw [h3], by rw [h4],
      by rw [h5], by rw [h6], ?_⟩
    rw [hcomb]
    simp only [hvd, Option.getD_some]
    simp [List.map_cons, List.append_assoc]
    simp [hvd]

theorem processLine_60F (st : MLState) (hop : st.opening_balance = none)
    (dcm : Char) (dt : NDate) (ccy amt : RStr)
    (hdc1 : dcm.toNat < 128) (hdc2 : isRustWS dcm = false) (hdc3 : dcm ≠ '\r')
    (hm : dt.m < 100) (hd : dt.d < 100)
    (hccyL : ccy.length = 3)
    (hccy : ∀ c ∈ ccy, c.toNat < 128 ∧ isRustWS c = false ∧ c ≠ '\r')
    (hamtNe : amt ≠ [])
    (hamt : ∀ c ∈ amt, c.toNat < 128 ∧ isRustWS c = false ∧ c ≠ '\r') :
    processLine st (S ":60F:" ++ (dcm :: (format_yymmdd dt ++ ccy ++ amt))) =
      .ok { st with opening_balance := some ⟨dcm, format_yymmdd dt, ccy, amt⟩ } := by
  have hform : S ":60F:" ++ (dcm :: (format_yymmdd dt ++ ccy ++ amt)) =
      ':' :: (S "60F" ++ ':' :: (dcm :: (format_yymmdd dt ++ ccy ++ amt))) := rfl
  have hvCR : ∀ x ∈ dcm :: (format_yymmdd dt ++ ccy ++ amt), x ≠ '\r' := by
    intro x hx
    rcases List.mem_cons.mp hx with rfl | hx
    · exact hdc3
    · rcases List.mem_append.mp hx with hx | hx
      · rcases List.mem_append.mp hx with hx | hx
        · have := (format_yymmdd_digits dt hm hd).1 x hx
          intro hcon
          subst hcon
          simp [isAsciiDigit] at this
        · exact (hccy x hx).2.2
      · exact (hamt x hx).2.2
  rw [hform, processLine_tag_line st (S "60F") _ (by decide) hvCR]
  rw [if_neg (by decide), if_neg (by decide), if_neg (by decide),
      if_pos (by decide)]
  rw [parse_balance_format dcm dt ccy amt hdc1 hdc2 hm hd hccyL
    (fun c hc => ⟨(hccy c hc).1, (hccy c hc).2.1⟩) hamtNe
    (fun c hc => ⟨(hamt c hc).1, (hamt c hc).2.1⟩)]
  simp [hop]

theorem processLine_62F (st : MLState)
    (dcm : Char) (dt : NDate) (ccy amt : RStr)
    (hdc1 : dcm.toNat < 128) (hdc2 : isRustWS dcm = false) (hdc3 : dcm ≠ '\r')
    (hm : dt.m < 100) (hd : dt.d < 100)
    (hccyL : ccy.length = 3)
    (hccy : ∀ c ∈ ccy, c.toNat < 128 ∧ isRustWS c = false ∧ c ≠ '\r')
    (hamtNe : amt ≠ [])
    (hamt : ∀ c ∈ amt, c.toNat < 128 ∧ isRustWS c = false ∧ c ≠ '\r') :
    processLine st (S ":62F:" ++ (dcm :: (format_yymmdd dt ++ ccy ++ amt))) =
      .ok { st with closing_balance := some ⟨dcm, format_yymmdd dt, ccy, amt⟩ } := by
  have hform : S ":62F:" ++ (dcm :: (format_yymmdd dt ++ ccy ++ amt)) =
      ':' :: (S "62F" ++ ':' :: (dcm :: (format_yymmdd dt ++ ccy ++ amt))) := rfl
  have hvCR : ∀ x ∈ dcm :: (format_yymmdd dt ++ ccy ++ amt), x ≠ '\r' := by
    intro x hx
    rcases List.mem_cons.mp hx with rfl | hx
    · exact hdc3
    · rcases List.mem_append.mp hx with hx | hx
      · rcases List.mem_append.mp hx with hx | hx
        · have := (format_yymmdd_digits dt hm hd).1 x hx
          intro hcon
          subst hcon
          simp [isAsciiDigit] at this
        · exact (hccy x hx).2.2
      · exact (hamt x hx).2.2
  rw [hform, processLine_tag_line st (S "62F") _ (by decide) hvCR]
  rw [if_neg (by decide), if_neg (by decide), if_neg (by decide),
      if_neg (by decide), if_pos (by decide)]
  rw [parse_balance_format dcm dt ccy amt hdc1 hdc2 hm hd hccyL
    (fun c hc => ⟨(hccy c hc).1, (hccy c hc).2.1⟩) hamtNe
    (fun c hc => ⟨(hamt c hc).1, (hamt c hc).2.1⟩)]

theorem processLine_25 (st : MLState) (acc : RStr) (hacc : ∀ x ∈ acc, x ≠ '\r') :
    processLine st (S ":25:" ++ acc) = .ok { st with account_id := some acc } := by
  have hform : S ":25:" ++ acc = ':' :: (S "25" ++ ':' :: acc) := rfl
  rw [hform, processLine_tag_line st (S "25") acc (by decide) hacc]
  rw [if_neg (by decide), if_pos rfl]

theorem processLine_20 (st : MLState) :
    processLine st (S ":20:SERIALIZED") =
      .ok { st with tx_ref := some (S "SERIALIZED") } := by
  have hform : S ":20:SERIALIZED" = ':' :: (S "20" ++ ':' :: S "SERIALIZED") := rfl
  rw [hform, processLine_tag_line st (S "20") (S "SERIALIZED") (by decide) (by decide)]
  rw [if_pos rfl]

theorem processLine_28C (st : MLState) :
    processLine st (S ":28C:1/1") =
      .ok { st with statement_number := some (S "1/1") } := by
  have hform : S ":28C:1/1" = ':' :: (S "28C" ++ ':' :: S "1/1") := rfl
  rw [hform, processLine_tag_line st (S "28C") (S "1/1") (by decide) (by decide)]
  rw [if_neg (by decide), if_neg (by decide), if_pos rfl]

theorem dropWhile_append_last (p : Char → Bool) (l : RStr) (c : Char)
    (hc : p c = false) : ∃ l', (l ++ [c]).dropWhile p = l' ++ [c] := by
  induction l with
  | nil =>
    refine ⟨[], ?_⟩
    simp [List.dropWhile_cons, hc]
  | cons a t ih =>
    rw [List.cons_append, List.dropWhile_cons]
    by_cases ha : p a
    · rw [if_pos ha]
      exact ih
    · rw [if_neg ha]
      exact ⟨a :: t, rfl⟩

theorem trim_cons_head (c : Char) (rest : RStr) (h : isRustWS c = false) :
    ∃ r', trim (c :: rest) = c :: r' := by
  unfold trim
  rw [trimStart_cons_nonWS c rest h]
  unfold trimEnd
  rw [List.reverse_cons]
  obtain ⟨l', hl'⟩ := dropWhile_append_last (fun x => isRustWS x) rest.reverse c h
  rw [hl']
  exact ⟨l'.reverse, by simp⟩

theorem frameRun_append (l1 l2 : List RStr) : ∀ fs,
    frameRun fs (l1 ++ l2) =
      match frameRun fs l1 with
      | .error e => .error e
      | .ok fs2 => frameRun fs2 l2 := by
  induction l1 with
  | nil => intro fs; rfl
  | cons l ls ih =>
    intro fs
    show (match frameStep fs l with
          | .error e => (.error e : MRes FrameState)
          | .ok fs2 => frameRun fs2 (ls ++ l2)) =
        match (match frameStep fs l with
               | .error e => (.error e : MRes FrameState)
               | .ok fs2 => frameRun fs2 ls) with
        | .error e => .error e
        | .ok fs2 => frameRun fs2 l2
    cases frameStep fs l with
    | error e => rfl
    | ok fs2 =>
      dsimp only
      exact ih fs2

theorem frameStep_body (fs : FrameState) (r : RStr)
    (hin : fs.in_text = true) (hk : fs.block_kind = some .curly) :
    frameStep fs (':' :: r) = .ok { fs with message_lines := fs.message_lines ++ [':' :: r] } := by
  obtain ⟨r', hr'⟩ := trim_cons_head ':' r (by decide)
  simp only [frameStep, hr']
  rw [if_neg (by simp)]
  rw [hin]
  simp only [Bool.not_true, Bool.false_eq_true, if_false, reduceIte]
  rw [hk]
  have hclose : (closeMarkers .curly).any (fun p => startsWithStr (':' :: r') p) = false := by
    simp only [closeMarkers, List.any_cons, List.any_nil, Bool.or_eq_false_iff]
    refine ⟨?_, ?_, trivial⟩
    · simp [startsWithStr, S, List.isPrefixOf]
    · simp [startsWithStr, S, List.isPrefixOf]
  dsimp only
  rw [hclose]
  simp

theorem frameRun_body (ls : List RStr) : ∀ fs : FrameState,
    fs.in_text = true → fs.block_kind = some .curly →
    (∀ l ∈ ls, ∃ r, l = ':' :: r) →
    frameRun fs ls = .ok { fs with message_lines := fs.message_lines ++ ls } := by
  induction ls with
  | nil =>
    intro fs hin hk hcol
    show (.ok fs : MRes FrameState) = _
    congr 1
    cases fs
    simp
  | cons l ls2 ih =>
    intro fs hin hk hcol
    obtain ⟨r, rfl⟩ := hcol l (by simp)
    show (match frameStep fs (':' :: r) with
          | .error e => (.error e : MRes FrameState)
          | .ok fs2 => frameRun fs2 ls2) = _
    rw [frameStep_body fs r hin hk]
    dsimp only
    rw [ih _ (by simp [hin]) (by simp [hk])
      (fun l hl => hcol l (List.mem_cons_of_mem _ hl))]
    simp

theorem frameStep_open :
    frameStep frameInit (S "\x7b4:") = .ok ⟨some .curly, true, [], []⟩ := by rfl

theorem frameStep_close (fs : FrameState) (hin : fs.in_text = true)
    (hk : fs.block_kind = some .curly) :
    frameStep fs (S "-\x7d") =
      match from_string_lines fs.message_lines with
      | .error e => .error e
      | .ok msg =>
        .ok { fs with
              messages := fs.messages ++ [msg], message_lines := [], in_text := false } := by
  have ht : trim (S "-\x7d") = S "-\x7d" := rfl
  simp only [frameStep, ht]
  rw [if_neg (by decide)]
  rw [hin]
  simp only [Bool.not_true, Bool.false_eq_true, if_false, reduceIte]
  rw [hk]
  dsimp only
  rw [if_pos (by decide)]

theorem txsFromEntries_format (txs : List Transaction)
    (hyp : ∀ tx ∈ txs,
      (∃ vd : NDate, tx.value_date = some vd ∧ fromYmdOpt vd.y vd.m vd.d = some vd ∧
        1980 ≤ vd.y ∧ vd.y ≤ 2079 ∧ tx.booking_date.y = vd.y) ∧
      fromYmdOpt tx.booking_date.y tx.booking_date.m tx.booking_date.d =
        some tx.booking_date ∧
      tx.amount < 2 ^ 64) :
    ∃ txs', mt940TxsFromEntries (txs.map (fun tx => (⟨S ":61:" ++ format_61_line tx,
        format_yymmdd (tx.value_date.getD tx.booking_date),
        some (zeroPad2 tx.booking_date.m ++ zeroPad2 tx.booking_date.d),
        (match tx.direction with | .Debit => 'D' | .Credit => 'C'), none,
        format_minor_units (tx.amount : Int) ',', none, none, none, none,
        ⟨[tx.description]⟩⟩ : Mt940Entry))) = .ok txs' ∧
      List.Forall₂ (fun a b : Transaction => a.booking_date = b.booking_date ∧
        a.value_date = b.value_date ∧ a.amount = b.amount ∧
        a.direction = b.direction ∧ a.description = b.description) txs txs' := by
  induction txs with
  | nil => exact ⟨[], rfl, List.Forall₂.nil⟩
  | cons tx rest ih =>
    obtain ⟨⟨vd, hvd, hvdv, hy1, hy2, hbyy⟩, hbkv, hamt⟩ := hyp tx (by simp)
    obtain ⟨txs', hrun, hrel⟩ := ih (fun t ht => hyp t (List.mem_cons_of_mem _ ht))
    obtain ⟨-, hvm1, hvm2, hvd1, hvd2⟩ := fromYmdOpt_some _ _ _ _ hvdv
    obtain ⟨cp1, cp2, hconv⟩ := txFromEntry_format vd tx.booking_date tx.amount
      (match tx.direction with | .Debit => 'D' | .Credit => 'C') tx.direction
      (S ":61:" ++ format_61_line tx) tx.description
      (by cases hdir : tx.direction
          · exact Or.inr ⟨rfl, rfl⟩
          · exact Or.inl ⟨rfl, rfl⟩)
      hamt hvdv hy1 hy2 hbkv hbyy
    refine ⟨⟨tx.booking_date, some vd, tx.amount, tx.direction, tx.description,
      cp1, cp2⟩ :: txs', ?_, ?_⟩
    · rw [List.map_cons]
      show (match txFromMt940Entry _ with
            | .error er => (.error er : MRes (List Transaction))
            | .ok t =>
              match mt940TxsFromEntries (rest.map _) with
              | .error er => .error er
              | .ok ts => .ok (t :: ts)) = _
      rw [show (tx.value_date.getD tx.booking_date) = vd by rw [hvd]; rfl] at *
      rw [hconv]
      dsimp only
      rw [hrun]
    · exact List.Forall₂.cons ⟨rfl, hvd.symm ▸ rfl, rfl, rfl, rfl⟩ hrel

theorem parse_currency_code (c : Currency)
    (h : c = .RUB ∨ c = .EUR ∨ c = .USD ∨ c = .CNY) :
    parse_currency (mt940CurrencyCode c) = c := by
  rcases h with rfl | rfl | rfl | rfl <;> rfl

theorem mt940CurrencyCode_facts (c : Currency) :
    (mt940CurrencyCode c).length = 3 ∧
    ∀ x ∈ mt940CurrencyCode c, x.toNat < 128 ∧ isRustWS x = false ∧ x ≠ '\r' := by
  cases c with
  | RUB => exact ⟨rfl, by decide⟩
  | EUR => exact ⟨rfl, by decide⟩
  | USD => exact ⟨rfl, by decide⟩
  | CNY => exact ⟨rfl, by decide⟩
  | Other r =>
    refine ⟨rfl, ?_⟩
    show ∀ x ∈ S "XXX", x.toNat < 128 ∧ isRustWS x = false ∧ x ≠ '\r'
    decide

theorem signBalance_roundtrip (ob : Int) (h : ob.natAbs < 2 ^ 64) (msg : RStr) :
    ((((if ob ≥ 0 then ob else -ob) % (2 ^ 64 : Int)).toNat) = ob.natAbs) ∧
    signBalance ob.natAbs (if ob ≥ 0 then 'C' else 'D') msg = .ok ob := by
  constructor
  · by_cases hge : ob ≥ 0
    · rw [if_pos hge]
      omega
    · rw [if_neg hge]
      omega
  · by_cases hge : ob ≥ 0
    · rw [if_pos hge]
      unfold signBalance
      rw [if_pos rfl]
      congr 1
      omega
    · rw [if_neg hge]
      unfold signBalance
      rw [if_neg (by decide), if_pos rfl]
      congr 1
      omega

theorem forall2_booking (l1 l2 : List Transaction)
    (h : List.Forall₂ (fun a b : Transaction => a.booking_date = b.booking_date ∧
      a.value_date = b.value_date ∧ a.amount = b.amount ∧
      a.direction = b.direction ∧ a.description = b.description) l1 l2) :
    l2.map (fun t => t.booking_date) = l1.map (fun t => t.booking_date) := by
  induction h with
  | nil => rfl
  | cons hab _ ih => simp [ih, hab.1]

/-- C1 (amended): a conditional MT940 round-trip.  Under the stated
hypotheses -- known currency, opening balance present with |value| < 2^64,
valid in-range dates, closing balance (when present) with |value| < 2^64 and a
valid until date (when absent, period_until already equal to the latest booking
date), account id free of carriage returns and newlines, and per transaction a
present valid value date sharing the booking date's year, amount < 2^64, no
counterparty fields, and a non-empty trim-stable single-line description --
encoding with write_mt940 and decoding again succeeds and agrees with the
original statement on account id, currency, both balances, both period bounds,
and pairwise on booking date, value date, amount, direction and
description. -/
theorem c1_mt940_roundtrip_conditional (s : Statement)
    (hcur : s.currency = .RUB ∨ s.currency = .EUR ∨ s.currency = .USD ∨
      s.currency = .CNY)
    (hob : ∃ ob, s.opening_balance = some ob ∧ ob.natAbs < 2 ^ 64)
    (hfrom : fromYmdOpt s.period_from.y s.period_from.m s.period_from.d =
        some s.period_from ∧ 1980 ≤ s.period_from.y ∧ s.period_from.y ≤ 2079)
    (hclose : (s.closing_balance = none ∧ s.period_until =
        (listMaxDate (s.transactions.map (fun t => t.booking_date))).getD
          s.period_from) ∨
      (∃ cb, s.closing_balance = some cb ∧ cb.natAbs < 2 ^ 64 ∧
        fromYmdOpt s.period_until.y s.period_until.m s.period_until.d =
          some s.period_until ∧ 1980 ≤ s.period_until.y ∧ s.period_until.y ≤ 2079))
    (hacc : ∀ x ∈ s.account_id, x ≠ '\r' ∧ x ≠ '\n')
    (htxs : ∀ tx ∈ s.transactions,
      (∃ vd : NDate, tx.value_date = some vd ∧ fromYmdOpt vd.y vd.m vd.d = some vd ∧
        1980 ≤ vd.y ∧ vd.y ≤ 2079 ∧ tx.booking_date.y = vd.y) ∧
      fromYmdOpt tx.booking_date.y tx.booking_date.m tx.booking_date.d =
        some tx.booking_date ∧
      tx.amount < 2 ^ 64 ∧
      tx.counterparty = none ∧ tx.counterparty_name = none ∧
      tx.description ≠ [] ∧ trim tx.description = tx.description ∧
      (∀ x ∈ tx.description, x ≠ '\r' ∧ x ≠ '\n')) :
    ∃ s' : Statement, mt940Decode (write_mt940 s) = .ok s' ∧
      s'.account_id = s.account_id ∧ s'.currency = s.currency ∧
      s'.opening_balance = s.opening_balance ∧
      s'.closing_balance = s.closing_balance ∧
      s'.period_from = s.period_from ∧ s'.period_until = s.period_until ∧
      List.Forall₂ (fun a b : Transaction => a.booking_date = b.booking_date ∧
        a.value_date = b.value_date ∧ a.amount = b.amount ∧
        a.direction = b.direction ∧ a.description = b.description)
        s.transactions s'.transactions := by
  obtain ⟨ob, hobs, hoblt⟩ := hob
  obtain ⟨hfv, hfy1, hfy2⟩ := hfrom
  obtain ⟨-, hfm1, hfm2, hfd1, hfd2⟩ := fromYmdOpt_some _ _ _ _ hfv
  obtain ⟨hccyL, hccyF⟩ := mt940CurrencyCode_facts s.currency
  have habs := (signBalance_roundtrip ob hoblt []).1
  have hsign := (signBalance_roundtrip ob hoblt
    (S "unknown opening balance direction: ")).2
  -- the opening dc mark facts
  have hodc : (if ob ≥ 0 then 'C' else 'D').toNat < 128 ∧
      isRustWS (if ob ≥ 0 then 'C' else 'D') = false ∧
      (if ob ≥ 0 then 'C' else 'D') ≠ '\r' ∧
      ((if ob ≥ 0 then 'C' else 'D') = 'C' ∨ (if ob ≥ 0 then 'C' else 'D') = 'D') := by
    by_cases hge : ob ≥ 0
    · rw [if_pos hge]
      exact ⟨by decide, by decide, by decide, Or.inl rfl⟩
    · rw [if_neg hge]
      exact ⟨by decide, by decide, by decide, Or.inr rfl⟩
  have hfmuO : ∀ c ∈ format_minor_units ((ob.natAbs : Nat) : Int) ',',
      c.toNat < 128 ∧ isRustWS c = false ∧ c ≠ '\r' := by
    intro c hc
    rcases format_minor_chars ob.natAbs c hc with h | h
    · have hn : 48 ≤ c.toNat ∧ c.toNat ≤ 57 := by simpa [isAsciiDigit] using h
      refine ⟨by omega, (digit_facts c h).1, ?_⟩
      intro hcon
      subst hcon
      simp [isAsciiDigit] at h
    · subst h
      exact ⟨by decide, by decide, by decide⟩
  -- write_mt940 s restructured as open :: (body ++ [close])
  have hwrite : write_mt940 s = S "\x7b4:" ::
      (([S ":20:SERIALIZED", S ":25:" ++ s.account_id, S ":28C:1/1",
         S ":60F:" ++ ((if ob ≥ 0 then 'C' else 'D') ::
           (format_yymmdd s.period_from ++ mt940CurrencyCode s.currency ++
            format_minor_units ((ob.natAbs : Nat) : Int) ','))] ++
        s.transactions.flatMap write_mt940_tx ++
        (match s.closing_balance with
         | some closing_minor =>
           [S ":62F:" ++ ((if closing_minor ≥ 0 then 'C' else 'D') ::
             (format_yymmdd s.period_until ++ mt940CurrencyCode s.currency ++
              format_minor_units
                (((if closing_minor ≥ 0 then closing_minor else -closing_minor) %
                  (2 ^ 64 : Int)).toNat : Int) ','))]
         | none => [])) ++ [S "-\x7d"]) := by
    simp only [write_mt940, hobs, Option.getD_some, habs]
    simp [List.append_assoc]
  -- header state after the four header lines
  have hhdr : processLines mlInit [S ":20:SERIALIZED", S ":25:" ++ s.account_id,
      S ":28C:1/1",
      S ":60F:" ++ ((if ob ≥ 0 then 'C' else 'D') ::
        (format_yymmdd s.period_from ++ mt940CurrencyCode s.currency ++
         format_minor_units ((ob.natAbs : Nat) : Int) ','))] =
      .ok ⟨some (S "SERIALIZED"), some s.account_id, some (S "1/1"),
        some ⟨(if ob ≥ 0 then 'C' else 'D'), format_yymmdd s.period_from,
          mt940CurrencyCode s.currency,
          format_minor_units ((ob.natAbs : Nat) : Int) ','⟩, none, none, [], none⟩ := by
    simp only [processLines]
    rw [processLine_20 mlInit]
    dsimp only
    rw [processLine_25 _ s.account_id (fun x hx => (hacc x hx).1)]
    dsimp only
    rw [processLine_28C]
    dsimp only
    rw [processLine_60F _ rfl (if ob ≥ 0 then 'C' else 'D') s.period_from
      (mt940CurrencyCode s.currency) (format_minor_units ((ob.natAbs : Nat) : Int) ',')
      hodc.1 hodc.2.1 hodc.2.2.1 (by omega) (by omega) hccyL hccyF
      (format_minor_ne_nil ob.natAbs) hfmuO]
    rfl
  have htxs2 : ∀ tx ∈ s.transactions,
      (∃ vd : NDate, tx.value_date = some vd ∧ vd.m < 100 ∧ vd.d < 100) ∧
      tx.booking_date.m < 100 ∧ tx.booking_date.d < 100 ∧
      tx.counterparty = none ∧ tx.counterparty_name = none ∧
      tx.description ≠ [] ∧ trim tx.description = tx.description ∧
      (∀ x ∈ tx.description, x ≠ '\r') := by
    intro tx ht
    obtain ⟨⟨vd, hvd, hvdv, -, -, -⟩, hbkv, -, hcp, hcpn, hne, hts, hdCR⟩ := htxs tx ht
    obtain ⟨-, -, hm2, -, hd2⟩ := fromYmdOpt_some _ _ _ _ hvdv
    obtain ⟨-, -, hbm2, -, hbd2⟩ := fromYmdOpt_some _ _ _ _ hbkv
    exact ⟨⟨vd, hvd, by omega, by omega⟩, by omega, by omega, hcp, hcpn, hne, hts,
      fun x hx => (hdCR x hx).1⟩
  obtain ⟨st1, hst1run, hq1, hq2, hq3, hq4, hq5, hq6, hcomb⟩ :=
    processLines_txs s.transactions
      ⟨some (S "SERIALIZED"), some s.account_id, some (S "1/1"),
        some ⟨(if ob ≥ 0 then 'C' else 'D'), format_yymmdd s.period_from,
          mt940CurrencyCode s.currency,
          format_minor_units ((ob.natAbs : Nat) : Int) ','⟩, none, none, [], none⟩
      htxs2
  have htxs3 : ∀ tx ∈ s.transactions,
      (∃ vd : NDate, tx.value_date = some vd ∧ fromYmdOpt vd.y vd.m vd.d = some vd ∧
        1980 ≤ vd.y ∧ vd.y ≤ 2079 ∧ tx.booking_date.y = vd.y) ∧
      fromYmdOpt tx.booking_date.y tx.booking_date.m tx.booking_date.d =
        some tx.booking_date ∧
      tx.amount < 2 ^ 64 := by
    intro tx ht
    obtain ⟨hvdb, hbkv, hamt, -⟩ := htxs tx ht
    exact ⟨hvdb, hbkv, hamt⟩
  obtain ⟨txs', htxsrun, hrel⟩ := txsFromEntries_format s.transactions htxs3
  have hbodycolon : ∀ closing : List RStr,
      (∀ l ∈ closing, ∃ r : RStr, l = ':' :: r) →
      ∀ l ∈ [S ":20:SERIALIZED", S ":25:" ++ s.account_id, S ":28C:1/1",
        S ":60F:" ++ ((if ob ≥ 0 then 'C' else 'D') ::
          (format_yymmdd s.period_from ++ mt940CurrencyCode s.currency ++
           format_minor_units ((ob.natAbs : Nat) : Int) ','))] ++
        s.transactions.flatMap write_mt940_tx ++ closing,
      ∃ r : RStr, l = ':' :: r := by
    intro closing hcl l hl
    rcases List.mem_append.mp hl with hl | hl
    · rcases List.mem_append.mp hl with hl | hl
      · simp only [List.mem_cons, List.not_mem_nil, or_false] at hl
        rcases hl with rfl | rfl | rfl | rfl
        · exact ⟨_, rfl⟩
        · exact ⟨_, rfl⟩
        · exact ⟨_, rfl⟩
        · exact ⟨_, rfl⟩
      · rw [List.mem_flatMap] at hl
        obtain ⟨tx, htx, hltx⟩ := hl
        obtain ⟨-, -, -, hcp, hcpn, hne, hts, -⟩ := htxs tx htx
        rw [write_tx_lines tx hcp hcpn hne hts] at hltx
        simp only [List.mem_cons, List.not_mem_nil, or_false] at hltx
        rcases hltx with rfl | rfl
        · exact ⟨_, rfl⟩
        · exact ⟨_, rfl⟩
    · exact hcl l hl
  rcases hclose with ⟨hcbn, huntil⟩ | ⟨cb, hcbs, hcblt, huv, huy1, huy2⟩
  · -- no closing balance
    rw [hcbn] at hwrite
    have hfsl : from_string_lines
        ([S ":20:SERIALIZED", S ":25:" ++ s.account_id, S ":28C:1/1",
          S ":60F:" ++ ((if ob ≥ 0 then 'C' else 'D') ::
            (format_yymmdd s.period_from ++ mt940CurrencyCode s.currency ++
             format_minor_units ((ob.natAbs : Nat) : Int) ','))] ++
          s.transactions.flatMap write_mt940_tx ++ []) =
        .ok ⟨some (S "SERIALIZED"), s.account_id, some (S "1/1"),
          ⟨(if ob ≥ 0 then 'C' else 'D'), format_yymmdd s.period_from,
            mt940CurrencyCode s.currency,
            format_minor_units ((ob.natAbs : Nat) : Int) ','⟩,
          s.transactions.map (fun tx => (⟨S ":61:" ++ format_61_line tx,
            format_yymmdd (tx.value_date.getD tx.booking_date),
            some (zeroPad2 tx.booking_date.m ++ zeroPad2 tx.booking_date.d),
            (match tx.direction with | .Debit => 'D' | .Credit => 'C'), none,
            format_minor_units (tx.amount : Int) ',', none, none, none, none,
            ⟨[tx.description]⟩⟩ : Mt940Entry)),
          none, none⟩ := by
      simp only [from_string_lines]
      rw [processLines_append, processLines_append, hhdr]
      dsimp only
      rw [hst1run]
      dsimp only
      show (match processLines st1 [] with
            | .error e => (.error e : MRes Mt940Message)
            | .ok st => _) = _
      dsimp only [processLines]
      rw [hq2, hq4]
      dsimp only
      simp only [List.nil_append] at hcomb
      rw [hcomb, hq5, hq6, hq1, hq3]
    have hframe : frameRun frameInit (write_mt940 s) =
        .ok ⟨some .curly, false, [],
          [⟨some (S "SERIALIZED"), s.account_id, some (S "1/1"),
            ⟨(if ob ≥ 0 then 'C' else 'D'), format_yymmdd s.period_from,
              mt940CurrencyCode s.currency,
              format_minor_units ((ob.natAbs : Nat) : Int) ','⟩,
            s.transactions.map (fun tx => (⟨S ":61:" ++ format_61_line tx,
              format_yymmdd (tx.value_date.getD tx.booking_date),
              some (zeroPad2 tx.booking_date.m ++ zeroPad2 tx.booking_date.d),
              (match tx.direction with | .Debit => 'D' | .Credit => 'C'), none,
              format_minor_units (tx.amount : Int) ',', none, none, none, none,
              ⟨[tx.description]⟩⟩ : Mt940Entry)),
            none, none⟩]⟩ := by
      rw [hwrite]
      show (match frameStep frameInit (S "\x7b4:") with
            | .error e => (.error e : MRes FrameState)
            | .ok fs2 => frameRun fs2 _) = _
      rw [frameStep_open]
      dsimp only
      rw [frameRun_append]
      rw [frameRun_body _ _ rfl rfl (hbodycolon [] (by intro l hl; cases hl))]
      dsimp only
      show (match frameStep _ (S "-\x7d") with
            | .error e => (.error e : MRes FrameState)
            | .ok fs3 => frameRun fs3 []) = _
      rw [frameStep_close _ rfl rfl]
      simp only [List.nil_append]
      rw [hfsl]
      rfl
    have hparse : mt940Parse (write_mt940 s) =
        .ok ⟨⟨some (S "SERIALIZED"), s.account_id, some (S "1/1"),
          ⟨(if ob ≥ 0 then 'C' else 'D'), format_yymmdd s.period_from,
            mt940CurrencyCode s.currency,
            format_minor_units ((ob.natAbs : Nat) : Int) ','⟩,
          s.transactions.map (fun tx => (⟨S ":61:" ++ format_61_line tx,
            format_yymmdd (tx.value_date.getD tx.booking_date),
            some (zeroPad2 tx.booking_date.m ++ zeroPad2 tx.booking_date.d),
            (match tx.direction with | .Debit => 'D' | .Credit => 'C'), none,
            format_minor_units (tx.amount : Int) ',', none, none, none, none,
            ⟨[tx.description]⟩⟩ : Mt940Entry)),
          none, none⟩⟩ := by
      simp only [mt940Parse]
      rw [hframe]
      rfl
    refine ⟨⟨s.account_id, none, s.currency, some ob, none, txs',
      s.period_from, s.period_until⟩, ?_, rfl, rfl, hobs.symm, hcbn.symm, rfl, rfl, hrel⟩
    simp only [mt940Decode]
    rw [hparse]
    try dsimp only
    simp only [stmtFromMt940Message]
    try dsimp only
    rw [parse_amount_format_minor ob.natAbs hoblt]
    try dsimp only
    rw [hsign]
    try dsimp only
    rw [yymmdd_roundtrip s.period_from hfv hfy1 hfy2]
    try dsimp only
    rw [htxsrun]
    try dsimp only
    rw [forall2_booking _ _ hrel]
    rw [parse_currency_code s.currency hcur]
    rw [← huntil]
  · -- closing balance present
    obtain ⟨-, hum1, hum2, hud1, hud2⟩ := fromYmdOpt_some _ _ _ _ huv
    have habsC := (signBalance_roundtrip cb hcblt []).1
    have hsignC := (signBalance_roundtrip cb hcblt
      (S "unknown closing balance direction: ")).2
    have hcdc : (if cb ≥ 0 then 'C' else 'D').toNat < 128 ∧
        isRustWS (if cb ≥ 0 then 'C' else 'D') = false ∧
        (if cb ≥ 0 then 'C' else 'D') ≠ '\r' := by
      by_cases hge : cb ≥ 0
      · rw [if_pos hge]
        exact ⟨by decide, by decide, by decide⟩
      · rw [if_neg hge]
        exact ⟨by decide, by decide, by decide⟩
    have hfmuC : ∀ c ∈ format_minor_units ((cb.natAbs : Nat) : Int) ',',
        c.toNat < 128 ∧ isRustWS c = false ∧ c ≠ '\r' := by
      intro c hc
      rcases format_minor_chars cb.natAbs c hc with h | h
      · have hn : 48 ≤ c.toNat ∧ c.toNat ≤ 57 := by simpa [isAsciiDigit] using h
        refine ⟨by omega, (digit_facts c h).1, ?_⟩
        intro hcon
        subst hcon
        simp [isAsciiDigit] at h
      · subst h
        exact ⟨by decide, by decide, by decide⟩
    rw [hcbs] at hwrite
    rw [show (match some cb with
         | some closing_minor =>
           [S ":62F:" ++ ((if closing_minor ≥ 0 then 'C' else 'D') ::
             (format_yymmdd s.period_until ++ mt940CurrencyCode s.currency ++
              format_minor_units
                (((if closing_minor ≥ 0 then closing_minor else -closing_minor) %
                  (2 ^ 64 : Int)).toNat : Int) ','))]
         | none => ([] : List RStr)) =
        [S ":62F:" ++ ((if cb ≥ 0 then 'C' else 'D') ::
          (format_yymmdd s.period_until ++ mt940CurrencyCode s.currency ++
           format_minor_units ((cb.natAbs : Nat) : Int) ','))] by
      rw [show (match some cb with
           | some closing_minor =>
             [S ":62F:" ++ ((if closing_minor ≥ 0 then 'C' else 'D') ::
               (format_yymmdd s.period_until ++ mt940CurrencyCode s.currency ++
                format_minor_units
                  (((if closing_minor ≥ 0 then closing_minor else -closing_minor) %
                    (2 ^ 64 : Int)).toNat : Int) ','))]
           | none => ([] : List RStr)) =
          [S ":62F:" ++ ((if cb ≥ 0 then 'C' else 'D') ::
            (format_yymmdd s.period_until ++ mt940CurrencyCode s.currency ++
             format_minor_units
               (((if cb ≥ 0 then cb else -cb) % (2 ^ 64 : Int)).toNat : Int) ','))]
        from rfl]
      rw [habsC]] at hwrite
    have hfsl : from_string_lines
        ([S ":20:SERIALIZED", S ":25:" ++ s.account_id, S ":28C:1/1",
          S ":60F:" ++ ((if ob ≥ 0 then 'C' else 'D') ::
            (format_yymmdd s.period_from ++ mt940CurrencyCode s.currency ++
             format_minor_units ((ob.natAbs : Nat) : Int) ','))] ++
          s.transactions.flatMap write_mt940_tx ++
          [S ":62F:" ++ ((if cb ≥ 0 then 'C' else 'D') ::
            (format_yymmdd s.period_until ++ mt940CurrencyCode s.currency ++
             format_minor_units ((cb.natAbs : Nat) : Int) ','))]) =
        .ok ⟨some (S "SERIALIZED"), s.account_id, some (S "1/1"),
          ⟨(if ob ≥ 0 then 'C' else 'D'), format_yymmdd s.period_from,
            mt940CurrencyCode s.currency,
            format_minor_units ((ob.natAbs : Nat) : Int) ','⟩,
          s.transactions.map (fun tx => (⟨S ":61:" ++ format_61_line tx,
            format_yymmdd (tx.value_date.getD tx.booking_date),
            some (zeroPad2 tx.booking_date.m ++ zeroPad2 tx.booking_date.d),
            (match tx.direction with | .Debit => 'D' | .Credit => 'C'), none,
            format_minor_units (tx.amount : Int) ',', none, none, none, none,
            ⟨[tx.description]⟩⟩ : Mt940Entry)),
          some ⟨(if cb ≥ 0 then 'C' else 'D'), format_yymmdd s.period_until,
            mt940CurrencyCode s.currency,
            format_minor_units ((cb.natAbs : Nat) : Int) ','⟩, none⟩ := by
      simp only [from_string_lines]
      rw [processLines_append, processLines_append, hhdr]
      dsimp only
      rw [hst1run]
      dsimp only
      show (match processLines st1 _ with
            | .error e => (.error e : MRes Mt940Message)
            | .ok st => _) = _
      simp only [processLines]
      rw [processLine_62F st1 (if cb ≥ 0 then 'C' else 'D') s.period_until
        (mt940CurrencyCode s.currency) (format_minor_units ((cb.natAbs : Nat) : Int) ',')
        hcdc.1 hcdc.2.1 hcdc.2.2 (by omega) (by omega) hccyL hccyF
        (format_minor_ne_nil cb.natAbs) hfmuC]
      dsimp only
      rw [hq2, hq4]
      dsimp only
      simp only [List.nil_append] at hcomb
      rw [hcomb, hq6, hq1, hq3]
    have hframe : frameRun frameInit (write_mt940 s) =
        .ok ⟨some .curly, false, [],
          [⟨some (S "SERIALIZED"), s.account_id, some (S "1/1"),
            ⟨(if ob ≥ 0 then 'C' else 'D'), format_yymmdd s.period_from,
              mt940CurrencyCode s.currency,
              format_minor_units ((ob.natAbs : Nat) : Int) ','⟩,
            s.transactions.map (fun tx => (⟨S ":61:" ++ format_61_line tx,
              format_yymmdd (tx.value_date.getD tx.booking_date),
              some (zeroPad2 tx.booking_date.m ++ zeroPad2 tx.booking_date.d),
              (match tx.direction with | .Debit => 'D' | .Credit => 'C'), none,
              format_minor_units (tx.amount : Int) ',', none, none, none, none,
              ⟨[tx.description]⟩⟩ : Mt940Entry)),
            some ⟨(if cb ≥ 0 then 'C' else 'D'), format_yymmdd s.period_until,
              mt940CurrencyCode s.currency,
              format_minor_units ((cb.natAbs : Nat) : Int) ','⟩, none⟩]⟩ := by
      rw [hwrite]
      show (match frameStep frameInit (S "\x7b4:") with
            | .error e => (.error e : MRes FrameState)
            | .ok fs2 => frameRun fs2 _) = _
      rw [frameStep_open]
      dsimp only
      rw [frameRun_append]
      rw [frameRun_body _ _ rfl rfl (hbodycolon _ (by
        intro l hl
        rcases List.mem_singleton.mp hl with rfl
        exact ⟨_, rfl⟩))]
      dsimp only
      show (match frameStep _ (S "-\x7d") with
            | .error e => (.error e : MRes FrameState)
            | .ok fs3 => frameRun fs3 []) = _
      rw [frameStep_close _ rfl rfl]
      simp only [List.nil_append]
      rw [hfsl]
      rfl
    have hparse : mt940Parse (write_mt940 s) =
        .ok ⟨⟨some (S "SERIALIZED"), s.account_id, some (S "1/1"),
          ⟨(if ob ≥ 0 then 'C' else 'D'), format_yymmdd s.period_from,
            mt940CurrencyCode s.currency,
            format_minor_units ((ob.natAbs : Nat) : Int) ','⟩,
          s.transactions.map (fun tx => (⟨S ":61:" ++ format_61_line tx,
            format_yymmdd (tx.value_date.getD tx.booking_date),
            some (zeroPad2 tx.booking_date.m ++ zeroPad2 tx.booking_date.d),
            (match tx.direction with | .Debit => 'D' | .Credit => 'C'), none,
            format_minor_units (tx.amount : Int) ',', none, none, none, none,
            ⟨[tx.description]⟩⟩ : Mt940Entry)),
          some ⟨(if cb ≥ 0 then 'C' else 'D'), format_yymmdd s.period_until,
            mt940CurrencyCode s.currency,
            format_minor_units ((cb.natAbs : Nat) : Int) ','⟩, none⟩⟩ := by
      simp only [mt940Parse]
      rw [hframe]
      rfl
    refine ⟨⟨s.account_id, none, s.currency, some ob, some cb, txs',
      s.period_from, s.period_until⟩, ?_, rfl, rfl, hobs.symm, hcbs.symm, rfl, rfl, hrel⟩
    simp only [mt940Decode]
    rw [hparse]
    try dsimp only
    simp only [stmtFromMt940Message]
    try dsimp only
    rw [parse_amount_format_minor ob.natAbs hoblt]
    try dsimp only
    rw [hsign]
    try dsimp only
    rw [parse_amount_format_minor cb.natAbs hcblt]
    try dsimp only
    rw [hsignC]
    try dsimp only
    rw [yymmdd_roundtrip s.period_from hfv hfy1 hfy2]
    try dsimp only
    rw [htxsrun]
    try dsimp only
    rw [yymmdd_roundtrip s.period_until huv huy1 huy2]
    rw [parse_currency_code s.currency hcur]

/-- C1 counterexample: the round-trip claim fails as stated.  An MT940
document with currency code CHF decodes to `Other "CHF"`, but `write_mt940`
encodes every non-built-in currency as the placeholder "XXX", so decoding the
re-encoded output yields currency `Other "XXX"` ≠ `Other "CHF"`. -/
theorem c1_counterexample_currency_placeholder :
    mt940Decode c1ChfLines = .ok c1ChfStm ∧
    (mt940Decode (write_mt940 c1ChfStm)).map (fun s2 : Statement => s2.currency) =
      .ok (.Other (S "XXX")) ∧
    c1ChfStm.currency = .Other (S "CHF") ∧
    (Currency.Other (S "XXX") : Currency) ≠ .Other (S "CHF") :=
  ⟨by rfl, by rfl, rfl, by decide⟩

/-- Witness for C1: the conditional round-trip applied at a concrete
statement satisfying every hypothesis. -/
theorem c1_witness :
    ∃ s' : Statement, mt940Decode (write_mt940 c1Stmt) = .ok s' ∧
      s'.account_id = c1Stmt.account_id ∧ s'.currency = c1Stmt.currency ∧
      s'.opening_balance = c1Stmt.opening_balance ∧
      s'.closing_balance = c1Stmt.closing_balance ∧
      s'.period_from = c1Stmt.period_from ∧ s'.period_until = c1Stmt.period_until ∧
      List.Forall₂ (fun a b : Transaction => a.booking_date = b.booking_date ∧
        a.value_date = b.value_date ∧ a.amount = b.amount ∧
        a.direction = b.direction ∧ a.description = b.description)
        c1Stmt.transactions s'.transactions :=
  c1_mt940_roundtrip_conditional c1Stmt (Or.inr (Or.inl rfl)) ⟨10000, rfl, by decide⟩
    ⟨by decide, by decide, by decide⟩
    (Or.inr ⟨15000, rfl, by decide, by decide, by decide, by decide⟩)
    (by decide)
    (by
      intro tx htx
      rcases List.mem_singleton.mp htx with rfl
      exact ⟨⟨⟨2023, 1, 1⟩, rfl, by decide, by decide, by decide, rfl⟩, by decide,
        by decide, rfl, rfl, by decide, by decide, by decide⟩)

end FinParser
